import Mathlib

/-!
# ChickStatus: agent/core coordination fabric

A shallow embedding of the core-side hub (`core/internal/ws/hub.go`), the
protocol handler (`core/internal/ws/handler.go`), the wire envelope
(`core/pkg/protocol/message.go`), the agent registry service
(`core/internal/service/agent.go`) and the metric model
(`core/internal/models/metrics.go`), followed by the properties established
about them.

Conventions of the embedding.

* A Go `*AgentConn` is a value `AgentConn` made of its allocation identity
  `ptr` and its immutable field `ID`; the mutable part of a connection, its
  `SendChan`, lives in the hub state, indexed by the connection.
* A buffered Go channel is the list of queued elements (oldest first) together
  with a `closed` flag. A send on a closed channel and a close of a closed
  channel panic; a panic is the `Except.error` outcome of a step.
* The hub loop `Hub.Run` handles one event per iteration; `Hub.step` is one
  iteration and `Hub.run` folds it over a sequence of events.
* Calls into collaborators (services, the socket) are recorded as effects, in
  program order.
-/

namespace ChickStatus

/-! ## Part I. Definitions -/

/-! ### JSON values (`encoding/json`)

A JSON text is represented by the value it denotes: the writer and the scanner of
the Go standard library are not part of this repository. A number literal is
represented by its value, a rational; every finite `float64` is one, and JSON
cannot carry NaN or an infinity. Go strings are taken to be valid UTF-8.

The decoders below read the objects that `json.Marshal` writes for the structs of the
repository: member names are matched as written, the last of repeated members wins, and
a number is read by its value. The library decoder differs on other texts: it also
accepts a member name that differs from the tag in letter case, it rejects a number
literal with a fraction or an exponent for an integer field, and it rejects a literal
beyond the range of `float64`. A statement about every frame that can be received
therefore takes the decoder as a parameter (`Handler.ServeWS`). -/

/-- JSON value trees. -/
inductive JValue where
  | null
  | bool (b : Bool)
  | num (q : ℚ)
  | str (s : String)
  | arr (xs : List JValue)
  | obj (kvs : List (String × JValue))

/-- Value that ends up in the struct field tagged `name` when the object `kvs` is
decoded: keys are processed in order, so the last occurrence wins. -/
def getField : List (String × JValue) → String → Option JValue
  | [], _ => none
  | (k, v) :: rest, name =>
    match getField rest name with
    | some w => some w
    | none => if k = name then some v else none

/-- Range of `int64` (and of `int` on a 64-bit platform). -/
def isInt64 (n : Int) : Prop := -(2 : Int) ^ 63 ≤ n ∧ n < (2 : Int) ^ 63

instance (n : Int) : Decidable (isInt64 n) := by unfold isInt64; infer_instance

/-- Range of `uint64`. -/
def isUint64 (n : Nat) : Prop := n < 2 ^ 64

instance (n : Nat) : Decidable (isUint64 n) := by unfold isUint64; infer_instance

/-- Decoding into a `string` field; `none` as argument is an absent key, `none` as
result a decoding error. An absent key and `null` leave the zero value. -/
def decString : Option JValue → Option String
  | none => some ""
  | some .null => some ""
  | some (.str s) => some s
  | some _ => none

/-- Decoding into a `bool` field. -/
def decBool : Option JValue → Option Bool
  | none => some false
  | some .null => some false
  | some (.bool b) => some b
  | some _ => none

/-- Decoding into an `int64` or `int` field: the number must be an integer in range. -/
def decInt64 : Option JValue → Option Int
  | none => some 0
  | some .null => some 0
  | some (.num q) => if q.den = 1 ∧ isInt64 q.num then some q.num else none
  | some _ => none

/-- Decoding into a `uint64` field: the number must be a natural number in range. -/
def decUint64 : Option JValue → Option Nat
  | none => some 0
  | some .null => some 0
  | some (.num q) => if q.den = 1 ∧ 0 ≤ q.num ∧ isUint64 q.num.toNat then some q.num.toNat else none
  | some _ => none

/-- Decoding into a `float64` field. -/
def decFloat64 : Option JValue → Option ℚ
  | none => some 0
  | some .null => some 0
  | some (.num q) => some q
  | some _ => none

/-- Decoding into a struct-typed destination that starts at `zero`; `fields` decodes the
members of a JSON object. -/
def decStruct {α : Type} (fields : List (String × JValue) → Option α) (zero : α) :
    Option JValue → Option α
  | none => some zero
  | some .null => some zero
  | some (.obj kvs) => fields kvs
  | some _ => none

/-- The call `json.Unmarshal(raw, &dst)` on a `json.RawMessage`; `none` is the empty
raw message, which is not a JSON text. -/
def unmarshalRaw {α : Type} (fields : List (String × JValue) → Option α) (zero : α) :
    Option JValue → Option α
  | none => none
  | some v => decStruct fields zero (some v)

/-- A `map[string]string` is the list of its entries in increasing key order; a nil
map and an empty map both have no entries. `mapSet m k v` is `m[k] = v`. -/
def mapSet : List (String × String) → String → String → List (String × String)
  | [], k, v => [(k, v)]
  | (k1, v1) :: rest, k, v =>
    if k = k1 then (k, v) :: rest
    else if k.data < k1.data then (k, v) :: (k1, v1) :: rest
    else (k1, v1) :: mapSet rest k v

/-- Keys of a map value are strictly increasing. -/
def isStringMap (m : List (String × String)) : Prop :=
  (m.map (fun e => e.1.data)).Pairwise (fun a b => a < b)

instance (m : List (String × String)) : Decidable (isStringMap m) := by
  unfold isStringMap; infer_instance

/-- Decoding the members of a JSON object into a `map[string]string`, starting from
the map `acc`. -/
def decMapEntries : List (String × JValue) → List (String × String) → Option (List (String × String))
  | [], acc => some acc
  | (k, .str s) :: rest, acc => decMapEntries rest (mapSet acc k s)
  | (k, .null) :: rest, acc => decMapEntries rest (mapSet acc k "")
  | _ :: _, _ => none

/-- Decoding into a `map[string]string` field. -/
def decStringMap : Option JValue → Option (List (String × String))
  | none => some []
  | some .null => some []
  | some (.obj kvs) => decMapEntries kvs []
  | some _ => none

/-- Member of a field tagged `omitempty`, for a string. -/
def omitString (k s : String) : List (String × JValue) :=
  if s = "" then [] else [(k, .str s)]

/-- Member of a field tagged `omitempty`, for an `int`. -/
def omitInt (k : String) (n : Int) : List (String × JValue) :=
  if n = 0 then [] else [(k, .num n)]

/-- Member of a field tagged `omitempty`, for a `map[string]string`; the encoder writes
the entries in increasing key order. -/
def omitStringMap (k : String) (m : List (String × String)) : List (String × JValue) :=
  if m = [] then [] else [(k, .obj (m.map (fun e => (e.1, JValue.str e.2))))]

/-! ### Wire protocol (`core/pkg/protocol/message.go`) -/

/-- Message type `heartbeat`. -/
def MsgTypeHeartbeat : String := "heartbeat"
/-- Message type `register`. -/
def MsgTypeRegister : String := "register"
/-- Message type `register_ack`. -/
def MsgTypeRegisterAck : String := "register_ack"
/-- Message type `metrics`. -/
def MsgTypeMetrics : String := "metrics"
/-- Message type `metrics_ack`. -/
def MsgTypeMetricsAck : String := "metrics_ack"
/-- Message type `task_assign`. -/
def MsgTypeTaskAssign : String := "task_assign"
/-- Message type `task_ack`. -/
def MsgTypeTaskAck : String := "task_ack"
/-- Message type `task_result`. -/
def MsgTypeTaskResult : String := "task_result"
/-- Message type `config`. -/
def MsgTypeConfig : String := "config"
/-- Message type `error`. -/
def MsgTypeError : String := "error"

/-- The ten message types. -/
def msgTypes : List String :=
  [MsgTypeHeartbeat, MsgTypeRegister, MsgTypeRegisterAck, MsgTypeMetrics, MsgTypeMetricsAck,
   MsgTypeTaskAssign, MsgTypeTaskAck, MsgTypeTaskResult, MsgTypeConfig, MsgTypeError]

/-- The envelope `Message` (`Typ` is the field `Type`); `Payload` is a
`json.RawMessage`, `none` when it holds no bytes. -/
structure Message where
  Typ : String
  ID : String
  Timestamp : Int
  Payload : Option JValue

/-- The function `NewMessage`, given the encoding `data` of the payload, the fresh id
and `time.Now().UnixMilli()`. -/
def NewMessage (msgType id : String) (now : Int) (data : JValue) : Message :=
  { Typ := msgType, ID := id, Timestamp := now, Payload := some data }

/-- The call `json.Marshal(m)` for a `Message`; an empty raw message is written as
`null`. -/
def Message.marshal (m : Message) : JValue :=
  .obj [("type", .str m.Typ), ("id", .str m.ID), ("ts", .num m.Timestamp),
        ("payload", m.Payload.getD .null)]

/-- Members of a JSON object decoded into a `Message`. -/
def Message.fields (kvs : List (String × JValue)) : Option Message :=
  match decString (getField kvs "type"), decString (getField kvs "id"),
        decInt64 (getField kvs "ts") with
  | some t, some i, some ts => some { Typ := t, ID := i, Timestamp := ts, Payload := getField kvs "payload" }
  | _, _, _ => none

/-- The call `json.Unmarshal(data, &msg)` for a `Message` on the JSON text `data`. -/
def Message.unmarshal (data : JValue) : Option Message :=
  decStruct Message.fields { Typ := "", ID := "", Timestamp := 0, Payload := none } (some data)

/-- The struct `RegisterPayload`. -/
structure RegisterPayload where
  Hostname : String
  OS : String
  Arch : String
  Version : String
  Token : String
deriving DecidableEq, Repr

/-- The call `json.Marshal` for a `RegisterPayload`. -/
def RegisterPayload.marshal (p : RegisterPayload) : JValue :=
  .obj [("hostname", .str p.Hostname), ("os", .str p.OS), ("arch", .str p.Arch),
        ("version", .str p.Version), ("token", .str p.Token)]

/-- Members of a JSON object decoded into a `RegisterPayload`. -/
def RegisterPayload.fields (kvs : List (String × JValue)) : Option RegisterPayload :=
  match decString (getField kvs "hostname"), decString (getField kvs "os"),
        decString (getField kvs "arch"), decString (getField kvs "version"),
        decString (getField kvs "token") with
  | some h, some o, some a, some v, some t =>
    some { Hostname := h, OS := o, Arch := a, Version := v, Token := t }
  | _, _, _, _, _ => none

/-- The call `json.Unmarshal(raw, &payload)` for a `RegisterPayload`. -/
def RegisterPayload.unmarshal (raw : Option JValue) : Option RegisterPayload :=
  unmarshalRaw RegisterPayload.fields
    { Hostname := "", OS := "", Arch := "", Version := "", Token := "" } raw

/-- The struct `RegisterAckPayload`. -/
structure RegisterAckPayload where
  AgentID : String
  Success : Bool
  Error : String
deriving DecidableEq, Repr

/-- The call `json.Marshal` for a `RegisterAckPayload`. -/
def RegisterAckPayload.marshal (p : RegisterAckPayload) : JValue :=
  .obj ([("agent_id", .str p.AgentID), ("success", .bool p.Success)] ++ omitString "error" p.Error)

/-- Members of a JSON object decoded into a `RegisterAckPayload`. -/
def RegisterAckPayload.fields (kvs : List (String × JValue)) : Option RegisterAckPayload :=
  match decString (getField kvs "agent_id"), decBool (getField kvs "success"),
        decString (getField kvs "error") with
  | some a, some s, some e => some { AgentID := a, Success := s, Error := e }
  | _, _, _ => none

/-- The call `json.Unmarshal(raw, &payload)` for a `RegisterAckPayload`. -/
def RegisterAckPayload.unmarshal (raw : Option JValue) : Option RegisterAckPayload :=
  unmarshalRaw RegisterAckPayload.fields { AgentID := "", Success := false, Error := "" } raw

/-- The struct `MemoryStats` of the protocol package. -/
structure MemoryStats where
  Total : Nat
  Used : Nat
  Available : Nat
  Percent : ℚ
deriving DecidableEq, Repr

/-- The zero `MemoryStats`. -/
def MemoryStats.zero : MemoryStats := { Total := 0, Used := 0, Available := 0, Percent := 0 }

/-- The call `json.Marshal` for a `MemoryStats`. -/
def MemoryStats.marshal (m : MemoryStats) : JValue :=
  .obj [("total", .num m.Total), ("used", .num m.Used), ("available", .num m.Available),
        ("percent", .num m.Percent)]

/-- Members of a JSON object decoded into a `MemoryStats`. -/
def MemoryStats.fields (kvs : List (String × JValue)) : Option MemoryStats :=
  match decUint64 (getField kvs "total"), decUint64 (getField kvs "used"),
        decUint64 (getField kvs "available"), decFloat64 (getField kvs "percent") with
  | some t, some u, some a, some p => some { Total := t, Used := u, Available := a, Percent := p }
  | _, _, _, _ => none

/-- The struct `DiskStats` of the protocol package. -/
structure DiskStats where
  Path : String
  Total : Nat
  Used : Nat
  Available : Nat
  Percent : ℚ
deriving DecidableEq, Repr

/-- The zero `DiskStats`. -/
def DiskStats.zero : DiskStats := { Path := "", Total := 0, Used := 0, Available := 0, Percent := 0 }

/-- The call `json.Marshal` for a `DiskStats`. -/
def DiskStats.marshal (d : DiskStats) : JValue :=
  .obj [("path", .str d.Path), ("total", .num d.Total), ("used", .num d.Used),
        ("available", .num d.Available), ("percent", .num d.Percent)]

/-- Members of a JSON object decoded into a `DiskStats`. -/
def DiskStats.fields (kvs : List (String × JValue)) : Option DiskStats :=
  match decString (getField kvs "path"), decUint64 (getField kvs "total"),
        decUint64 (getField kvs "used"), decUint64 (getField kvs "available"),
        decFloat64 (getField kvs "percent") with
  | some p, some t, some u, some a, some pc =>
    some { Path := p, Total := t, Used := u, Available := a, Percent := pc }
  | _, _, _, _, _ => none

/-- Decoding the elements of a JSON array into a `[]DiskStats`. -/
def decDiskList : List JValue → Option (List DiskStats)
  | [] => some []
  | v :: vs =>
    match decStruct DiskStats.fields DiskStats.zero (some v), decDiskList vs with
    | some d, some ds => some (d :: ds)
    | _, _ => none

/-- Decoding into a `[]DiskStats` field; a nil slice and an empty slice both have no
elements. -/
def decDisks : Option JValue → Option (List DiskStats)
  | none => some []
  | some .null => some []
  | some (.arr xs) => decDiskList xs
  | some _ => none

/-- The struct `NetworkStats` of the protocol package. -/
structure NetworkStats where
  BytesSent : Nat
  BytesRecv : Nat
  BytesSentRate : Nat
  BytesRecvRate : Nat
deriving DecidableEq, Repr

/-- The zero `NetworkStats`. -/
def NetworkStats.zero : NetworkStats :=
  { BytesSent := 0, BytesRecv := 0, BytesSentRate := 0, BytesRecvRate := 0 }

/-- The call `json.Marshal` for a `NetworkStats`. -/
def NetworkStats.marshal (n : NetworkStats) : JValue :=
  .obj [("bytes_sent", .num n.BytesSent), ("bytes_recv", .num n.BytesRecv),
        ("bytes_sent_rate", .num n.BytesSentRate), ("bytes_recv_rate", .num n.BytesRecvRate)]

/-- Members of a JSON object decoded into a `NetworkStats`. -/
def NetworkStats.fields (kvs : List (String × JValue)) : Option NetworkStats :=
  match decUint64 (getField kvs "bytes_sent"), decUint64 (getField kvs "bytes_recv"),
        decUint64 (getField kvs "bytes_sent_rate"), decUint64 (getField kvs "bytes_recv_rate") with
  | some s, some r, some sr, some rr =>
    some { BytesSent := s, BytesRecv := r, BytesSentRate := sr, BytesRecvRate := rr }
  | _, _, _, _ => none

/-- The struct `MetricsPayload`. -/
structure MetricsPayload where
  CPU : ℚ
  Memory : MemoryStats
  Disks : List DiskStats
  Network : NetworkStats
deriving DecidableEq, Repr

/-- The call `json.Marshal` for a `MetricsPayload`. -/
def MetricsPayload.marshal (p : MetricsPayload) : JValue :=
  .obj [("cpu", .num p.CPU), ("memory", p.Memory.marshal),
        ("disks", .arr (p.Disks.map DiskStats.marshal)), ("network", p.Network.marshal)]

/-- Members of a JSON object decoded into a `MetricsPayload`. -/
def MetricsPayload.fields (kvs : List (String × JValue)) : Option MetricsPayload :=
  match decFloat64 (getField kvs "cpu"),
        decStruct MemoryStats.fields MemoryStats.zero (getField kvs "memory"),
        decDisks (getField kvs "disks"),
        decStruct NetworkStats.fields NetworkStats.zero (getField kvs "network") with
  | some c, some m, some d, some n => some { CPU := c, Memory := m, Disks := d, Network := n }
  | _, _, _, _ => none

/-- The call `json.Unmarshal(raw, &payload)` for a `MetricsPayload`. -/
def MetricsPayload.unmarshal (raw : Option JValue) : Option MetricsPayload :=
  unmarshalRaw MetricsPayload.fields
    { CPU := 0, Memory := MemoryStats.zero, Disks := [], Network := NetworkStats.zero } raw

/-- The struct `TaskAssignPayload` (`Typ` is the field `Type`). -/
structure TaskAssignPayload where
  TaskID : String
  Typ : String
  Target : String
  ScriptID : String
  Params : List (String × String)
  Interval : Int
  Timeout : Int
deriving DecidableEq, Repr

/-- The call `json.Marshal` for a `TaskAssignPayload`. -/
def TaskAssignPayload.marshal (p : TaskAssignPayload) : JValue :=
  .obj ([("task_id", .str p.TaskID), ("type", .str p.Typ)] ++ omitString "target" p.Target ++
        omitString "script_id" p.ScriptID ++ omitStringMap "params" p.Params ++
        omitInt "interval" p.Interval ++ omitInt "timeout" p.Timeout)

/-- Members of a JSON object decoded into a `TaskAssignPayload`. -/
def TaskAssignPayload.fields (kvs : List (String × JValue)) : Option TaskAssignPayload :=
  match decString (getField kvs "task_id"), decString (getField kvs "type"),
        decString (getField kvs "target"), decString (getField kvs "script_id"),
        decStringMap (getField kvs "params"), decInt64 (getField kvs "interval"),
        decInt64 (getField kvs "timeout") with
  | some id, some ty, some tg, some sc, some ps, some iv, some tm =>
    some { TaskID := id, Typ := ty, Target := tg, ScriptID := sc, Params := ps,
           Interval := iv, Timeout := tm }
  | _, _, _, _, _, _, _ => none

/-- The call `json.Unmarshal(raw, &payload)` for a `TaskAssignPayload`. -/
def TaskAssignPayload.unmarshal (raw : Option JValue) : Option TaskAssignPayload :=
  unmarshalRaw TaskAssignPayload.fields
    { TaskID := "", Typ := "", Target := "", ScriptID := "", Params := [], Interval := 0,
      Timeout := 0 } raw

/-- The struct `TaskAckPayload`. -/
structure TaskAckPayload where
  TaskID : String
  Success : Bool
  Error : String
deriving DecidableEq, Repr

/-- The call `json.Marshal` for a `TaskAckPayload`. -/
def TaskAckPayload.marshal (p : TaskAckPayload) : JValue :=
  .obj ([("task_id", .str p.TaskID), ("success", .bool p.Success)] ++ omitString "error" p.Error)

/-- Members of a JSON object decoded into a `TaskAckPayload`. -/
def TaskAckPayload.fields (kvs : List (String × JValue)) : Option TaskAckPayload :=
  match decString (getField kvs "task_id"), decBool (getField kvs "success"),
        decString (getField kvs "error") with
  | some t, some s, some e => some { TaskID := t, Success := s, Error := e }
  | _, _, _ => none

/-- The call `json.Unmarshal(raw, &payload)` for a `TaskAckPayload`. -/
def TaskAckPayload.unmarshal (raw : Option JValue) : Option TaskAckPayload :=
  unmarshalRaw TaskAckPayload.fields { TaskID := "", Success := false, Error := "" } raw

/-- The struct `TaskResultPayload`. -/
structure TaskResultPayload where
  TaskID : String
  Success : Bool
  Output : String
  Error : String
  Duration : Int
deriving DecidableEq, Repr

/-- The call `json.Marshal` for a `TaskResultPayload`. -/
def TaskResultPayload.marshal (p : TaskResultPayload) : JValue :=
  .obj ([("task_id", .str p.TaskID), ("success", .bool p.Success), ("output", .str p.Output)] ++
        omitString "error" p.Error ++ [("duration", .num p.Duration)])

/-- Members of a JSON object decoded into a `TaskResultPayload`. -/
def TaskResultPayload.fields (kvs : List (String × JValue)) : Option TaskResultPayload :=
  match decString (getField kvs "task_id"), decBool (getField kvs "success"),
        decString (getField kvs "output"), decString (getField kvs "error"),
        decInt64 (getField kvs "duration") with
  | some t, some s, some o, some e, some d =>
    some { TaskID := t, Success := s, Output := o, Error := e, Duration := d }
  | _, _, _, _, _ => none

/-- The call `json.Unmarshal(raw, &payload)` for a `TaskResultPayload`. -/
def TaskResultPayload.unmarshal (raw : Option JValue) : Option TaskResultPayload :=
  unmarshalRaw TaskResultPayload.fields
    { TaskID := "", Success := false, Output := "", Error := "", Duration := 0 } raw

/-- The struct `ConfigPayload`. -/
structure ConfigPayload where
  MetricInterval : Int
deriving DecidableEq, Repr

/-- The call `json.Marshal` for a `ConfigPayload`. -/
def ConfigPayload.marshal (p : ConfigPayload) : JValue :=
  .obj [("metric_interval", .num p.MetricInterval)]

/-- Members of a JSON object decoded into a `ConfigPayload`. -/
def ConfigPayload.fields (kvs : List (String × JValue)) : Option ConfigPayload :=
  match decInt64 (getField kvs "metric_interval") with
  | some m => some { MetricInterval := m }
  | none => none

/-- The call `json.Unmarshal(raw, &payload)` for a `ConfigPayload`. -/
def ConfigPayload.unmarshal (raw : Option JValue) : Option ConfigPayload :=
  unmarshalRaw ConfigPayload.fields { MetricInterval := 0 } raw

/-- The struct `ErrorPayload`. -/
structure ErrorPayload where
  Code : Int
  Message : String
deriving DecidableEq, Repr

/-- The call `json.Marshal` for an `ErrorPayload`. -/
def ErrorPayload.marshal (p : ErrorPayload) : JValue :=
  .obj [("code", .num p.Code), ("message", .str p.Message)]

/-- Members of a JSON object decoded into an `ErrorPayload`. -/
def ErrorPayload.fields (kvs : List (String × JValue)) : Option ErrorPayload :=
  match decInt64 (getField kvs "code"), decString (getField kvs "message") with
  | some c, some m => some { Code := c, Message := m }
  | _, _ => none

/-- The call `json.Unmarshal(raw, &payload)` for an `ErrorPayload`. -/
def ErrorPayload.unmarshal (raw : Option JValue) : Option ErrorPayload :=
  unmarshalRaw ErrorPayload.fields { Code := 0, Message := "" } raw

/-- A payload value of one of the payload structs, or the nil payload of a heartbeat.
No payload struct is declared for `metrics_ack`. -/
inductive Payload where
  | heartbeat
  | register (p : RegisterPayload)
  | registerAck (p : RegisterAckPayload)
  | metrics (p : MetricsPayload)
  | taskAssign (p : TaskAssignPayload)
  | taskAck (p : TaskAckPayload)
  | taskResult (p : TaskResultPayload)
  | config (p : ConfigPayload)
  | error (p : ErrorPayload)
deriving DecidableEq, Repr

/-- Message type a payload value travels under. -/
def Payload.msgType : Payload → String
  | .heartbeat => MsgTypeHeartbeat
  | .register _ => MsgTypeRegister
  | .registerAck _ => MsgTypeRegisterAck
  | .metrics _ => MsgTypeMetrics
  | .taskAssign _ => MsgTypeTaskAssign
  | .taskAck _ => MsgTypeTaskAck
  | .taskResult _ => MsgTypeTaskResult
  | .config _ => MsgTypeConfig
  | .error _ => MsgTypeError

/-- The call `json.Marshal(payload)` made by `NewMessage`; the nil payload is `null`. -/
def Payload.marshal : Payload → JValue
  | .heartbeat => .null
  | .register p => p.marshal
  | .registerAck p => p.marshal
  | .metrics p => p.marshal
  | .taskAssign p => p.marshal
  | .taskAck p => p.marshal
  | .taskResult p => p.marshal
  | .config p => p.marshal
  | .error p => p.marshal

/-- Decoding the raw payload of a message of type `msgType` into the payload struct of
that type; a heartbeat carries `null`. -/
def Payload.unmarshal (msgType : String) (raw : Option JValue) : Option Payload :=
  if msgType = MsgTypeHeartbeat then
    match raw with
    | some .null => some .heartbeat
    | _ => none
  else if msgType = MsgTypeRegister then (RegisterPayload.unmarshal raw).map .register
  else if msgType = MsgTypeRegisterAck then (RegisterAckPayload.unmarshal raw).map .registerAck
  else if msgType = MsgTypeMetrics then (MetricsPayload.unmarshal raw).map .metrics
  else if msgType = MsgTypeTaskAssign then (TaskAssignPayload.unmarshal raw).map .taskAssign
  else if msgType = MsgTypeTaskAck then (TaskAckPayload.unmarshal raw).map .taskAck
  else if msgType = MsgTypeTaskResult then (TaskResultPayload.unmarshal raw).map .taskResult
  else if msgType = MsgTypeConfig then (ConfigPayload.unmarshal raw).map .config
  else if msgType = MsgTypeError then (ErrorPayload.unmarshal raw).map .error
  else none

/-- Integer fields are within the range of their Go type, and map keys are in order. -/
def Payload.WF : Payload → Prop
  | .heartbeat => True
  | .register _ => True
  | .registerAck _ => True
  | .metrics p =>
    isUint64 p.Memory.Total ∧ isUint64 p.Memory.Used ∧ isUint64 p.Memory.Available ∧
    (∀ d ∈ p.Disks, isUint64 d.Total ∧ isUint64 d.Used ∧ isUint64 d.Available) ∧
    isUint64 p.Network.BytesSent ∧ isUint64 p.Network.BytesRecv ∧
    isUint64 p.Network.BytesSentRate ∧ isUint64 p.Network.BytesRecvRate
  | .taskAssign p => isStringMap p.Params ∧ isInt64 p.Interval ∧ isInt64 p.Timeout
  | .taskAck _ => True
  | .taskResult p => isInt64 p.Duration
  | .config p => isInt64 p.MetricInterval
  | .error p => isInt64 p.Code

/-! ### Channels -/

/-- Encoded frame travelling through an outbound queue (`[]byte`). -/
abbrev Frame := String

/-- Run-time panics of channel operations. -/
inductive Panic where
  | sendOnClosed
  | closeOfClosed
deriving DecidableEq, Repr

/-- Buffered channel of frames: queued frames, oldest first, and the closed flag. -/
structure Chan where
  buf : List Frame
  closed : Bool
deriving DecidableEq, Repr

/-- Capacity given to `SendChan` in `ServeWS`: `make(chan []byte, 256)`. -/
def sendChanCap : Nat := 256

/-- The channel `make(chan []byte, 256)` right after allocation. -/
def Chan.make : Chan := { buf := [], closed := false }

/-- The statement `select { case ch <- m: ... default: ... }`. The result carries
the channel afterwards and whether the send case was taken. A closed channel makes
the send case ready and the send panics. -/
def Chan.trySend (ch : Chan) (m : Frame) : Except Panic (Chan × Bool) :=
  if ch.closed then .error .sendOnClosed
  else if ch.buf.length < sendChanCap then .ok ({ ch with buf := ch.buf ++ [m] }, true)
  else .ok (ch, false)

/-- The queue holds as many frames as its capacity. -/
def Chan.isFull (ch : Chan) : Bool := !decide (ch.buf.length < sendChanCap)

/-- An open queue after the broadcast of `b` has visited it: `b` appended at the tail
when there was room, the queue closed otherwise. -/
def Chan.afterBroadcast (ch : Chan) (b : Frame) : Chan :=
  if ch.buf.length < sendChanCap then { buf := ch.buf ++ [b], closed := false }
  else { buf := ch.buf, closed := true }

/-- The statement `close(ch)`. -/
def Chan.close (ch : Chan) : Except Panic Chan :=
  if ch.closed then .error .closeOfClosed else .ok { ch with closed := true }

/-! ### Hub (`core/internal/ws/hub.go`) -/

/-- A `*AgentConn`: allocation identity and the immutable `ID` field. -/
structure AgentConn where
  ptr : Nat
  ID : String
deriving DecidableEq, Repr

/-- Contents of the `sync.Map` `Hub.agents`: at most one binding per key. -/
abbrev AgentMap := List (String × AgentConn)

/-- The call `agents.Load(k)`. -/
def AgentMap.load (m : AgentMap) (k : String) : Option AgentConn :=
  (m.find? (fun e => e.1 = k)).map (fun e => e.2)

/-- The call `agents.Delete(k)`. -/
def AgentMap.delete (m : AgentMap) (k : String) : AgentMap :=
  m.filter (fun e => e.1 ≠ k)

/-- The call `agents.Store(k, v)`: any previous binding of `k` is replaced. -/
def AgentMap.store (m : AgentMap) (k : String) (v : AgentConn) : AgentMap :=
  AgentMap.delete m k ++ [(k, v)]

/-- Hub state. `agents` is the registry, `SendChan c` the outbound queue of
connection `c`, `disconnected` the agent ids `onDisconnect` was started with, in
order (`NewHandler` installs `handleDisconnect`; no connect handler is ever set). -/
structure Hub where
  agents : AgentMap
  SendChan : AgentConn → Chan
  disconnected : List String

/-- The hub built by `NewHub`, every connection's queue as allocated. -/
def NewHub : Hub := { agents := [], SendChan := fun _ => Chan.make, disconnected := [] }

/-- Events received by the `select` of `Hub.Run`. -/
inductive HubEvent where
  | register (conn : AgentConn)
  | unregister (conn : AgentConn)
  | broadcast (message : Frame)
deriving DecidableEq, Repr

/-- Replace the queue of one connection. -/
def Hub.setChan (h : Hub) (c : AgentConn) (ch : Chan) : Hub :=
  { h with SendChan := fun d => if d = c then ch else h.SendChan d }

/-- Body of the `Range` callback of the broadcast case for one entry. -/
def Hub.broadcastOne (message : Frame) (h : Hub) (e : String × AgentConn) : Except Panic Hub :=
  match (h.SendChan e.2).trySend message with
  | .error p => .error p
  | .ok (ch, true) => .ok (h.setChan e.2 ch)
  | .ok (_, false) =>
    match (h.SendChan e.2).close with
    | .error p => .error p
    | .ok ch => .ok { (h.setChan e.2 ch) with agents := AgentMap.delete h.agents e.1 }

/-- The call `agents.Range(f)` of the broadcast case over the entries present when it
starts; the callback deletes only the key it is visiting. -/
def Hub.broadcastAll (message : Frame) : List (String × AgentConn) → Hub → Except Panic Hub
  | [], h => .ok h
  | e :: es, h =>
    match Hub.broadcastOne message h e with
    | .error p => .error p
    | .ok h1 => Hub.broadcastAll message es h1

/-- One iteration of `Hub.Run`. -/
def Hub.step (h : Hub) : HubEvent → Except Panic Hub
  | .register conn => .ok { h with agents := AgentMap.store h.agents conn.ID conn }
  | .unregister conn =>
    match AgentMap.load h.agents conn.ID with
    | some _ =>
      match (h.SendChan conn).close with
      | .error p => .error p
      | .ok ch =>
        .ok { agents := AgentMap.delete h.agents conn.ID
              SendChan := (h.setChan conn ch).SendChan
              disconnected := h.disconnected ++ [conn.ID] }
    | none => .ok h
  | .broadcast message => Hub.broadcastAll message h.agents h

/-- The loop of `Hub.Run` over a sequence of events. -/
def Hub.run : Hub → List HubEvent → Except Panic Hub
  | h, [] => .ok h
  | h, ev :: evs =>
    match Hub.step h ev with
    | .error p => .error p
    | .ok h1 => Hub.run h1 evs

/-- The method `Hub.GetAgent`. -/
def Hub.GetAgent (h : Hub) (agentID : String) : Option AgentConn :=
  AgentMap.load h.agents agentID

/-- The part of `Hub.SendToAgent` after the lookup, on an already encoded message
(`json.Marshal` succeeded with `data`): `conn` is what `GetAgent` returned, `none` for
nil, and `h` the hub at the moment of the `select`. The result is the hub afterwards and
the returned `error`, `none` for `nil`. -/
def Hub.sendTo (h : Hub) (conn : Option AgentConn) (data : Frame) :
    Except Panic (Hub × Option String) :=
  match conn with
  | none => .ok (h, none)
  | some conn =>
    match (h.SendChan conn).trySend data with
    | .error p => .error p
    | .ok (ch, _) => .ok (h.setChan conn ch, none)

/-- The method `Hub.SendToAgent` on an already encoded message, when the hub loop
processes no event between the lookup and the `select`. -/
def Hub.SendToAgent (h : Hub) (agentID : String) (data : Frame) : Except Panic (Hub × Option String) :=
  h.sendTo (h.GetAgent agentID) data

/-- The method `Hub.SendToAgent` when the hub loop processes the events `between` after
the lookup and before the `select`: the connection is looked up in `h`, the send acts on
the hub the events leave. -/
def Hub.SendToAgentOvertaken (h : Hub) (agentID : String) (data : Frame)
    (between : List HubEvent) : Except Panic (Hub × Option String) :=
  match Hub.run h between with
  | .error p => .error p
  | .ok h1 => h1.sendTo (h.GetAgent agentID) data

/-- The method `Hub.GetAgentCount`. -/
def Hub.GetAgentCount (h : Hub) : Nat := h.agents.length

/-- Registry well-formedness: every binding is stored under its connection's `ID`
and no key is bound twice. -/
def Hub.WF (h : Hub) : Prop :=
  (∀ e ∈ h.agents, e.2.ID = e.1) ∧ (h.agents.map (fun e => e.1)).Nodup

/-- Every registered connection has an open outbound queue. -/
def Hub.RegisteredOpen (h : Hub) : Prop :=
  ∀ e ∈ h.agents, (h.SendChan e.2).closed = false

/-! ### Models (`core/internal/models`) -/

namespace Models

/-- The type `AgentStatus`. -/
inductive AgentStatus where
  | online
  | offline
deriving DecidableEq, Repr

/-- The struct `GeoLocation`. -/
structure GeoLocation where
  Country : String
  CountryCode : String
  Region : String
  City : String
  Latitude : ℚ
  Longitude : ℚ
deriving DecidableEq, Repr

/-- The struct `Agent`; instants are integers. The columns `TagsJSON` and `LocationJSON`
are the stored forms of `Tags` and `Location`. -/
structure Agent where
  ID : String
  Hostname : String
  IP : String
  OS : String
  Arch : String
  Version : String
  Status : AgentStatus
  GroupID : Option String
  CustomName : String
  Description : String
  Tags : List String
  Location : Option GeoLocation
  PublicVisible : Bool
  LastSeenAt : Int
  CreatedAt : Int
  UpdatedAt : Int
deriving DecidableEq, Repr

/-- The struct `AgentFilter`, without `Tags`, which `findExisting` leaves empty. -/
structure AgentFilter where
  GroupID : Option String
  Status : Option AgentStatus
  Search : String
deriving DecidableEq, Repr

/-- The struct `MemoryStats` of the models package. -/
structure MemoryStats where
  Total : Nat
  Used : Nat
  Available : Nat
  Percent : ℚ
deriving DecidableEq, Repr

/-- The method `MemoryStats.Validate`. -/
def MemoryStats.Validate (m : MemoryStats) : Bool :=
  if m.Total = 0 then false
  else if m.Used > m.Total then false
  else if m.Percent < 0 ∨ m.Percent > 100 then false
  else true

/-- The struct `DiskStats` of the models package. -/
structure DiskStats where
  Path : String
  Total : Nat
  Used : Nat
  Available : Nat
  Percent : ℚ
deriving DecidableEq, Repr

/-- The method `DiskStats.Validate`. -/
def DiskStats.Validate (d : DiskStats) : Bool :=
  if d.Total = 0 then false
  else if d.Used > d.Total then false
  else if d.Percent < 0 ∨ d.Percent > 100 then false
  else true

/-- The struct `NetworkStats` of the models package. -/
structure NetworkStats where
  BytesSent : Nat
  BytesRecv : Nat
  BytesSentRate : Nat
  BytesRecvRate : Nat
deriving DecidableEq, Repr

/-- The struct `Metrics`, without the columns that hold the stored forms of `Memory`,
`Disks` and `Network`. -/
structure Metrics where
  ID : String
  AgentID : String
  CPU : ℚ
  Memory : MemoryStats
  Disks : List DiskStats
  Network : NetworkStats
  Timestamp : Int
deriving DecidableEq, Repr

/-- The method `Metrics.ValidateCPU`. -/
def Metrics.ValidateCPU (m : Metrics) : Bool :=
  decide (m.CPU ≥ 0 ∧ m.CPU ≤ 100)

/-- The struct `TaskResult`. -/
structure TaskResult where
  ID : String
  TaskID : String
  AgentID : String
  Success : Bool
  Output : String
  Error : String
  Duration : Int
  Timestamp : Int
deriving DecidableEq, Repr

end Models

/-! ### Agent registry (`core/internal/service/agent.go`, `core/internal/repository/agent.go`)

The `agents` table is the list of its rows; `id` is its primary key. Database statements
are taken to succeed, and the calls to `time.Now()` within one request return the
same instant. -/

/-- The struct `RegisterRequest`. -/
structure RegisterRequest where
  Hostname : String
  IP : String
  OS : String
  Arch : String
  Version : String
deriving DecidableEq, Repr

/-- Lower-case form of an ASCII letter, other characters unchanged: the case folding of
the SQL operator `LIKE`. -/
def likeFold (c : Char) : Char :=
  if 'A' ≤ c ∧ c ≤ 'Z' then Char.ofNat (c.toNat + 32) else c

/-- The SQL operator `text LIKE pattern`: `%` stands for any run of characters, `_` for
any single character, letters of ASCII match regardless of case. -/
def likeMatch : List Char → List Char → Bool
  | [], text => text.isEmpty
  | p :: ps, text =>
    if p = '%' then text.tails.any (likeMatch ps)
    else
      match text with
      | [] => false
      | t :: ts => (p = '_' || likeFold p = likeFold t) && likeMatch ps ts

/-- The condition `column LIKE '%' + search + '%'`. -/
def likeContains (column search : String) : Bool :=
  likeMatch ('%' :: (search.data ++ ['%'])) column.data

/-- The `WHERE` clause that `AgentRepository.List` builds from a filter. -/
def listWhere (filter : Models.AgentFilter) (a : Models.Agent) : Bool :=
  (match filter.GroupID with
    | some g => a.GroupID = some g
    | none => true) &&
  (match filter.Status with
    | some st => a.Status = st
    | none => true) &&
  (if filter.Search ≠ "" then
      likeContains a.Hostname filter.Search || likeContains a.CustomName filter.Search ||
        likeContains a.IP filter.Search
    else true)

/-- The method `AgentRepository.Update`: rewrites every column but `id` and `created_at`
of the row whose id is `agent.ID`, with `updated_at` set to the current instant. -/
def AgentRepository.Update (table : List Models.Agent) (agent : Models.Agent) (now : Int) :
    List Models.Agent :=
  table.map (fun row =>
    if row.ID = agent.ID then { agent with CreatedAt := row.CreatedAt, UpdatedAt := now } else row)

/-- The method `AgentRepository.Create`. -/
def AgentRepository.Create (table : List Models.Agent) (agent : Models.Agent) :
    List Models.Agent :=
  table ++ [agent]

/-- The method `AgentRepository.List`: the selected rows, `ORDER BY created_at DESC`. -/
def AgentRepository.List (table : List Models.Agent) (filter : Models.AgentFilter) :
    List Models.Agent :=
  (table.filter (listWhere filter)).insertionSort (fun a b => a.CreatedAt ≥ b.CreatedAt)

/-- The method `AgentServiceImpl.findExisting`. -/
def findExisting (table : List Models.Agent) (hostname ip : String) : Option Models.Agent :=
  (AgentRepository.List table { GroupID := none, Status := none, Search := hostname }).find?
    (fun a => a.Hostname = hostname || a.IP = ip)

/-- The method `AgentServiceImpl.Register`: the returned agent and the table afterwards.
`uuid` is the value of `uuid.New().String()`, `now` the current instant and `geo` the
lookup of the geolocation service, `none` when it fails. -/
def Register (table : List Models.Agent) (req : RegisterRequest) (uuid : String) (now : Int)
    (geo : String → Option Models.GeoLocation) : Models.Agent × List Models.Agent :=
  match findExisting table req.Hostname req.IP with
  | some existing =>
    let e1 : Models.Agent :=
      { existing with OS := req.OS, Arch := req.Arch, Version := req.Version,
                      Status := .online, LastSeenAt := now, UpdatedAt := now }
    let e2 : Models.Agent :=
      if existing.IP ≠ req.IP then
        { e1 with IP := req.IP
                  Location := match geo req.IP with
                    | some loc => some loc
                    | none => e1.Location }
      else e1
    (e2, AgentRepository.Update table e2 now)
  | none =>
    let agent : Models.Agent :=
      { ID := uuid, Hostname := req.Hostname, IP := req.IP, OS := req.OS, Arch := req.Arch,
        Version := req.Version, Status := .online, GroupID := none,
        CustomName := req.Hostname, Description := "", Tags := [], Location := geo req.IP,
        PublicVisible := false, LastSeenAt := now, CreatedAt := now, UpdatedAt := now }
    (agent, AgentRepository.Create table agent)

/-! ### Protocol handler (`core/internal/ws/handler.go`) -/

/-- What `ServeWS` reads of the request: the peer address `r.RemoteAddr` and the values
of `r.Header.Get` for the two forwarding headers, empty when the header is absent. -/
structure Request where
  RemoteAddr : String
  XForwardedFor : String
  XRealIP : String
deriving DecidableEq, Repr

/-- The expression `strings.Split(s, ",")[0]`: the part of `s` before its first comma. -/
def splitFirst (s : List Char) : List Char :=
  s.takeWhile (fun c => c ≠ ',')

/-- The call `strings.LastIndex(s, string(c))`, `none` for the result `-1`. The separator
is an ASCII character, so cutting at its offset is the same on bytes and on
characters. -/
def lastIndex : List Char → Char → Option Nat
  | [], _ => none
  | x :: xs, c =>
    match lastIndex xs c with
    | some i => some (i + 1)
    | none => if x = c then some 0 else none

/-- The local `clientIP` of `ServeWS` at the point where the register request is built. -/
def clientIP (r : Request) : String :=
  let ip0 := r.RemoteAddr
  let ip1 := if r.XForwardedFor ≠ "" then String.mk (splitFirst r.XForwardedFor.data) else ip0
  let ip2 := if r.XRealIP ≠ "" then r.XRealIP else ip1
  match lastIndex ip2.data ':' with
  | some idx => String.mk (ip2.data.take idx)
  | none => ip2

/-- Outcome of `conn.ReadMessage()` followed by the JSON scan of the received text:
`message none` is a text that is not JSON. -/
inductive ReadResult where
  | err
  | message (data : Option JValue)

/-- Calls made by the handler on the socket, the hub and the services, in program
order. -/
inductive Effect where
  | connClose
  | connWrite (msg : Message)
  | agentRegister (req : RegisterRequest)
  | hubRegister (conn : AgentConn)
  | goWritePump (conn : AgentConn)
  | goReadPump (conn : AgentConn)
  | sendPendingTasks (agentID : String)
  | updateLastSeen (agentID : String)
  | updateStatus (agentID : String) (status : Models.AgentStatus)
  | metricStore (agentID : String) (metrics : Models.Metrics)
  | recordTraffic (agentID : String) (bytesSent bytesRecv : Nat)
  | checkAndTrigger (agentID : String) (metrics : Models.Metrics)
  | recordResult (result : Models.TaskResult)

/-- The method `Handler.sendError`; `uuid` and `now` are the fresh id and the clock. -/
def sendError (uuid : String) (now : Int) (message : String) : List Effect :=
  [.connWrite (NewMessage MsgTypeError uuid now
    (ErrorPayload.marshal { Code := 400, Message := message }))]

/-- The method `Handler.ServeWS` after a successful upgrade. `unmarshalMessage` is
`json.Unmarshal(message, &msg)` on the bytes of a frame and `unmarshalPayload` is
`json.Unmarshal(msg.Payload, &payload)`, each `none` for an error; `agentToken` is the
configured token, `first` the bytes of the first frame (`none` when `ReadMessage` fails),
`register` the outcome of `agentSvc.Register` (`none` for an error), `ptr` the identity of
the connection object allocated on success. -/
def Handler.ServeWS {B : Type} (unmarshalMessage : B → Option Message)
    (unmarshalPayload : Option JValue → Option RegisterPayload) (agentToken : String)
    (r : Request) (first : Option B) (register : RegisterRequest → Option Models.Agent)
    (uuid : String) (now : Int) (ptr : Nat) : List Effect :=
  match first with
  | none => [.connClose]
  | some message =>
    match unmarshalMessage message with
    | none => [.connClose]
    | some msg =>
      if msg.Typ ≠ MsgTypeRegister then [.connClose]
      else
        match unmarshalPayload msg.Payload with
        | none => [.connClose]
        | some payload =>
          if agentToken ≠ "" ∧ payload.Token ≠ agentToken then
            sendError uuid now "invalid token" ++ [.connClose]
          else
            let req : RegisterRequest :=
              { Hostname := payload.Hostname, IP := clientIP r, OS := payload.OS,
                Arch := payload.Arch, Version := payload.Version }
            .agentRegister req ::
              match register req with
              | none => sendError uuid now "registration failed" ++ [.connClose]
              | some agent =>
                let agentConn : AgentConn := { ptr := ptr, ID := agent.ID }
                [.connWrite (NewMessage MsgTypeRegisterAck uuid now
                    (RegisterAckPayload.marshal { AgentID := agent.ID, Success := true, Error := "" })),
                 .hubRegister agentConn, .goWritePump agentConn, .goReadPump agentConn,
                 .sendPendingTasks agent.ID]

/-- The bytes read by `conn.ReadMessage()`, given by the JSON value they denote. -/
def ReadResult.frame : ReadResult → Option (Option JValue)
  | .err => none
  | .message data => some data

/-- The method `Handler.ServeWS` with the decoders of the JSON value model. -/
def ServeWS (agentToken : String) (r : Request) (first : ReadResult)
    (register : RegisterRequest → Option Models.Agent) (uuid : String) (now : Int) (ptr : Nat) :
    List Effect :=
  Handler.ServeWS (fun data : Option JValue => data.bind Message.unmarshal)
    RegisterPayload.unmarshal agentToken r first.frame register uuid now ptr

/-- The method `Handler.handleMessage`. -/
def handleMessage (agentID : String) (msg : Message) : List Effect :=
  if msg.Typ = MsgTypeHeartbeat then [.updateLastSeen agentID]
  else if msg.Typ = MsgTypeMetrics then
    match MetricsPayload.unmarshal msg.Payload with
    | none => []
    | some payload =>
      let metrics : Models.Metrics :=
        { ID := "", AgentID := "", CPU := payload.CPU,
          Memory := { Total := payload.Memory.Total, Used := payload.Memory.Used,
                      Available := payload.Memory.Available, Percent := payload.Memory.Percent },
          Disks := payload.Disks.map (fun d =>
            { Path := d.Path, Total := d.Total, Used := d.Used, Available := d.Available,
              Percent := d.Percent }),
          Network := { BytesSent := payload.Network.BytesSent,
                       BytesRecv := payload.Network.BytesRecv,
                       BytesSentRate := payload.Network.BytesSentRate,
                       BytesRecvRate := payload.Network.BytesRecvRate },
          Timestamp := 0 }
      [.metricStore agentID metrics, .updateLastSeen agentID,
       .recordTraffic agentID payload.Network.BytesSentRate payload.Network.BytesRecvRate,
       .checkAndTrigger agentID metrics]
  else if msg.Typ = MsgTypeTaskResult then
    match TaskResultPayload.unmarshal msg.Payload with
    | none => []
    | some payload =>
      [.recordResult { ID := "", TaskID := payload.TaskID, AgentID := agentID,
                       Success := payload.Success, Output := payload.Output,
                       Error := payload.Error, Duration := payload.Duration, Timestamp := 0 }]
  else []

/-- The method `Handler.handleDisconnect`. -/
def handleDisconnect (agentID : String) : List Effect :=
  [.updateStatus agentID .offline]

/-- The invariants on a metrics sample: cpu and every percent within `[0, 100]`, used
not above total for memory and for every disk. -/
def validSample (m : Models.Metrics) : Prop :=
  0 ≤ m.CPU ∧ m.CPU ≤ 100 ∧ 0 ≤ m.Memory.Percent ∧ m.Memory.Percent ≤ 100 ∧
  m.Memory.Used ≤ m.Memory.Total ∧
  ∀ d ∈ m.Disks, d.Used ≤ d.Total ∧ 0 ≤ d.Percent ∧ d.Percent ≤ 100

/-! ### Alert evaluator (`core/internal/models/alert.go`,
`core/internal/repository/alert.go`, `core/internal/service/alert.go`)

The `alerts` table is the list of its rows, `id` being its primary key; an instant is
the number of nanoseconds since the epoch; the calls to `time.Now()` within one call of
`CheckAndTrigger` return the same instant. -/

namespace Models

/-- The type `AlertStatus`. -/
inductive AlertStatus where
  | firing
  | resolved
deriving DecidableEq, Repr

/-- Metric type `cpu`. -/
def MetricTypeCPU : String := "cpu"
/-- Metric type `memory`. -/
def MetricTypeMemory : String := "memory"
/-- Metric type `disk`. -/
def MetricTypeDisk : String := "disk"
/-- Metric type `traffic`. -/
def MetricTypeTraffic : String := "traffic"

/-- Operator `gt`. -/
def OperatorGT : String := "gt"
/-- Operator `lt`. -/
def OperatorLT : String := "lt"
/-- Operator `eq`. -/
def OperatorEQ : String := "eq"

/-- The struct `AlertRule`; `MetricType` and `Operator` are string types. -/
structure AlertRule where
  ID : String
  Name : String
  MetricType : String
  Operator : String
  Threshold : ℚ
  Duration : Int
  Cooldown : Int
  AgentIDs : List String
  Enabled : Bool
  CreatedAt : Int
  UpdatedAt : Int
deriving DecidableEq, Repr

/-- The struct `Alert`, without `RuleName` and `AgentName`, which are not columns of the
table and are filled by the joins of the listing queries only. -/
structure Alert where
  ID : String
  RuleID : String
  AgentID : String
  Status : AlertStatus
  MetricType : String
  Value : ℚ
  Threshold : ℚ
  Message : String
  TriggeredAt : Int
  ResolvedAt : Option Int
deriving DecidableEq, Repr

/-- The method `AlertRule.CheckThreshold`. -/
def AlertRule.CheckThreshold (r : AlertRule) (value : ℚ) : Bool :=
  if r.Operator = OperatorGT then decide (value > r.Threshold)
  else if r.Operator = OperatorLT then decide (value < r.Threshold)
  else if r.Operator = OperatorEQ then decide (value = r.Threshold)
  else false

end Models

/-- Two's-complement wrap of an integer into the range of `int64`. -/
def wrapInt64 (x : Int) : Int := (x + 2 ^ 63) % 2 ^ 64 - 2 ^ 63

/-- The constant `time.Second`, in nanoseconds. -/
def timeSecond : Int := 1000000000

/-- The query of `AlertRepository.ListEnabledRules` on the `alert_rules` table. -/
def ListEnabledRules (rules : List Models.AlertRule) : List Models.AlertRule :=
  rules.filter (fun r => r.Enabled)

/-- The clause `ORDER BY triggered_at DESC LIMIT 1`: the row with the greatest
`triggered_at`, the first such row among equals. -/
def latestAlert : List Models.Alert → Option Models.Alert
  | [] => none
  | a :: rest =>
    match latestAlert rest with
    | none => some a
    | some b => if b.TriggeredAt > a.TriggeredAt then some b else some a

/-- The method `AlertRepository.GetFiringAlertByRuleAndAgent`. -/
def GetFiringAlertByRuleAndAgent (alerts : List Models.Alert) (ruleID agentID : String) :
    Option Models.Alert :=
  latestAlert (alerts.filter (fun a =>
    a.RuleID = ruleID ∧ a.AgentID = agentID ∧ a.Status = .firing))

/-- The method `AlertRepository.GetLastAlertTime`. -/
def GetLastAlertTime (alerts : List Models.Alert) (ruleID agentID : String) : Option Int :=
  (latestAlert (alerts.filter (fun a => a.RuleID = ruleID ∧ a.AgentID = agentID))).map
    (fun a => a.TriggeredAt)

/-- The method `AlertRepository.CreateAlert`; `none` is the error of an insert whose
`id` is already present. -/
def CreateAlert (alerts : List Models.Alert) (alert : Models.Alert) : Option (List Models.Alert) :=
  if alerts.any (fun a => a.ID = alert.ID) then none else some (alerts ++ [alert])

/-- The method `AlertRepository.ResolveAlert` at the instant `now`. -/
def ResolveAlert (alerts : List Models.Alert) (id : String) (now : Int) : List Models.Alert :=
  alerts.map (fun a => if a.ID = id then { a with Status := .resolved, ResolvedAt := some now } else a)

/-- The function `contains`. -/
def contains (slice : List String) (item : String) : Bool :=
  slice.any (fun s => s = item)

/-- The method `AlertServiceImpl.getMetricValue`. -/
def getMetricValue (metricType : String) (metrics : Models.Metrics) : ℚ :=
  if metricType = Models.MetricTypeCPU then metrics.CPU
  else if metricType = Models.MetricTypeMemory then metrics.Memory.Percent
  else if metricType = Models.MetricTypeDisk then
    if metrics.Disks.length > 0 then
      metrics.Disks.foldl (fun mx d => if d.Percent > mx then d.Percent else mx) 0
    else 0
  else 0

/-- The method `AlertServiceImpl.isInCooldown` at the instant `now`; the product
`time.Duration(rule.Cooldown) * time.Second` is a product of `int64`. -/
def isInCooldown (alerts : List Models.Alert) (rule : Models.AlertRule) (agentID : String)
    (now : Int) : Bool :=
  match GetLastAlertTime alerts rule.ID agentID with
  | none => false
  | some lastTime => decide (now < lastTime + wrapInt64 (rule.Cooldown * timeSecond))

/-- Calls of `notify` and `notifyRecovery`, each of which starts every registered
notifier with the alert. -/
inductive Notification where
  | send (alert : Models.Alert)
  | sendRecovery (alert : Models.Alert)
deriving DecidableEq, Repr

/-- Rule of the alert a notification is about. -/
def Notification.ruleID : Notification → String
  | .send a => a.RuleID
  | .sendRecovery a => a.RuleID

/-- The `alerts` table and the notifications started so far, in order. -/
structure AlertState where
  alerts : List Models.Alert
  sent : List Notification
deriving DecidableEq, Repr

/-- The formatting `fmt.Sprintf("[%s] %s: %.2f (threshold: %.2f)", ...)` as a function of
its four arguments. -/
abbrev AlertFormat := String → String → ℚ → ℚ → String

/-- The method `AlertServiceImpl.formatAlertMessage`. -/
def formatAlertMessage (format : AlertFormat) (rule : Models.AlertRule) (value : ℚ) : String :=
  format rule.MetricType rule.Name value rule.Threshold

/-- The alert built by `CheckAndTrigger` when a rule fires; `uuid` is the value of
`uuid.New().String()`. -/
def firingAlert (format : AlertFormat) (now : Int) (uuid : String)
    (agentID : String) (value : ℚ) (rule : Models.AlertRule) : Models.Alert :=
  { ID := uuid, RuleID := rule.ID, AgentID := agentID, Status := .firing,
    MetricType := rule.MetricType, Value := value, Threshold := rule.Threshold,
    Message := formatAlertMessage format rule value, TriggeredAt := now, ResolvedAt := none }

/-- Body of the loop of `CheckAndTrigger` for one rule; `uuid` is the identifier drawn
in this iteration if an alert is built. -/
def checkRule (format : AlertFormat) (now : Int) (uuid : String)
    (agentID : String) (metrics : Models.Metrics) (st : AlertState) (rule : Models.AlertRule) :
    AlertState :=
  if rule.AgentIDs.length > 0 ∧ contains rule.AgentIDs agentID = false then st
  else if rule.CheckThreshold (getMetricValue rule.MetricType metrics) = true then
    match GetFiringAlertByRuleAndAgent st.alerts rule.ID agentID with
    | some _ => st
    | none =>
      if isInCooldown st.alerts rule agentID now = true then st
      else
        match CreateAlert st.alerts
            (firingAlert format now uuid agentID (getMetricValue rule.MetricType metrics) rule) with
        | none => st
        | some alerts1 =>
          { alerts := alerts1
            sent := st.sent ++ [.send
              (firingAlert format now uuid agentID (getMetricValue rule.MetricType metrics) rule)] }
  else
    match GetFiringAlertByRuleAndAgent st.alerts rule.ID agentID with
    | none => st
    | some e =>
      { alerts := ResolveAlert st.alerts e.ID now
        sent := st.sent ++ [.sendRecovery { e with Status := .resolved, ResolvedAt := some now }] }

/-- The loop of `CheckAndTrigger` over the listed rules; the iteration of index `i`
draws the identifier `uuid i`. -/
def checkRules (format : AlertFormat) (now : Int) (agentID : String)
    (metrics : Models.Metrics) : (Nat → String) → List Models.AlertRule → AlertState → AlertState
  | _, [], st => st
  | uuid, rule :: rest, st =>
    checkRules format now agentID metrics (fun n => uuid (n + 1)) rest
      (checkRule format now (uuid 0) agentID metrics st rule)

/-- The method `AlertServiceImpl.CheckAndTrigger` on the `alert_rules` table `rules`. -/
def CheckAndTrigger (format : AlertFormat) (now : Int) (uuid : Nat → String)
    (rules : List Models.AlertRule) (agentID : String) (metrics : Models.Metrics)
    (st : AlertState) : AlertState :=
  checkRules format now agentID metrics uuid (ListEnabledRules rules) st

/-- A call on the alert service: an evaluation of a sample or the resolution of an alert
by its identifier. -/
inductive AlertOp where
  | check (now : Int) (uuid : Nat → String) (rules : List Models.AlertRule) (agentID : String)
      (metrics : Models.Metrics)
  | resolve (alertID : String) (now : Int)

/-- Sequential execution of calls on the alert service. -/
def runAlertOps (format : AlertFormat) : AlertState → List AlertOp → AlertState
  | st, [] => st
  | st, .check now uuid rules agentID metrics :: ops =>
    runAlertOps format (CheckAndTrigger format now uuid rules agentID metrics st) ops
  | st, .resolve alertID now :: ops =>
    runAlertOps format { st with alerts := ResolveAlert st.alerts alertID now } ops

/-- At most one firing instance per pair of rule and agent. -/
def oneFiringPerPair (alerts : List Models.Alert) : Prop :=
  ∀ ruleID agentID,
    (alerts.filter (fun a =>
      a.RuleID = ruleID ∧ a.AgentID = agentID ∧ a.Status = .firing)).length ≤ 1

/-! ### Traffic accounting (`core/internal/repository/traffic.go`) -/

namespace Models

/-- The struct `BillingCycle`. -/
structure BillingCycle where
  ID : String
  AgentID : String
  StartDate : Int
  Duration : Int
  Limit : Nat
  CreatedAt : Int
deriving DecidableEq, Repr

/-- The struct `TrafficRecord`. -/
structure TrafficRecord where
  ID : String
  CycleID : String
  AgentID : String
  BytesSent : Nat
  BytesRecv : Nat
  Timestamp : Int
deriving DecidableEq, Repr

end Models

/-- The method `TrafficRepository.GetCycleByAgent`. -/
def GetCycleByAgent (cycles : List Models.BillingCycle) (agentID : String) :
    Option Models.BillingCycle :=
  cycles.find? (fun c => c.AgentID = agentID)

/-- The method `TrafficRepository.GetCycleTraffic`: the sums of the two columns over the
records of the cycle. -/
def GetCycleTraffic (records : List Models.TrafficRecord) (cycleID : String) : Nat × Nat :=
  (((records.filter (fun r => r.CycleID = cycleID)).map (fun r => r.BytesSent)).sum,
   ((records.filter (fun r => r.CycleID = cycleID)).map (fun r => r.BytesRecv)).sum)

/-- The field `Percent` of the result of `TrafficRepository.GetTrafficStats`, `none` when
the agent has no billing cycle; the quotient is taken exactly. -/
def trafficPercent (cycles : List Models.BillingCycle) (records : List Models.TrafficRecord)
    (agentID : String) : Option ℚ :=
  match GetCycleByAgent cycles agentID with
  | none => none
  | some cycle =>
    let totalBytes : Nat :=
      ((GetCycleTraffic records cycle.ID).1 + (GetCycleTraffic records cycle.ID).2) % 2 ^ 64
    some (if cycle.Limit > 0 then (totalBytes : ℚ) / (cycle.Limit : ℚ) * 100 else 0)

/-! ### Agent task runtime (`agent/internal/executor/task.go`)

A context made by `context.WithCancel` is a natural number, and calling its cancel function
records the number in `cancelled`. A goroutine started by `go m.runTask(ctx, task)` is a
`Worker`; it moves at the points where `runTask` can be overtaken by other goroutines: the
test at the top of the loop, the end of the task body and the end of the wait. The
assignment type of the agent's protocol package has the shape of `TaskAssignPayload`. -/

/-- The struct `RunningTask` (`Typ` is the field `Type`); `Cancel` is the context its
cancel function cancels. -/
structure RunningTask where
  ID : String
  Typ : String
  Cancel : Nat
  Interval : Int
deriving DecidableEq, Repr

/-- Contents of the `sync.Map` `TaskManager.tasks`. -/
abbrev TaskMap := List (String × RunningTask)

/-- The call `tasks.Load(k)`. -/
def TaskMap.load (m : TaskMap) (k : String) : Option RunningTask :=
  (m.find? (fun e => e.1 = k)).map (fun e => e.2)

/-- The call `tasks.Delete(k)`. -/
def TaskMap.delete (m : TaskMap) (k : String) : TaskMap :=
  m.filter (fun e => e.1 ≠ k)

/-- The call `tasks.Store(k, v)`. -/
def TaskMap.store (m : TaskMap) (k : String) (v : RunningTask) : TaskMap :=
  TaskMap.delete m k ++ [(k, v)]

/-- Where a goroutine running `runTask` stands: before the test at the top of the loop,
inside the task body, in the wait for the next interval, or returned. -/
inductive WorkerPhase where
  | ready
  | running
  | waiting
  | exited
deriving DecidableEq, Repr

/-- A goroutine running `runTask(ctx, task)`. -/
structure Worker where
  task : TaskAssignPayload
  ctx : Nat
  phase : WorkerPhase
deriving DecidableEq, Repr

/-- State of a `TaskManager`: the task table, the cancelled contexts, the goroutines
started so far in start order, whether `stopChan` is closed, and the next unused
context. -/
structure TaskManager where
  tasks : TaskMap
  cancelled : List Nat
  workers : List Worker
  stopped : Bool
  nextCtx : Nat
deriving DecidableEq, Repr

/-- The task manager built by `NewTaskManager`. -/
def NewTaskManager : TaskManager :=
  { tasks := [], cancelled := [], workers := [], stopped := false, nextCtx := 0 }

/-- The method `TaskManager.HandleTask`. -/
def TaskManager.HandleTask (m : TaskManager) (task : TaskAssignPayload) : TaskManager :=
  let m1 : TaskManager :=
    match TaskMap.load m.tasks task.TaskID with
    | some rt =>
      { m with cancelled := rt.Cancel :: m.cancelled, tasks := TaskMap.delete m.tasks task.TaskID }
    | none => m
  { m1 with
    tasks := TaskMap.store m1.tasks task.TaskID
      { ID := task.TaskID, Typ := task.Typ, Cancel := m1.nextCtx, Interval := task.Interval }
    workers := m1.workers ++ [{ task := task, ctx := m1.nextCtx, phase := .ready }]
    nextCtx := m1.nextCtx + 1 }

/-- The method `TaskManager.CancelTask`. -/
def TaskManager.CancelTask (m : TaskManager) (taskID : String) : TaskManager :=
  match TaskMap.load m.tasks taskID with
  | some rt =>
    { m with cancelled := rt.Cancel :: m.cancelled, tasks := TaskMap.delete m.tasks taskID }
  | none => m

/-- Return of `runTask` for the worker of index `i`: the deferred function deletes the
table entry of the task id when the task is not recurring. -/
def TaskManager.workerExit (m : TaskManager) (i : Nat) (w : Worker) : TaskManager :=
  { m with
    workers := m.workers.set i { w with phase := .exited }
    tasks := if w.task.Interval ≤ 0 then TaskMap.delete m.tasks w.task.TaskID else m.tasks }

/-- One move of the worker of index `i` in `runTask`. At the top of the loop it returns if
its context is cancelled or `stopChan` is closed and enters the task body otherwise; at the
end of the task body, the result sent, it returns if the task is not recurring and starts
to wait otherwise; the wait ends with a return on cancellation or stop and at the top of
the loop otherwise. -/
def TaskManager.workerStep (m : TaskManager) (i : Nat) : TaskManager :=
  match m.workers.get? i with
  | none => m
  | some w =>
    match w.phase with
    | .ready =>
      if w.ctx ∈ m.cancelled ∨ m.stopped = true then m.workerExit i w
      else { m with workers := m.workers.set i { w with phase := .running } }
    | .running =>
      if w.task.Interval ≤ 0 then m.workerExit i w
      else { m with workers := m.workers.set i { w with phase := .waiting } }
    | .waiting =>
      if w.ctx ∈ m.cancelled ∨ m.stopped = true then m.workerExit i w
      else { m with workers := m.workers.set i { w with phase := .ready } }
    | .exited => m

/-- What happens on an agent's task runtime: an assignment arrives, a task is cancelled,
or a worker moves. -/
inductive TaskEvent where
  | assign (task : TaskAssignPayload)
  | cancel (taskID : String)
  | step (worker : Nat)
deriving DecidableEq, Repr

/-- Effect of one event. -/
def TaskManager.apply (m : TaskManager) : TaskEvent → TaskManager
  | .assign task => m.HandleTask task
  | .cancel taskID => m.CancelTask taskID
  | .step i => m.workerStep i

/-- Effect of a sequence of events. -/
def TaskManager.run (m : TaskManager) (evs : List TaskEvent) : TaskManager :=
  evs.foldl TaskManager.apply m

/-- Number of runs of the task id in flight: workers of that id inside the task body. -/
def TaskManager.inFlight (m : TaskManager) (taskID : String) : Nat :=
  (m.workers.filter (fun w => w.task.TaskID = taskID ∧ w.phase = .running)).length

/-- Every context in use was handed out before `nextCtx`. -/
def TaskManager.ContextsBelow (m : TaskManager) : Prop :=
  (∀ c ∈ m.cancelled, c < m.nextCtx) ∧ (∀ e ∈ m.tasks, e.2.Cancel < m.nextCtx) ∧
  ∀ w ∈ m.workers, w.ctx < m.nextCtx

/-- Tasks assigned by a sequence of events, in order. -/
def TaskEvent.assignments : List TaskEvent → List TaskAssignPayload
  | [] => []
  | .assign task :: rest => task :: TaskEvent.assignments rest
  | .cancel _ :: rest => TaskEvent.assignments rest
  | .step _ :: rest => TaskEvent.assignments rest

/-- No task id assigned as a one-shot task is assigned again later. -/
def oneShotNotReassigned (tasks : List TaskAssignPayload) : Prop :=
  tasks.Pairwise (fun a b => a.Interval ≤ 0 → b.TaskID ≠ a.TaskID)

/-- Workers of the task id that have not returned and whose context is not cancelled. -/
def TaskManager.activeWorkers (m : TaskManager) (taskID : String) : List Worker :=
  m.workers.filter (fun w => w.task.TaskID = taskID ∧ w.phase ≠ .exited ∧ w.ctx ∉ m.cancelled)

/-- Number of runs of the task id in flight on a context that is not cancelled. -/
def TaskManager.inFlightUncancelled (m : TaskManager) (taskID : String) : Nat :=
  (m.workers.filter
    (fun w => w.task.TaskID = taskID ∧ w.phase = .running ∧ w.ctx ∉ m.cancelled)).length

/-- Every worker that has not returned and is not cancelled owns the table entry of its
task id. -/
def TaskManager.ActiveRegistered (m : TaskManager) : Prop :=
  ∀ w ∈ m.workers, w.phase ≠ .exited → w.ctx ∉ m.cancelled →
    ∃ rt, TaskMap.load m.tasks w.task.TaskID = some rt ∧ rt.Cancel = w.ctx

/-- A worker that has not returned and is not cancelled is the last one started for its
task id. -/
def TaskManager.ActiveLatest (m : TaskManager) : Prop :=
  m.workers.Pairwise
    (fun a b => a.phase ≠ .exited → a.ctx ∉ m.cancelled → b.task.TaskID ≠ a.task.TaskID)

/-! ### Ping executor (`agent/internal/executor/ping.go`)

The arithmetic of `float64` is a parameter: the conversion from `int` and the three
operations the executor uses. -/

/-- Arithmetic of the float type `F`. -/
structure FloatOps (F : Type) where
  ofInt : Int → F
  add : F → F → F
  mul : F → F → F
  div : F → F → F

/-- Exact arithmetic on the rationals. -/
def ratOps : FloatOps ℚ :=
  { ofInt := fun n => (n : ℚ), add := fun a b => a + b, mul := fun a b => a * b,
    div := fun a b => a / b }

/-- The struct `PingResult`. -/
structure PingResult (F : Type) where
  Target : String
  Latency : F
  PacketLoss : F
  Success : Bool
  Error : String

/-- What one iteration of the loop of `Execute` meets: the context already done, a probe
that fails, or a probe that connects with the given latency in milliseconds. -/
inductive Probe (F : Type) where
  | cancelled
  | failed
  | ok (latency : F)

/-- The constructor `NewPingExecutor`, as far as the probe count goes. -/
def NewPingExecutorCount (count : Int) : Int :=
  if count ≤ 0 then 4 else count

/-- The loop of `PingExecutor.Execute` from iteration `i` on, `n` iterations to go, with the
running `successCount` and `totalLatency`; `none` when an iteration finds the context
done. -/
def pingLoop {F : Type} (A : FloatOps F) (probe : Nat → Probe F) :
    Nat → Nat → Int → F → Option (Int × F)
  | 0, _, successCount, totalLatency => some (successCount, totalLatency)
  | n + 1, i, successCount, totalLatency =>
    match probe i with
    | .cancelled => none
    | .failed => pingLoop A probe n (i + 1) successCount totalLatency
    | .ok latency => pingLoop A probe n (i + 1) (successCount + 1) (A.add totalLatency latency)

/-- The method `PingExecutor.Execute` of an executor with probe count `count`; `probe i` is
what iteration `i` meets. The second component is the returned error. -/
def PingExecutor.Execute {F : Type} (A : FloatOps F) (count : Int) (target : String)
    (probe : Nat → Probe F) : PingResult F × Option String :=
  match pingLoop A probe count.toNat 0 0 (A.ofInt 0) with
  | none =>
    ({ Target := target, Latency := A.ofInt 0, PacketLoss := A.ofInt 0, Success := false,
       Error := "context cancelled" }, some "context canceled")
  | some (successCount, totalLatency) =>
    ({ Target := target
       Latency := if successCount > 0 then A.div totalLatency (A.ofInt successCount)
                  else A.ofInt (-1)
       PacketLoss := A.mul (A.div (A.ofInt (count - successCount)) (A.ofInt count)) (A.ofInt 100)
       Success := decide (successCount > 0)
       Error := if successCount > 0 then "" else "all pings failed" }, none)

/-- Latencies of the probes that connected, in order. -/
def okLatencies {F : Type} : List (Probe F) → List F
  | [] => []
  | .ok latency :: rest => latency :: okLatencies rest
  | _ :: rest => okLatencies rest

/-! ### Probe address (`agent/internal/executor/ping.go`, `tcpPing`)

The two functions of the Go package `net` that `tcpPing` calls are transcribed from the
standard library. The separators are ASCII characters, so positions in the list of
characters cut the string where byte offsets do. -/

/-- The function `bytealg.IndexByteString`, `none` for the result `-1`. -/
def indexByte : List Char → Char → Option Nat
  | [], _ => none
  | x :: xs, c => if x = c then some 0 else (indexByte xs c).map (fun i => i + 1)

/-- The function `net.SplitHostPort`; an error is given by its reason. -/
def SplitHostPort (hostport : List Char) : Except String (List Char × List Char) :=
  match lastIndex hostport ':' with
  | none => .error "missing port in address"
  | some i =>
    let bracketed : Except String (List Char × Nat × Nat) :=
      if hostport.head? = some '[' then
        match indexByte hostport ']' with
        | none => .error "missing ']' in address"
        | some endIdx =>
          if endIdx + 1 = hostport.length then .error "missing port in address"
          else if endIdx + 1 = i then .ok ((hostport.take endIdx).drop 1, 1, endIdx + 1)
          else if hostport.get? (endIdx + 1) = some ':' then .error "too many colons in address"
          else .error "missing port in address"
      else if (indexByte (hostport.take i) ':').isSome then .error "too many colons in address"
      else .ok (hostport.take i, 0, 0)
    match bracketed with
    | .error e => .error e
    | .ok (host, j, k) =>
      if (indexByte (hostport.drop j) '[').isSome then .error "unexpected '[' in address"
      else if (indexByte (hostport.drop k) ']').isSome then .error "unexpected ']' in address"
      else .ok (host, hostport.drop (i + 1))

/-- The function `net.JoinHostPort`. -/
def JoinHostPort (host port : List Char) : List Char :=
  if (indexByte host ':').isSome then ['['] ++ host ++ [']', ':'] ++ port
  else host ++ [':'] ++ port

/-- The local `addr` of `tcpPing`: the address handed to `net.DialTimeout`. -/
def tcpPingAddr (target : String) : String :=
  match SplitHostPort target.data with
  | .ok (host, port) => String.mk (JoinHostPort host port)
  | .error _ => String.mk (JoinHostPort target.data "80".data)

/-! ### Script executor (`agent/internal/executor/script.go`)

One call of `Execute` is run against a `ScriptWorld`, which answers the calls that leave
the program: the download, the read of the file for the digest and the run of the shell.
The script directory is the list of the paths that exist in it; `os.Remove` and
`os.Create` succeed. -/

/-- The struct `ScriptResult`. -/
structure ScriptResult where
  ExitCode : Int
  Stdout : String
  Stderr : String
  Error : String
  Duration : Int
deriving DecidableEq, Repr

/-- The struct `ScriptExecutor`, as far as `Execute` reads it: `timeout`, a
`time.Duration`. -/
structure ScriptExecutor where
  timeout : Int
deriving DecidableEq, Repr

/-- The constructor `NewScriptExecutor`. -/
def NewScriptExecutor (timeout : Int) : ScriptExecutor :=
  { timeout := if timeout ≤ 0 then 60 * timeSecond else timeout }

/-- The method `ScriptExecutor.SetTimeout`. -/
def ScriptExecutor.SetTimeout (_e : ScriptExecutor) (timeout : Int) : ScriptExecutor :=
  { timeout := timeout }

/-- Outcome of `downloadScript`: an error before the file is created (failed request,
status other than 200, `os.Create` refused), an error of `io.Copy` after the file was
created, or the content saved under `path`. -/
inductive Download where
  | failed (err : String)
  | copyFailed (path : String) (err : String)
  | saved (path : String) (content : String)
deriving DecidableEq, Repr

/-- Outcome of `cmd.Run()`: the process ended with an exit code (`err` is nil for 0 and an
`*exec.ExitError` otherwise), `Run` returned another error, or the deadline of the
execution context passed first. Each carries the captured stdout and stderr. -/
inductive RunOutcome where
  | exited (code : Int) (stdout stderr : String)
  | failed (err : String) (stdout stderr : String)
  | deadline (stdout stderr : String)
deriving DecidableEq, Repr

/-- Answers of the outside world during one `Execute`: the download, the error of reading
the file back for the digest if any, the hex SHA-256 digest function, the run of the
command as a function of the timeout given to `context.WithTimeout`, the milliseconds
elapsed, whether `runtime.GOOS` is `windows`, and `os.Environ()`. -/
structure ScriptWorld where
  download : Download
  openError : Option String
  sha256hex : String → String
  run : Int → RunOutcome
  elapsed : Int
  windows : Bool
  environ : List String

/-- The command built by `exec.CommandContext` and started by `cmd.Run()`, with the
timeout of its execution context. -/
structure ShellCall where
  name : String
  args : List String
  env : List String
  deadline : Int
deriving DecidableEq, Repr

/-- What one `Execute` leaves: the returned result and error, the paths that exist in the
script directory, and the command that was started, if any. -/
structure ScriptRun where
  result : ScriptResult
  err : Option String
  files : List String
  shell : Option ShellCall
deriving DecidableEq, Repr

/-- The call `os.Create(path)` on the script directory. -/
def createFile (files : List String) (path : String) : List String :=
  if path ∈ files then files else files ++ [path]

/-- The call `os.Remove(path)` on the script directory. -/
def removeFile (files : List String) (path : String) : List String :=
  files.filter (fun p => p ≠ path)

/-- The zero `ScriptResult` with `Error` and `Duration` set. -/
def ScriptResult.failure (error : String) (duration : Int) : ScriptResult :=
  { ExitCode := 0, Stdout := "", Stderr := "", Error := error, Duration := duration }

/-- The command `Execute` builds for the script at `scriptPath`. -/
def ScriptExecutor.command (e : ScriptExecutor) (w : ScriptWorld) (scriptPath : String)
    (params : List (String × String)) : ShellCall :=
  { name := if w.windows then "cmd" else "/bin/sh"
    args := if w.windows then ["/c", scriptPath] else [scriptPath]
    env := w.environ ++ params.map (fun kv => kv.1 ++ "=" ++ kv.2)
    deadline := e.timeout }

/-- The part of `Execute` from `cmd.Run()` on. -/
def ScriptExecutor.runCommand (e : ScriptExecutor) (w : ScriptWorld) (files : List String)
    (durationString : Int → String) (scriptPath : String) (params : List (String × String)) :
    ScriptRun :=
  match w.run e.timeout with
  | .deadline stdout stderr =>
    { result := { ExitCode := -1, Stdout := stdout, Stderr := stderr,
                  Error := "execution timeout", Duration := w.elapsed },
      err := some ("script execution timeout after " ++ durationString e.timeout),
      files := files, shell := some (e.command w scriptPath params) }
  | .exited code stdout stderr =>
    { result := { ExitCode := code, Stdout := stdout, Stderr := stderr, Error := "",
                  Duration := w.elapsed },
      err := none, files := removeFile files scriptPath,
      shell := some (e.command w scriptPath params) }
  | .failed err stdout stderr =>
    { result := { ExitCode := -1, Stdout := stdout, Stderr := stderr, Error := err,
                  Duration := w.elapsed },
      err := none, files := removeFile files scriptPath,
      shell := some (e.command w scriptPath params) }

/-- The method `ScriptExecutor.Execute`; `durationString` is the `%v` format of a
`time.Duration`. The script id only selects what is downloaded, which `w` answers. -/
def ScriptExecutor.Execute (e : ScriptExecutor) (w : ScriptWorld) (files : List String)
    (durationString : Int → String) (params : List (String × String))
    (expectedChecksum : String) : ScriptRun :=
  match w.download with
  | .failed err =>
    { result := ScriptResult.failure ("download failed: " ++ err) w.elapsed, err := some err,
      files := files, shell := none }
  | .copyFailed path err =>
    { result := ScriptResult.failure ("download failed: " ++ err) w.elapsed, err := some err,
      files := removeFile (createFile files path) path, shell := none }
  | .saved scriptPath content =>
    if expectedChecksum ≠ "" ∧ w.openError.isSome then
      { result := ScriptResult.failure
          ("checksum computation failed: " ++ w.openError.getD "") w.elapsed,
        err := w.openError, files := createFile files scriptPath, shell := none }
    else if expectedChecksum ≠ "" ∧ w.sha256hex content ≠ expectedChecksum then
      { result := ScriptResult.failure "checksum mismatch" w.elapsed,
        err := some ("checksum mismatch: expected " ++ expectedChecksum ++ ", got " ++
          w.sha256hex content),
        files := removeFile (createFile files scriptPath) scriptPath, shell := none }
    else e.runCommand w (createFile files scriptPath) durationString scriptPath params

/-! ### Task body (`agent/internal/executor/task.go`, `runTask`) -/

/-- The index expression `m[k]` on a `map[string]string`, the empty string when the key
is absent or the map is nil. -/
def mapGet (m : List (String × String)) (k : String) : String :=
  match m.find? (fun e => e.1 = k) with
  | some e => e.2
  | none => ""

/-- The call `json.Marshal` for a `PingResult`. -/
def PingResult.marshal (r : PingResult ℚ) : JValue :=
  .obj ([("target", .str r.Target), ("latency", .num r.Latency),
         ("packet_loss", .num r.PacketLoss), ("success", .bool r.Success)] ++
        omitString "error" r.Error)

/-- The field `scriptExecutor` of the task manager built by `NewTaskManager`. -/
def TaskManager.scriptExecutor : ScriptExecutor := NewScriptExecutor (60 * timeSecond)

/-- The call `m.scriptExecutor.Execute(ctx, task.ScriptID, task.Params, checksum)` of the
script case of `runTask`. -/
def runScriptTask (w : ScriptWorld) (files : List String) (durationString : Int → String)
    (task : TaskAssignPayload) : ScriptRun :=
  ScriptExecutor.Execute TaskManager.scriptExecutor w files durationString task.Params
    (mapGet task.Params "checksum")

/-- The result built by one pass through the loop body of `runTask`, as it is offered to
`resultChan`: `encode` writes a JSON value as text, `duration` is the milliseconds since
`start`, `ping` and `script` are what the two executors return. -/
def runTaskBody (encode : JValue → String) (task : TaskAssignPayload) (duration : Int)
    (ping : String → PingResult ℚ × Option String)
    (script : TaskAssignPayload → ScriptResult × Option String) : TaskResultPayload :=
  if task.Typ = "ping" then
    match ping task.Target with
    | (_, some err) =>
      { TaskID := task.TaskID, Success := false, Output := "", Error := err,
        Duration := duration }
    | (pingResult, none) =>
      { TaskID := task.TaskID, Success := pingResult.Success,
        Output := encode pingResult.marshal,
        Error := if pingResult.Success then "" else pingResult.Error, Duration := duration }
  else if task.Typ = "script" then
    match script task with
    | (_, some err) =>
      { TaskID := task.TaskID, Success := false, Output := "", Error := err,
        Duration := duration }
    | (scriptResult, none) =>
      { TaskID := task.TaskID, Success := decide (scriptResult.ExitCode = 0),
        Output := scriptResult.Stdout,
        Error := if scriptResult.Stderr ≠ "" then scriptResult.Stderr else "",
        Duration := duration }
  else
    { TaskID := task.TaskID, Success := false, Output := "", Error := "unknown task type",
      Duration := duration }

/-- The task body with the script executor of the task manager run against `w`. -/
def runTaskScript (encode : JValue → String) (task : TaskAssignPayload) (duration : Int)
    (ping : String → PingResult ℚ × Option String) (w : ScriptWorld) (files : List String)
    (durationString : Int → String) : TaskResultPayload :=
  runTaskBody encode task duration ping
    (fun t => ((runScriptTask w files durationString t).result,
               (runScriptTask w files durationString t).err))

/-! ### Agent client (`agent/internal/ws/client.go`)

The client is followed from `NewClient` up to `Stop`: `stopChan` is open. Its `sendChan`
is never closed, so the queue is the list of the frames it holds, oldest first. The
goroutines started by `Run` are counted by the function they run. -/

/-- The constant `maxBackoff`. -/
def maxBackoff : Int := 60 * timeSecond

/-- The conversion `time.Duration(math.Pow(2, float64(attempt)))`. The power of two is
exact in `float64`, and below `2^63` for `attempt < 63`; from 63 on the value is outside
`int64` and the result of the conversion depends on the platform: it is `outOfRange`. -/
def pow2Duration (outOfRange : Int) (attempt : Nat) : Int :=
  if attempt < 63 then 2 ^ attempt else outOfRange

/-- The method `Client.calculateBackoff`; the product is taken in `int64`. -/
def calculateBackoff (outOfRange : Int) (attempt : Nat) : Int :=
  let backoff := wrapInt64 (pow2Duration outOfRange attempt * timeSecond)
  if backoff > maxBackoff then maxBackoff else backoff

/-- State of a `Client`: the outbound queue, the `connected` flag, the number of
goroutines in the loop of `readPump`, the attempt counters of the goroutines inside
`reconnect`, the number of goroutines in `writePump` and in `heartbeatLoop`, and the
frames written to the connection. -/
structure Client where
  sendChan : List Frame
  connected : Bool
  readPumps : Nat
  reconnects : List Nat
  writePumps : Nat
  heartbeatLoops : Nat
  written : List Frame
deriving DecidableEq, Repr

/-- The client built by `NewClient`. -/
def NewClient : Client :=
  { sendChan := [], connected := false, readPumps := 0, reconnects := [], writePumps := 0,
    heartbeatLoops := 0, written := [] }

/-- The method `Client.Send`; `encode` writes a JSON value as text. The second component
is the returned error, `none` for `nil` and the message of the `SendError` otherwise. -/
def Client.Send (encode : JValue → Frame) (c : Client) (msg : Message) :
    Client × Option String :=
  if c.sendChan.length < 256 then
    ({ c with sendChan := c.sendChan ++ [encode msg.marshal] }, none)
  else (c, some "send buffer full")

/-- The method `Client.SendHeartbeat`, given the fresh id and the clock. -/
def Client.SendHeartbeat (encode : JValue → Frame) (c : Client) (uuid : String) (now : Int) :
    Client × Option String :=
  c.Send encode (NewMessage MsgTypeHeartbeat uuid now .null)

/-- The method `Client.Run`. -/
def Client.Run (c : Client) : Client :=
  { c with readPumps := c.readPumps + 1, writePumps := c.writePumps + 1,
           heartbeatLoops := c.heartbeatLoops + 1 }

/-- Every goroutine in `heartbeatLoop` receives a tick and calls `SendHeartbeat`:
`n` loops, the loop of index `k` drawing the id `uuid k`. -/
def Client.heartbeats (encode : JValue → Frame) (now : Int) (uuid : Nat → String) :
    Nat → Client → Client
  | 0, c => c
  | n + 1, c =>
    Client.heartbeats encode now (fun k => uuid (k + 1)) n
      (c.SendHeartbeat encode (uuid 0) now).1

/-- What happens on a client: `main` has connected and calls `Run`; the connection is
lost, so `ReadMessage` fails in a read pump, whose deferred function clears `connected`
and enters `reconnect`; a goroutine in `reconnect` has slept and calls `Connect`, which
succeeds or fails; a write pump receives the frame at the head of the queue and writes
it, with or without error; 30 s pass for the heartbeat loops. -/
inductive ClientEvent where
  | connect
  | disconnect
  | reconnect (ok : Bool)
  | write (ok : Bool)
  | heartbeat (now : Int) (uuid : Nat → String)

/-- Effect of one event on the client. -/
def Client.step (encode : JValue → Frame) (c : Client) : ClientEvent → Client
  | .connect => ({ c with connected := true } : Client).Run
  | .disconnect =>
    if c.readPumps = 0 then c
    else { c with connected := false, readPumps := c.readPumps - 1,
                  reconnects := c.reconnects ++ [0] }
  | .reconnect ok =>
    match c.reconnects with
    | [] => c
    | attempt :: rest =>
      if ok then ({ c with connected := true, reconnects := rest } : Client).Run
      else { c with reconnects := rest ++ [attempt + 1] }
  | .write ok =>
    match c.sendChan with
    | [] => c
    | message :: rest =>
      if c.writePumps = 0 then c
      else if c.connected = false then { c with sendChan := rest }
      else if ok then { c with sendChan := rest, written := c.written ++ [message] }
      else { c with sendChan := rest, writePumps := c.writePumps - 1 }
  | .heartbeat now uuid => Client.heartbeats encode now uuid c.heartbeatLoops c

/-- Effect of a sequence of events. -/
def Client.run (encode : JValue → Frame) (c : Client) (evs : List ClientEvent) : Client :=
  evs.foldl (Client.step encode) c

/-- The events of `k` losses of the connection, each followed by a reconnection that
succeeds at once. -/
def reconnections : Nat → List ClientEvent
  | 0 => []
  | k + 1 => [.disconnect, .reconnect true] ++ reconnections k

/-! ### Configuration (`core/internal/config/config.go`) -/

/-- The struct `ServerConfig`. -/
structure ServerConfig where
  Host : String
  Port : Int
deriving DecidableEq, Repr

/-- The struct `DatabaseConfig`. -/
structure DatabaseConfig where
  Path : String
deriving DecidableEq, Repr

/-- The struct `AuthConfig`. -/
structure AuthConfig where
  JWTSecret : String
deriving DecidableEq, Repr

/-- The struct `AgentConfig`. -/
structure AgentConfig where
  Token : String
deriving DecidableEq, Repr

/-- The struct `Config`. -/
structure Config where
  Server : ServerConfig
  Database : DatabaseConfig
  Auth : AuthConfig
  Agent : AgentConfig
deriving DecidableEq, Repr

/-- Outcome of `os.ReadFile(path)`: no such file, another error, or the bytes read, given
by the JSON value they denote (`none` when they are not a JSON text). -/
inductive FileRead where
  | notExist
  | failed (err : String)
  | content (data : Option JValue)

/-- Decoding into a `string` field that already holds `cur`: an absent key and `null`
leave it. -/
def decStringInto (cur : String) : Option JValue → Option String
  | none => some cur
  | some .null => some cur
  | some (.str s) => some s
  | some _ => none

/-- Decoding into an `int` field that already holds `cur`. -/
def decIntInto (cur : Int) : Option JValue → Option Int
  | none => some cur
  | some .null => some cur
  | some (.num q) => if q.den = 1 ∧ isInt64 q.num then some q.num else none
  | some _ => none

/-- Decoding into a struct-typed field that already holds `cur`. -/
def decStructInto {α : Type} (fields : α → List (String × JValue) → Option α) (cur : α) :
    Option JValue → Option α
  | none => some cur
  | some .null => some cur
  | some (.obj kvs) => fields cur kvs
  | some _ => none

/-- Members of a JSON object decoded into a `ServerConfig`. -/
def ServerConfig.fields (cur : ServerConfig) (kvs : List (String × JValue)) :
    Option ServerConfig :=
  match decStringInto cur.Host (getField kvs "host"), decIntInto cur.Port (getField kvs "port") with
  | some h, some p => some { Host := h, Port := p }
  | _, _ => none

/-- Members of a JSON object decoded into a `DatabaseConfig`. -/
def DatabaseConfig.fields (cur : DatabaseConfig) (kvs : List (String × JValue)) :
    Option DatabaseConfig :=
  (decStringInto cur.Path (getField kvs "path")).map (fun p => { Path := p })

/-- Members of a JSON object decoded into an `AuthConfig`. -/
def AuthConfig.fields (cur : AuthConfig) (kvs : List (String × JValue)) : Option AuthConfig :=
  (decStringInto cur.JWTSecret (getField kvs "jwt_secret")).map (fun s => { JWTSecret := s })

/-- Members of a JSON object decoded into an `AgentConfig`. -/
def AgentConfig.fields (cur : AgentConfig) (kvs : List (String × JValue)) : Option AgentConfig :=
  (decStringInto cur.Token (getField kvs "token")).map (fun t => { Token := t })

/-- Members of a JSON object decoded into a `Config`. -/
def Config.fields (cur : Config) (kvs : List (String × JValue)) : Option Config :=
  match decStructInto ServerConfig.fields cur.Server (getField kvs "server"),
        decStructInto DatabaseConfig.fields cur.Database (getField kvs "database"),
        decStructInto AuthConfig.fields cur.Auth (getField kvs "auth"),
        decStructInto AgentConfig.fields cur.Agent (getField kvs "agent") with
  | some s, some d, some a, some g => some { Server := s, Database := d, Auth := a, Agent := g }
  | _, _, _, _ => none

/-- The call `json.Unmarshal(data, config)` on a `*Config` that holds `cur`. -/
def Config.unmarshal (cur : Config) (data : JValue) : Option Config :=
  decStructInto Config.fields cur (some data)

/-- The configuration `Load` starts from. -/
def defaultConfig : Config :=
  { Server := { Host := "0.0.0.0", Port := 8080 }, Database := { Path := "probe.db" },
    Auth := { JWTSecret := "change-me-in-production" }, Agent := { Token := "" } }

/-- The part of `Load` after the comment "Override with environment variables";
`getenv` is `os.Getenv` and `parseInt` the decoding of a text as a JSON `int`. -/
def overrideWithEnv (getenv : String → String) (parseInt : String → Option Int)
    (config : Config) : Config :=
  let c1 : Config :=
    if getenv "PROBE_HOST" ≠ "" then
      { config with Server := { config.Server with Host := getenv "PROBE_HOST" } }
    else config
  let c2 : Config :=
    if getenv "PROBE_PORT" ≠ "" then
      match parseInt (getenv "PROBE_PORT") with
      | some port => { c1 with Server := { c1.Server with Port := port } }
      | none => c1
    else c1
  let c3 : Config :=
    if getenv "PROBE_DB_PATH" ≠ "" then { c2 with Database := { Path := getenv "PROBE_DB_PATH" } }
    else c2
  let c4 : Config :=
    if getenv "PROBE_JWT_SECRET" ≠ "" then
      { c3 with Auth := { JWTSecret := getenv "PROBE_JWT_SECRET" } }
    else c3
  if getenv "PROBE_AGENT_TOKEN" ≠ "" then
    { c4 with Agent := { Token := getenv "PROBE_AGENT_TOKEN" } }
  else c4

/-- The function `Load`, given what reading the file at `path` yields. -/
def Load (file : FileRead) (getenv : String → String) (parseInt : String → Option Int) :
    Except String Config :=
  match file with
  | .notExist => .ok defaultConfig
  | .failed err => .error err
  | .content none => .error "invalid character"
  | .content (some data) =>
    match Config.unmarshal defaultConfig data with
    | none => .error "json: cannot unmarshal"
    | some config => .ok (overrideWithEnv getenv parseInt config)

/-! ## Part II. Properties -/

set_option maxRecDepth 1000000

/-! ### Wire protocol: encoding then decoding -/

theorem decInt64_num (n : Int) (h : isInt64 n) : decInt64 (some (.num n)) = some n := by
  simp [decInt64, h]

theorem decUint64_num (n : Nat) (h : isUint64 n) : decUint64 (some (.num n)) = some n := by
  simp [decUint64, h]

theorem registerPayload_unmarshal_marshal (p : RegisterPayload) :
    RegisterPayload.unmarshal (some p.marshal) = some p := by
  simp [RegisterPayload.unmarshal, unmarshalRaw, decStruct, RegisterPayload.marshal,
    RegisterPayload.fields, getField, decString]

theorem registerAckPayload_unmarshal_marshal (p : RegisterAckPayload) :
    RegisterAckPayload.unmarshal (some p.marshal) = some p := by
  obtain ⟨a, s, e⟩ := p
  by_cases he : e = "" <;>
  simp [RegisterAckPayload.unmarshal, unmarshalRaw, decStruct, RegisterAckPayload.marshal,
    RegisterAckPayload.fields, getField, decString, decBool, omitString, he]

theorem memoryStats_decode_marshal (m : MemoryStats)
    (h : isUint64 m.Total ∧ isUint64 m.Used ∧ isUint64 m.Available) :
    decStruct MemoryStats.fields MemoryStats.zero (some m.marshal) = some m := by
  obtain ⟨h1, h2, h3⟩ := h
  simp [decStruct, MemoryStats.marshal, MemoryStats.fields, getField, decUint64_num, h1, h2, h3,
    decFloat64]

theorem diskStats_decode_marshal (d : DiskStats)
    (h : isUint64 d.Total ∧ isUint64 d.Used ∧ isUint64 d.Available) :
    decStruct DiskStats.fields DiskStats.zero (some d.marshal) = some d := by
  obtain ⟨h1, h2, h3⟩ := h
  simp [decStruct, DiskStats.marshal, DiskStats.fields, getField, decUint64_num, h1, h2, h3,
    decFloat64, decString]

theorem networkStats_decode_marshal (n : NetworkStats)
    (h : isUint64 n.BytesSent ∧ isUint64 n.BytesRecv ∧ isUint64 n.BytesSentRate ∧
      isUint64 n.BytesRecvRate) :
    decStruct NetworkStats.fields NetworkStats.zero (some n.marshal) = some n := by
  obtain ⟨h1, h2, h3, h4⟩ := h
  simp [decStruct, NetworkStats.marshal, NetworkStats.fields, getField, decUint64_num, h1, h2,
    h3, h4]

theorem decDiskList_map (ds : List DiskStats)
    (h : ∀ d ∈ ds, isUint64 d.Total ∧ isUint64 d.Used ∧ isUint64 d.Available) :
    decDiskList (ds.map DiskStats.marshal) = some ds := by
  induction ds with
  | nil => rfl
  | cons d ds ih =>
    have hd := diskStats_decode_marshal d (h d (List.mem_cons_self _ _))
    have ht := ih (fun x hx => h x (List.mem_cons_of_mem _ hx))
    simp [decDiskList, hd, ht]

theorem metricsPayload_unmarshal_marshal (p : MetricsPayload) (h : (Payload.metrics p).WF) :
    MetricsPayload.unmarshal (some p.marshal) = some p := by
  obtain ⟨h1, h2, h3, hd, h4, h5, h6, h7⟩ := h
  have hm := memoryStats_decode_marshal p.Memory ⟨h1, h2, h3⟩
  have hn := networkStats_decode_marshal p.Network ⟨h4, h5, h6, h7⟩
  have hds := decDiskList_map p.Disks hd
  simp [MetricsPayload.unmarshal, unmarshalRaw, decStruct, MetricsPayload.marshal,
    MetricsPayload.fields, getField, decFloat64, decDisks, hds]
  simp [decStruct] at hm hn
  simp [hm, hn]

theorem mapSet_append (acc : List (String × String)) (k v : String)
    (h : ∀ e ∈ acc, e.1.data < k.data) : mapSet acc k v = acc ++ [(k, v)] := by
  induction acc with
  | nil => rfl
  | cons e acc ih =>
    obtain ⟨k1, v1⟩ := e
    have h1 : k1.data < k.data := h (k1, v1) (List.mem_cons_self _ _)
    have hne : k ≠ k1 := by
      rintro rfl
      exact lt_irrefl _ h1
    have hnlt : ¬ k.data < k1.data := fun h2 => lt_irrefl _ (lt_trans h1 h2)
    simp [mapSet, hne, hnlt, ih (fun x hx => h x (List.mem_cons_of_mem _ hx))]

theorem decMapEntries_map (m acc : List (String × String)) (h : isStringMap (acc ++ m)) :
    decMapEntries (m.map (fun e => (e.1, JValue.str e.2))) acc = some (acc ++ m) := by
  induction m generalizing acc with
  | nil => simp [decMapEntries]
  | cons e m ih =>
    obtain ⟨k, v⟩ := e
    have hk : ∀ x ∈ acc, x.1.data < k.data := by
      intro x hx
      unfold isStringMap at h
      rw [List.map_append, List.pairwise_append] at h
      exact h.2.2 _ (List.mem_map_of_mem _ hx) _ (by simp)
    have h2 : isStringMap ((acc ++ [(k, v)]) ++ m) := by simpa using h
    simp [decMapEntries, mapSet_append acc k v hk, ih _ h2]

theorem taskAssignPayload_unmarshal_marshal (p : TaskAssignPayload)
    (h : (Payload.taskAssign p).WF) : TaskAssignPayload.unmarshal (some p.marshal) = some p := by
  obtain ⟨id, ty, tg, sc, ps, iv, tm⟩ := p
  have ⟨hm, hi, ht⟩ : isStringMap ps ∧ isInt64 iv ∧ isInt64 tm := h
  have hps := decMapEntries_map ps [] (by simpa using hm)
  simp only [List.nil_append] at hps
  by_cases h1 : tg = "" <;> by_cases h2 : sc = "" <;> by_cases h3 : ps = [] <;>
    by_cases h4 : iv = 0 <;> by_cases h5 : tm = 0 <;>
    simp [TaskAssignPayload.unmarshal, unmarshalRaw, decStruct, TaskAssignPayload.marshal,
      TaskAssignPayload.fields, getField, decString, decStringMap, omitString, omitStringMap,
      omitInt, h1, h2, h3, h4, h5, hps, decInt64, hi, ht]

theorem taskAckPayload_unmarshal_marshal (p : TaskAckPayload) :
    TaskAckPayload.unmarshal (some p.marshal) = some p := by
  obtain ⟨a, s, e⟩ := p
  by_cases he : e = "" <;>
  simp [TaskAckPayload.unmarshal, unmarshalRaw, decStruct, TaskAckPayload.marshal,
    TaskAckPayload.fields, getField, decString, decBool, omitString, he]

theorem taskResultPayload_unmarshal_marshal (p : TaskResultPayload)
    (h : (Payload.taskResult p).WF) : TaskResultPayload.unmarshal (some p.marshal) = some p := by
  obtain ⟨t, s, o, e, d⟩ := p
  have hd : isInt64 d := h
  by_cases he : e = "" <;>
  simp [TaskResultPayload.unmarshal, unmarshalRaw, decStruct, TaskResultPayload.marshal,
    TaskResultPayload.fields, getField, decString, decBool, omitString, he, decInt64, hd]

theorem configPayload_unmarshal_marshal (p : ConfigPayload) (h : (Payload.config p).WF) :
    ConfigPayload.unmarshal (some p.marshal) = some p := by
  obtain ⟨m⟩ := p
  have hm : isInt64 m := h
  simp [ConfigPayload.unmarshal, unmarshalRaw, decStruct, ConfigPayload.marshal,
    ConfigPayload.fields, getField, decInt64, hm]

theorem errorPayload_unmarshal_marshal (p : ErrorPayload) (h : (Payload.error p).WF) :
    ErrorPayload.unmarshal (some p.marshal) = some p := by
  obtain ⟨c, m⟩ := p
  have hc : isInt64 c := h
  simp [ErrorPayload.unmarshal, unmarshalRaw, decStruct, ErrorPayload.marshal,
    ErrorPayload.fields, getField, decInt64, decString, hc]

theorem payload_unmarshal_marshal (p : Payload) (h : p.WF) :
    Payload.unmarshal p.msgType (some p.marshal) = some p := by
  cases p with
  | heartbeat => simp [Payload.unmarshal, Payload.msgType, Payload.marshal]
  | register q =>
    simp [Payload.unmarshal, Payload.msgType, Payload.marshal, MsgTypeRegister, MsgTypeHeartbeat,
      registerPayload_unmarshal_marshal]
  | registerAck q =>
    simp [Payload.unmarshal, Payload.msgType, Payload.marshal, MsgTypeRegister, MsgTypeHeartbeat,
      MsgTypeRegisterAck, registerAckPayload_unmarshal_marshal]
  | metrics q =>
    simp [Payload.unmarshal, Payload.msgType, Payload.marshal, MsgTypeRegister, MsgTypeHeartbeat,
      MsgTypeRegisterAck, MsgTypeMetrics, metricsPayload_unmarshal_marshal q h]
  | taskAssign q =>
    simp [Payload.unmarshal, Payload.msgType, Payload.marshal, MsgTypeRegister, MsgTypeHeartbeat,
      MsgTypeRegisterAck, MsgTypeMetrics, MsgTypeTaskAssign,
      taskAssignPayload_unmarshal_marshal q h]
  | taskAck q =>
    simp [Payload.unmarshal, Payload.msgType, Payload.marshal, MsgTypeRegister, MsgTypeHeartbeat,
      MsgTypeRegisterAck, MsgTypeMetrics, MsgTypeTaskAssign, MsgTypeTaskAck,
      taskAckPayload_unmarshal_marshal]
  | taskResult q =>
    simp [Payload.unmarshal, Payload.msgType, Payload.marshal, MsgTypeRegister, MsgTypeHeartbeat,
      MsgTypeRegisterAck, MsgTypeMetrics, MsgTypeTaskAssign, MsgTypeTaskAck, MsgTypeTaskResult,
      taskResultPayload_unmarshal_marshal q h]
  | config q =>
    simp [Payload.unmarshal, Payload.msgType, Payload.marshal, MsgTypeRegister, MsgTypeHeartbeat,
      MsgTypeRegisterAck, MsgTypeMetrics, MsgTypeTaskAssign, MsgTypeTaskAck, MsgTypeTaskResult,
      MsgTypeConfig, configPayload_unmarshal_marshal q h]
  | error q =>
    simp [Payload.unmarshal, Payload.msgType, Payload.marshal, MsgTypeRegister, MsgTypeHeartbeat,
      MsgTypeRegisterAck, MsgTypeMetrics, MsgTypeTaskAssign, MsgTypeTaskAck, MsgTypeTaskResult,
      MsgTypeConfig, MsgTypeError, errorPayload_unmarshal_marshal q h]

theorem message_unmarshal_marshal (ty id : String) (ts : Int) (v : JValue) (hts : isInt64 ts) :
    Message.unmarshal (Message.marshal { Typ := ty, ID := id, Timestamp := ts, Payload := some v }) =
      some { Typ := ty, ID := id, Timestamp := ts, Payload := some v } := by
  simp [Message.unmarshal, Message.marshal, decStruct, Message.fields, getField, decString,
    decInt64, hts]

theorem Payload.msgType_mem (p : Payload) : p.msgType ∈ msgTypes := by
  cases p <;> simp [Payload.msgType, msgTypes]

/-- C1. Encoding then decoding an envelope: for every payload value `p` of one of the
payload structs (the nil payload for a heartbeat), every id and every in-range timestamp,
decoding the encoding of the message that `NewMessage` builds for `p` under its message
type succeeds, yields the same type (one of the ten), id and timestamp, and a raw payload
that decodes, as the payload struct of that type, to `p` itself. -/
theorem message_roundtrip (id : String) (ts : Int) (p : Payload) (hts : isInt64 ts)
    (hp : p.WF) :
    ∃ m, Message.unmarshal (Message.marshal (NewMessage p.msgType id ts p.marshal)) = some m ∧
      m.Typ = p.msgType ∧ m.Typ ∈ msgTypes ∧ m.ID = id ∧ m.Timestamp = ts ∧
      Payload.unmarshal m.Typ m.Payload = some p :=
  ⟨_, message_unmarshal_marshal p.msgType id ts p.marshal hts, rfl, Payload.msgType_mem p, rfl,
    rfl, payload_unmarshal_marshal p hp⟩

/-- Instance of `message_roundtrip`: a `task_assign` message with one parameter. -/
theorem message_roundtrip_witness :
    ∃ m, Message.unmarshal (Message.marshal (NewMessage "task_assign" "m-1" 1700000000000
        (Payload.taskAssign { TaskID := "t1", Typ := "script", Target := "", ScriptID := "s1",
                              Params := [("checksum", "ab12")], Interval := 0,
                              Timeout := 60 }).marshal)) = some m ∧
      m.Typ = "task_assign" ∧ m.Typ ∈ msgTypes ∧ m.ID = "m-1" ∧ m.Timestamp = 1700000000000 ∧
      Payload.unmarshal m.Typ m.Payload = some (Payload.taskAssign
        { TaskID := "t1", Typ := "script", Target := "", ScriptID := "s1",
          Params := [("checksum", "ab12")], Interval := 0, Timeout := 60 }) :=
  message_roundtrip "m-1" 1700000000000
    (Payload.taskAssign { TaskID := "t1", Typ := "script", Target := "", ScriptID := "s1",
                          Params := [("checksum", "ab12")], Interval := 0, Timeout := 60 })
    (by decide) ⟨by decide, by decide, by decide⟩

/-! ### Hub -/

theorem AgentMap.load_eq_some_of_mem (m : AgentMap) (k : String) (c : AgentConn)
    (hnd : (m.map (fun e => e.1)).Nodup) (hmem : (k, c) ∈ m) : AgentMap.load m k = some c := by
  induction m with
  | nil => simp at hmem
  | cons e m ih =>
    obtain ⟨k1, c1⟩ := e
    simp only [List.map_cons, List.nodup_cons] at hnd
    rcases List.mem_cons.mp hmem with heq | hin
    · cases heq
      simp [AgentMap.load]
    · have hne : k1 ≠ k := by
        rintro rfl
        exact hnd.1 (List.mem_map_of_mem (fun e => e.1) hin)
      have := ih hnd.2 hin
      simpa [AgentMap.load, List.find?_cons, hne] using this

theorem AgentMap.mem_of_load_eq_some (m : AgentMap) (k : String) (c : AgentConn)
    (h : AgentMap.load m k = some c) : (k, c) ∈ m := by
  induction m with
  | nil => simp [AgentMap.load] at h
  | cons e m ih =>
    obtain ⟨k1, c1⟩ := e
    by_cases hk : k1 = k
    · subst hk
      simp [AgentMap.load] at h
      simp [h]
    · have h2 : AgentMap.load m k = some c := by
        simpa [AgentMap.load, List.find?_cons, hk] using h
      exact List.mem_cons_of_mem _ (ih h2)

theorem AgentMap.load_cons (k1 : String) (c1 : AgentConn) (m : AgentMap) (k : String) :
    AgentMap.load ((k1, c1) :: m) k = if k1 = k then some c1 else AgentMap.load m k := by
  by_cases hk : k1 = k <;> simp [AgentMap.load, List.find?_cons, hk]

theorem AgentMap.delete_cons (k1 : String) (c1 : AgentConn) (m : AgentMap) (k : String) :
    AgentMap.delete ((k1, c1) :: m) k =
      if k1 = k then AgentMap.delete m k else (k1, c1) :: AgentMap.delete m k := by
  by_cases hk : k1 = k <;> simp [AgentMap.delete, List.filter_cons, hk]

theorem AgentMap.load_delete_self (m : AgentMap) (k : String) :
    AgentMap.load (AgentMap.delete m k) k = none := by
  induction m with
  | nil => rfl
  | cons e m ih =>
    obtain ⟨k1, c1⟩ := e
    rw [AgentMap.delete_cons]
    split_ifs with hk
    · exact ih
    · rw [AgentMap.load_cons, if_neg hk]
      exact ih

theorem AgentMap.load_delete_ne (m : AgentMap) (k k2 : String) (h : k2 ≠ k) :
    AgentMap.load (AgentMap.delete m k) k2 = AgentMap.load m k2 := by
  induction m with
  | nil => rfl
  | cons e m ih =>
    obtain ⟨k1, c1⟩ := e
    rw [AgentMap.delete_cons, AgentMap.load_cons]
    split_ifs with hk hk2 hk2
    · exact absurd (hk.symm.trans hk2).symm h
    · exact ih
    · rw [AgentMap.load_cons, if_pos hk2]
    · rw [AgentMap.load_cons, if_neg hk2]
      exact ih

theorem AgentMap.load_store_self (m : AgentMap) (k : String) (c : AgentConn) :
    AgentMap.load (AgentMap.store m k c) k = some c := by
  have h := AgentMap.load_delete_self m k
  simp only [AgentMap.load, AgentMap.store] at h ⊢
  rw [List.find?_append]
  cases hf : List.find? (fun e => decide (e.1 = k)) (AgentMap.delete m k) with
  | none => simp
  | some x => simp [hf] at h

theorem AgentMap.load_store_ne (m : AgentMap) (k k2 : String) (c : AgentConn) (h : k2 ≠ k) :
    AgentMap.load (AgentMap.store m k c) k2 = AgentMap.load m k2 := by
  have h1 := AgentMap.load_delete_ne m k k2 h
  simp only [AgentMap.load, AgentMap.store] at h1 ⊢
  rw [List.find?_append]
  have hk : ¬ k = k2 := fun h3 => h h3.symm
  cases hf : List.find? (fun e => decide (e.1 = k2)) (AgentMap.delete m k) with
  | none => rw [hf] at h1; simp [hk, ← h1]
  | some x => rw [hf] at h1; simp [← h1]

theorem AgentMap.store_wf (m : AgentMap) (c : AgentConn)
    (h1 : ∀ e ∈ m, e.2.ID = e.1) (h2 : (m.map (fun e => e.1)).Nodup) :
    (∀ e ∈ AgentMap.store m c.ID c, e.2.ID = e.1) ∧
      ((AgentMap.store m c.ID c).map (fun e => e.1)).Nodup := by
  constructor
  · intro e he
    simp only [AgentMap.store, AgentMap.delete, List.mem_append, List.mem_filter,
      List.mem_singleton] at he
    rcases he with ⟨hm, _⟩ | rfl
    · exact h1 e hm
    · rfl
  · simp only [AgentMap.store, AgentMap.delete, List.map_append, List.map_cons, List.map_nil]
    rw [List.nodup_append]
    refine ⟨(h2.sublist ((List.filter_sublist _).map _)), List.nodup_singleton _, ?_⟩
    intro a ha hb
    simp only [List.mem_singleton] at hb
    subst hb
    simp only [List.mem_map, List.mem_filter] at ha
    obtain ⟨e, ⟨_, hne⟩, heq⟩ := ha
    simp [heq] at hne

theorem any_congr_mem {α : Type} (l : List α) (f g : α → Bool) (h : ∀ x ∈ l, f x = g x) :
    l.any f = l.any g := by
  induction l with
  | nil => rfl
  | cons a l ih =>
    rw [List.any_cons, List.any_cons, h a (List.mem_cons_self _ _),
      ih (fun x hx => h x (List.mem_cons_of_mem _ hx))]

theorem Hub.broadcastOne_eq (b : Frame) (h : Hub) (e : String × AgentConn)
    (hopen : (h.SendChan e.2).closed = false) :
    Hub.broadcastOne b h e = .ok
      { agents := if (h.SendChan e.2).isFull then AgentMap.delete h.agents e.1 else h.agents
        SendChan := fun d => if d = e.2 then (h.SendChan e.2).afterBroadcast b else h.SendChan d
        disconnected := h.disconnected } := by
  unfold Hub.broadcastOne Chan.trySend Chan.close Chan.isFull Chan.afterBroadcast
  by_cases hlen : (h.SendChan e.2).buf.length < sendChanCap
  · simp [hopen, hlen, Hub.setChan]
  · simp [hopen, hlen, Hub.setChan]

theorem Hub.broadcastAll_spec (b : Frame) (es : List (String × AgentConn)) (h : Hub)
    (hnd : (es.map (fun e => e.2)).Nodup)
    (hopen : ∀ e ∈ es, (h.SendChan e.2).closed = false) :
    ∃ h1, Hub.broadcastAll b es h = .ok h1 ∧ h1.disconnected = h.disconnected ∧
      h1.agents = h.agents.filter (fun x =>
        !(es.any (fun e => decide (e.1 = x.1) && (h.SendChan e.2).isFull))) ∧
      (∀ e ∈ es, h1.SendChan e.2 = (h.SendChan e.2).afterBroadcast b) ∧
      (∀ c, c ∉ es.map (fun e => e.2) → h1.SendChan c = h.SendChan c) := by
  induction es generalizing h with
  | nil => exact ⟨h, rfl, rfl, by simp, by simp, by simp⟩
  | cons e es ih =>
    simp only [List.map_cons, List.nodup_cons] at hnd
    have he := hopen e (List.mem_cons_self _ _)
    have hother : ∀ x ∈ es, x.2 ≠ e.2 := by
      intro x hx heq
      exact hnd.1 (heq ▸ List.mem_map_of_mem (fun e => e.2) hx)
    rw [Hub.broadcastAll, Hub.broadcastOne_eq b h e he]
    generalize hmid : ({ agents := if (h.SendChan e.2).isFull then AgentMap.delete h.agents e.1 else h.agents
                         SendChan := fun d => if d = e.2 then (h.SendChan e.2).afterBroadcast b else h.SendChan d
                         disconnected := h.disconnected } : Hub) = hm
    have hm_ag : hm.agents = if (h.SendChan e.2).isFull then AgentMap.delete h.agents e.1 else h.agents := by
      rw [← hmid]
    have hm_ch : ∀ d, hm.SendChan d = if d = e.2 then (h.SendChan e.2).afterBroadcast b else h.SendChan d := by
      intro d; rw [← hmid]
    have hm_dis : hm.disconnected = h.disconnected := by rw [← hmid]
    have hsame : ∀ x ∈ es, hm.SendChan x.2 = h.SendChan x.2 := by
      intro x hx
      rw [hm_ch, if_neg (hother x hx)]
    obtain ⟨h1, hrun, hdis, hag, hch, hch2⟩ := ih hm hnd.2
      (fun x hx => by rw [hsame x hx]; exact hopen x (List.mem_cons_of_mem _ hx))
    refine ⟨h1, hrun, hdis.trans hm_dis, ?_, ?_, ?_⟩
    · rw [hag, hm_ag]
      have hany : ∀ x : String × AgentConn,
          (es.any fun y => decide (y.1 = x.1) && (hm.SendChan y.2).isFull) =
          (es.any fun y => decide (y.1 = x.1) && (h.SendChan y.2).isFull) := by
        intro x
        apply any_congr_mem
        intro y hy
        rw [hsame y hy]
      simp only [hany]
      by_cases hfull : (h.SendChan e.2).isFull = true
      · simp only [hfull, if_true, AgentMap.delete, List.filter_filter, List.any_cons, Bool.and_true]
        apply List.filter_congr
        intro x _
        by_cases hx : e.1 = x.1
        · simp only [hx]
          simp
        · have hx2 : ¬ x.1 = e.1 := fun h3 => hx h3.symm
          simp [hx, hx2]
      · have hfull2 : (h.SendChan e.2).isFull = false := by simpa using hfull
        simp [hfull2, List.any_cons]
    · intro x hx
      rcases List.mem_cons.mp hx with rfl | hx
      · rw [hch2 _ hnd.1, hm_ch, if_pos rfl]
      · rw [hch x hx, hsame x hx]
    · intro c hc
      simp only [List.map_cons, List.mem_cons, not_or] at hc
      rw [hch2 c hc.2, hm_ch, if_neg hc.1]

theorem Hub.WF.conns_nodup (h : Hub) (hwf : h.WF) : (h.agents.map (fun e => e.2)).Nodup := by
  have hmap : h.agents.map (fun e => e.1) = (h.agents.map (fun e => e.2)).map (fun c => c.ID) := by
    rw [List.map_map]
    apply List.map_congr_left
    intro e he
    exact (hwf.1 e he).symm
  have h2 := hwf.2
  rw [hmap] at h2
  exact List.Nodup.of_map _ h2

theorem Hub.WF.eq_of_key_eq (h : Hub) (hwf : h.WF) (e x : String × AgentConn)
    (he : e ∈ h.agents) (hx : x ∈ h.agents) (hk : e.1 = x.1) : e = x := by
  have h1 := hwf.1 e he
  have h2 := hwf.1 x hx
  have hc : e.2 = x.2 :=
    List.inj_on_of_nodup_map (f := fun c : AgentConn => c.ID)
      (by
        have hmap : h.agents.map (fun e => e.1) =
            (h.agents.map (fun e => e.2)).map (fun c => c.ID) := by
          rw [List.map_map]
          apply List.map_congr_left
          intro e he
          exact (hwf.1 e he).symm
        rw [← hmap]
        exact hwf.2)
      (List.mem_map_of_mem (fun e => e.2) he) (List.mem_map_of_mem (fun e => e.2) hx)
      (by show e.2.ID = x.2.ID; rw [h1, h2, hk])
  exact Prod.ext hk hc

theorem AgentMap.delete_wf (m : AgentMap) (k : String)
    (h1 : ∀ e ∈ m, e.2.ID = e.1) (h2 : (m.map (fun e => e.1)).Nodup) :
    (∀ e ∈ AgentMap.delete m k, e.2.ID = e.1) ∧
      ((AgentMap.delete m k).map (fun e => e.1)).Nodup :=
  ⟨fun e he => h1 e (List.mem_of_mem_filter he), h2.sublist ((List.filter_sublist _).map _)⟩

/-- The registry stays well formed with open registered queues along every step that
succeeds, provided a connection is registered while its queue is open. -/
theorem Hub.step_preserves_wf_open (h h1 : Hub) (ev : HubEvent) (hwf : h.WF)
    (hopen : h.RegisteredOpen)
    (hfresh : ∀ c, ev = .register c → (h.SendChan c).closed = false)
    (hstep : h.step ev = .ok h1) : h1.WF ∧ h1.RegisteredOpen := by
  cases ev with
  | register c =>
    simp only [Hub.step, Except.ok.injEq] at hstep
    subst hstep
    refine ⟨AgentMap.store_wf _ _ hwf.1 hwf.2, ?_⟩
    intro e he
    simp only [AgentMap.store, AgentMap.delete, List.mem_append, List.mem_filter,
      List.mem_singleton] at he
    rcases he with ⟨hm, _⟩ | rfl
    · exact hopen e hm
    · exact hfresh c rfl
  | unregister c =>
    simp only [Hub.step] at hstep
    cases hl : AgentMap.load h.agents c.ID with
    | none =>
      rw [hl] at hstep
      simp only [Except.ok.injEq] at hstep
      subst hstep
      exact ⟨hwf, hopen⟩
    | some d =>
      rw [hl] at hstep
      by_cases hc : (h.SendChan c).closed = true
      · simp [Chan.close, hc] at hstep
      · simp only [Chan.close, hc, Bool.false_eq_true, if_false, Except.ok.injEq] at hstep
        subst hstep
        refine ⟨AgentMap.delete_wf _ _ hwf.1 hwf.2, ?_⟩
        intro e he
        have hmem : e ∈ h.agents := List.mem_of_mem_filter he
        have hne : e.1 ≠ c.ID := by
          have := (List.mem_filter.mp he).2
          simpa using this
        have hec : e.2 ≠ c := by
          intro heq
          apply hne
          rw [← hwf.1 e hmem, heq]
        simp only [Hub.setChan, if_neg hec]
        exact hopen e hmem
  | broadcast b =>
    obtain ⟨h2, hrun, _, hag, hch, _⟩ :=
      Hub.broadcastAll_spec b h.agents h (Hub.WF.conns_nodup h hwf) hopen
    simp only [Hub.step] at hstep
    rw [hrun] at hstep
    simp only [Except.ok.injEq] at hstep
    subst hstep
    refine ⟨⟨?_, ?_⟩, ?_⟩
    · intro e he
      rw [hag] at he
      exact hwf.1 e (List.mem_of_mem_filter he)
    · rw [hag]
      exact hwf.2.sublist ((List.filter_sublist _).map _)
    · intro e he
      rw [hag] at he
      have hmem : e ∈ h.agents := List.mem_of_mem_filter he
      have hroom : (h.SendChan e.2).isFull = false := by
        have h3 := (List.mem_filter.mp he).2
        simp only [Bool.not_eq_true', List.any_eq_false, Bool.and_eq_true, decide_eq_true_eq,
          not_and, Bool.not_eq_true] at h3
        exact h3 e hmem rfl
      rw [hch e hmem]
      simp only [Chan.isFull, Bool.not_eq_false', decide_eq_true_eq] at hroom
      simp [Chan.afterBroadcast, hroom]

/-- C3. Failing run of the unregister case: connection 1 registers under id `a`, connection
2 registers under the same id and supersedes it, then the read pump of connection 1
exits. The registry held connection 2 under `a` before the unregister event and is empty
after it: the binding of the live connection 2 is removed although the stored connection is
not the one that unregistered, and the disconnect handler runs for `a`. -/
theorem unregister_superseded_removes_current :
    (∃ h0, Hub.run NewHub [.register ⟨1, "a"⟩, .register ⟨2, "a"⟩] = .ok h0 ∧
      h0.agents = [("a", ⟨2, "a"⟩)]) ∧
    ∃ h, Hub.run NewHub [.register ⟨1, "a"⟩, .register ⟨2, "a"⟩, .unregister ⟨1, "a"⟩] = .ok h ∧
      h.agents = [] ∧ h.GetAgent "a" = none ∧ (h.SendChan ⟨2, "a"⟩).closed = false ∧
      (h.SendChan ⟨1, "a"⟩).closed = true ∧ h.disconnected = ["a"] := by
  refine ⟨⟨_, rfl, ?_⟩, _, rfl, ?_, ?_, ?_, ?_, ?_⟩ <;> decide

/-- C4, as stated, fails: after a second handshake for the id `a` the hub holds the new
connection 2 while the queue of the prior connection 1 is still open, as is that of
connection 2, so two open connections exist for `a`; and the effects of the second
handshake are the registry call, the ack, the hub registration, the two pumps and the
push of pending tasks, none of which closes anything. -/
theorem second_handshake_keeps_prior_open :
    (∃ h, Hub.run NewHub [.register ⟨1, "a"⟩, .register ⟨2, "a"⟩] = .ok h ∧
      h.GetAgent "a" = some ⟨2, "a"⟩ ∧ (h.SendChan ⟨1, "a"⟩).closed = false ∧
      (h.SendChan ⟨2, "a"⟩).closed = false) ∧
    ServeWS "" { RemoteAddr := "10.0.0.9:5000", XForwardedFor := "", XRealIP := "" }
        (.message (some (Message.marshal (NewMessage MsgTypeRegister "m2" 2
          (RegisterPayload.marshal { Hostname := "h1", OS := "linux", Arch := "amd64",
                                     Version := "1.0.0", Token := "" })))))
        (fun req => some
          { ID := "a", Hostname := req.Hostname, IP := req.IP, OS := req.OS, Arch := req.Arch,
            Version := req.Version, Status := .online, GroupID := none,
            CustomName := req.Hostname, Description := "", Tags := [], Location := none,
            PublicVisible := false, LastSeenAt := 2, CreatedAt := 1, UpdatedAt := 2 })
        "u2" 2 2 =
      [.agentRegister { Hostname := "h1", IP := "10.0.0.9", OS := "linux", Arch := "amd64",
                        Version := "1.0.0" },
       .connWrite (NewMessage MsgTypeRegisterAck "u2" 2
         (RegisterAckPayload.marshal { AgentID := "a", Success := true, Error := "" })),
       .hubRegister ⟨2, "a"⟩, .goWritePump ⟨2, "a"⟩, .goReadPump ⟨2, "a"⟩,
       .sendPendingTasks "a"] := by
  refine ⟨⟨_, rfl, ?_, ?_, ?_⟩, ?_⟩
  · decide
  · decide
  · decide
  · rfl

/-- C4, amended. Registering a connection `c` in a well-formed hub binds `c.ID` to `c`,
replacing any prior binding, so the registry keeps exactly one connection per agent id
(well-formedness is preserved) and every other binding is unchanged; no outbound queue is
touched, in particular that of a superseded connection is left as it was, and no disconnect
handler runs. -/
theorem register_supersedes (h : Hub) (c : AgentConn) (hwf : h.WF) :
    ∃ h1, h.step (.register c) = .ok h1 ∧ h1.GetAgent c.ID = some c ∧ h1.WF ∧
      (∀ k, k ≠ c.ID → h1.GetAgent k = h.GetAgent k) ∧ h1.SendChan = h.SendChan ∧
      h1.disconnected = h.disconnected := by
  refine ⟨_, rfl, AgentMap.load_store_self _ _ _, AgentMap.store_wf _ _ hwf.1 hwf.2, ?_, rfl, rfl⟩
  intro k hk
  exact AgentMap.load_store_ne _ _ _ _ hk

/-- Instance of `register_supersedes`: connection 2 supersedes connection 1 under `a`. -/
theorem register_supersedes_witness :
    ∃ h1, Hub.step { agents := [("a", ⟨1, "a"⟩)], SendChan := fun _ => Chan.make,
                     disconnected := [] } (.register ⟨2, "a"⟩) = .ok h1 ∧
      h1.GetAgent "a" = some ⟨2, "a"⟩ ∧ h1.WF ∧
      (∀ k, k ≠ "a" → h1.GetAgent k =
        Hub.GetAgent { agents := [("a", ⟨1, "a"⟩)], SendChan := fun _ => Chan.make,
                       disconnected := [] } k) ∧
      h1.SendChan = (fun _ => Chan.make) ∧ h1.disconnected = [] :=
  register_supersedes { agents := [("a", ⟨1, "a"⟩)], SendChan := fun _ => Chan.make,
                        disconnected := [] } ⟨2, "a"⟩
    ⟨by decide, by decide⟩

theorem sendTo_open (h : Hub) (conn : AgentConn) (data : Frame)
    (hc : (h.SendChan conn).closed = false) :
    ∃ h1, h.sendTo (some conn) data = .ok (h1, none) ∧ h1.agents = h.agents ∧
      h1.disconnected = h.disconnected ∧
      ((h.SendChan conn).buf.length < 256 →
        h1.SendChan conn = { buf := (h.SendChan conn).buf ++ [data], closed := false } ∧
        ∀ d, d ≠ conn → h1.SendChan d = h.SendChan d) ∧
      (¬ (h.SendChan conn).buf.length < 256 → h1.SendChan = h.SendChan) := by
  unfold Hub.sendTo
  by_cases hlen : (h.SendChan conn).buf.length < sendChanCap
  · refine ⟨h.setChan conn { buf := (h.SendChan conn).buf ++ [data], closed := false }, ?_, rfl,
      rfl, ?_, ?_⟩
    · simp [Chan.trySend, hc, hlen]
    · intro _
      exact ⟨by simp [Hub.setChan], fun d hd => by simp [Hub.setChan, hd]⟩
    · intro hn
      exact absurd hlen hn
  · refine ⟨h.setChan conn (h.SendChan conn), ?_, rfl, rfl, ?_, ?_⟩
    · simp [Chan.trySend, hc, hlen]
    · intro hl
      exact absurd hl hlen
    · intro _
      funext d
      by_cases hd : d = conn
      · simp [Hub.setChan, hd]
      · simp [Hub.setChan, hd]

/-- C5. In every well-formed hub whose registered queues are open, as the hub loop keeps
them, `SendToAgent` on an encoded message returns `nil` (it is a total function: the send
is a `select` with a default case) and never changes the registry. If the registry binds
the agent id to a connection whose queue holds fewer than 256 frames, the frame is appended
at the tail of that queue and no other queue changes; if it binds the id to a connection
whose queue holds 256 frames, or binds it to no connection, no queue changes. The three
outcomes return the same value. -/
theorem SendToAgent_spec (h : Hub) (agentID : String) (data : Frame) (hwf : h.WF)
    (hopen : h.RegisteredOpen) :
    ∃ h1, h.SendToAgent agentID data = .ok (h1, none) ∧ h1.agents = h.agents ∧
      h1.disconnected = h.disconnected ∧
      (∀ conn, (agentID, conn) ∈ h.agents → (h.SendChan conn).buf.length < 256 →
        h1.SendChan conn = { buf := (h.SendChan conn).buf ++ [data], closed := false } ∧
        ∀ d, d ≠ conn → h1.SendChan d = h.SendChan d) ∧
      (∀ conn, (agentID, conn) ∈ h.agents → ¬ (h.SendChan conn).buf.length < 256 →
        h1.SendChan = h.SendChan) ∧
      ((∀ conn, (agentID, conn) ∉ h.agents) → h1.SendChan = h.SendChan) := by
  have hload : ∀ conn, (agentID, conn) ∈ h.agents → h.GetAgent agentID = some conn :=
    fun conn hmem => AgentMap.load_eq_some_of_mem _ _ _ hwf.2 hmem
  unfold Hub.SendToAgent
  cases hg : h.GetAgent agentID with
  | none =>
    refine ⟨h, rfl, rfl, rfl, ?_, ?_, fun _ => rfl⟩
    · intro conn hmem
      rw [hload conn hmem] at hg
      cases hg
    · intro conn hmem
      rw [hload conn hmem] at hg
      cases hg
  | some c =>
    have hmem : (agentID, c) ∈ h.agents := AgentMap.mem_of_load_eq_some _ _ _ hg
    obtain ⟨h1, hs, ha, hd, hroom, hfull⟩ := sendTo_open h c data (hopen _ hmem)
    refine ⟨h1, hs, ha, hd, ?_, ?_, ?_⟩
    · intro conn hm
      have heq := hload conn hm
      rw [hg] at heq
      cases heq
      exact hroom
    · intro conn hm
      have heq := hload conn hm
      rw [hg] at heq
      cases heq
      exact hfull
    · intro habs
      exact absurd hmem (habs c)

/-- Instance of `SendToAgent_spec`: one registered agent with an empty queue; the queue
holds the frame afterwards. -/
theorem SendToAgent_spec_witness :
    ∃ h1, Hub.SendToAgent { agents := [("a", ⟨1, "a"⟩)], SendChan := fun _ => Chan.make,
                            disconnected := [] } "a" "frame" = .ok (h1, none) ∧
      h1.agents = [("a", ⟨1, "a"⟩)] ∧
      h1.SendChan ⟨1, "a"⟩ = { buf := ["frame"], closed := false } ∧
      ∀ d, d ≠ (⟨1, "a"⟩ : AgentConn) → h1.SendChan d = Chan.make :=
  match SendToAgent_spec { agents := [("a", ⟨1, "a"⟩)], SendChan := fun _ => Chan.make,
                           disconnected := [] } "a" "frame"
      ⟨(by decide), (by decide)⟩ (by intro e he; rfl) with
  | ⟨h1, hs, ha, _, hroom, _, _⟩ =>
    ⟨h1, hs, ha, (hroom ⟨1, "a"⟩ (by simp) (by decide)).1,
      (hroom ⟨1, "a"⟩ (by simp) (by decide)).2⟩

/-- A send that the hub loop overtakes still returns `nil` as long as the queue of the
connection found by the lookup is open when the `select` runs: the frame is appended when
that queue has room then, and dropped otherwise. -/
theorem SendToAgentOvertaken_open (h h1 : Hub) (agentID : String) (data : Frame)
    (between : List HubEvent) (conn : AgentConn) (hrun : Hub.run h between = .ok h1)
    (hg : h.GetAgent agentID = some conn) (hc : (h1.SendChan conn).closed = false) :
    ∃ h2, h.SendToAgentOvertaken agentID data between = .ok (h2, none) ∧
      h2.agents = h1.agents ∧
      ((h1.SendChan conn).buf.length < 256 →
        h2.SendChan conn = { buf := (h1.SendChan conn).buf ++ [data], closed := false }) ∧
      (¬ (h1.SendChan conn).buf.length < 256 → h2.SendChan = h1.SendChan) := by
  obtain ⟨h2, hs, ha, _, hroom, hfull⟩ := sendTo_open h1 conn data hc
  refine ⟨h2, ?_, ha, fun hl => (hroom hl).1, hfull⟩
  simp only [Hub.SendToAgentOvertaken, hrun, hg]
  exact hs

/-- A send overtaken by the unregistration of the connection it found: `GetAgent` returns
connection 1, the hub loop processes the unregister event of connection 1 and closes its
queue, and the `select` then sends on the closed queue, which panics. -/
theorem SendToAgent_overtaken_by_unregister :
    Hub.SendToAgentOvertaken
      { agents := [("a", ⟨1, "a"⟩)], SendChan := fun _ => Chan.make, disconnected := [] }
      "a" "frame" [.unregister ⟨1, "a"⟩] = .error .sendOnClosed :=
  rfl

/-- C6. Processing a broadcast of `b` in a well-formed hub whose registered queues are open
succeeds; the registry afterwards consists of exactly the bindings whose queue held fewer
than 256 frames; every registered queue with room has `b` appended at its tail; every
registered queue that held 256 frames is closed, its contents unchanged; queues of
connections that are not registered are unchanged, and no disconnect handler runs. -/
theorem broadcast_spec (h : Hub) (b : Frame) (hwf : h.WF) (hopen : h.RegisteredOpen) :
    ∃ h1, h.step (.broadcast b) = .ok h1 ∧
      h1.agents = h.agents.filter (fun e => decide ((h.SendChan e.2).buf.length < 256)) ∧
      (∀ e ∈ h.agents, (h.SendChan e.2).buf.length < 256 →
        h1.SendChan e.2 = { buf := (h.SendChan e.2).buf ++ [b], closed := false }) ∧
      (∀ e ∈ h.agents, ¬ (h.SendChan e.2).buf.length < 256 →
        h1.SendChan e.2 = { buf := (h.SendChan e.2).buf, closed := true }) ∧
      (∀ c, (∀ e ∈ h.agents, e.2 ≠ c) → h1.SendChan c = h.SendChan c) ∧
      h1.disconnected = h.disconnected := by
  obtain ⟨h1, hrun, hdis, hag, hch, hch2⟩ :=
    Hub.broadcastAll_spec b h.agents h (Hub.WF.conns_nodup h hwf) hopen
  refine ⟨h1, hrun, ?_, ?_, ?_, ?_, hdis⟩
  · rw [hag]
    apply List.filter_congr
    intro x hx
    have hany : (h.agents.any fun e => decide (e.1 = x.1) && (h.SendChan e.2).isFull) =
        (h.SendChan x.2).isFull := by
      cases hf : (h.SendChan x.2).isFull with
      | true =>
        rw [List.any_eq_true]
        exact ⟨x, hx, by simp [hf]⟩
      | false =>
        rw [List.any_eq_false]
        intro e he hcon
        simp only [Bool.and_eq_true, decide_eq_true_eq] at hcon
        have := Hub.WF.eq_of_key_eq h hwf e x he hx hcon.1
        rw [this, hf] at hcon
        exact absurd hcon.2 (by simp)
    rw [hany]
    simp [Chan.isFull, sendChanCap]
  · intro e he hlen
    rw [hch e he]
    simp [Chan.afterBroadcast, sendChanCap, hlen]
  · intro e he hlen
    rw [hch e he]
    simp [Chan.afterBroadcast, sendChanCap, hlen]
  · intro c hc
    apply hch2
    intro hmem
    obtain ⟨e, he, rfl⟩ := List.mem_map.mp hmem
    exact hc e he rfl

/-- Instance of `broadcast_spec`: one registered agent with an empty queue. -/
theorem broadcast_spec_witness :
    ∃ h1, Hub.step { agents := [("a", ⟨1, "a"⟩)], SendChan := fun _ => Chan.make,
                     disconnected := [] } (.broadcast "frame") = .ok h1 ∧
      h1.agents = [("a", (⟨1, "a"⟩ : AgentConn))].filter
        (fun _ => decide ((Chan.make).buf.length < 256)) ∧
      (∀ e ∈ [("a", (⟨1, "a"⟩ : AgentConn))], (Chan.make).buf.length < 256 →
        h1.SendChan e.2 = { buf := (Chan.make).buf ++ ["frame"], closed := false }) ∧
      (∀ e ∈ [("a", (⟨1, "a"⟩ : AgentConn))], ¬ (Chan.make).buf.length < 256 →
        h1.SendChan e.2 = { buf := (Chan.make).buf, closed := true }) ∧
      (∀ c, (∀ e ∈ [("a", (⟨1, "a"⟩ : AgentConn))], e.2 ≠ c) → h1.SendChan c = Chan.make) ∧
      h1.disconnected = [] :=
  broadcast_spec { agents := [("a", ⟨1, "a"⟩)], SendChan := fun _ => Chan.make,
                   disconnected := [] } "frame"
    ⟨by decide, by decide⟩ (by intro e he; rfl)

/-- C7. Two failing runs. In the first, connection 1 registers under id `a`; 257
broadcasts arrive while its write pump drains nothing, so the 257th finds the queue full,
removes the binding and closes the queue; then the read pump of connection 1 exits and
posts unregister. The run ends with no invocation of the disconnect handler at all: the
broadcast case drops the connection without calling it and the unregister case finds no
binding. In the second, connection 2 supersedes connection 1 under `a` and both read
pumps exit, connection 1 first: the handler runs once, at the exit of connection 1 while
connection 2 is live, and not at the exit of connection 2. -/
theorem disconnect_handler_skipped :
    (∃ h, Hub.run NewHub ([.register ⟨1, "a"⟩] ++ List.replicate 257 (.broadcast "x") ++
        [.unregister ⟨1, "a"⟩]) = .ok h ∧
      h.agents = [] ∧ (h.SendChan ⟨1, "a"⟩).closed = true ∧ h.disconnected = []) ∧
    (∃ h0, Hub.run NewHub [.register ⟨1, "a"⟩, .register ⟨2, "a"⟩, .unregister ⟨1, "a"⟩] =
        .ok h0 ∧ h0.disconnected = ["a"] ∧ (h0.SendChan ⟨2, "a"⟩).closed = false) ∧
    ∃ h, Hub.run NewHub [.register ⟨1, "a"⟩, .register ⟨2, "a"⟩, .unregister ⟨1, "a"⟩,
        .unregister ⟨2, "a"⟩] = .ok h ∧
      h.disconnected = ["a"] ∧ (h.SendChan ⟨2, "a"⟩).closed = false := by
  refine ⟨⟨_, rfl, ?_, ?_, ?_⟩, ⟨_, rfl, ?_, ?_⟩, _, rfl, ?_, ?_⟩ <;> decide

/-! ### Protocol handler -/

/-- C2. For every decoder of frames and of register payloads, every first frame and every
configured token, the handshake reaches agent registration exactly when the frame decodes
as a message of type `register` whose payload decodes as a register payload and the
configured token is empty or equal to the payload token. In every other case the effects
of `ServeWS` are only writes to and the close of its own socket: no registry call and no
hub registration. On a token mismatch the effects are the single frame `error{code: 400,
message: "invalid token"}` followed by the close. -/
theorem ServeWS_handshake {B : Type} (unmarshalMessage : B → Option Message)
    (unmarshalPayload : Option JValue → Option RegisterPayload) (agentToken : String)
    (r : Request) (first : Option B) (register : RegisterRequest → Option Models.Agent)
    (uuid : String) (now : Int) (ptr : Nat) :
    ((∃ req, Effect.agentRegister req ∈
        Handler.ServeWS unmarshalMessage unmarshalPayload agentToken r first register uuid now
          ptr) ↔
      ∃ data msg payload, first = some data ∧ unmarshalMessage data = some msg ∧
        msg.Typ = MsgTypeRegister ∧ unmarshalPayload msg.Payload = some payload ∧
        (agentToken = "" ∨ payload.Token = agentToken)) ∧
    ((¬ ∃ req, Effect.agentRegister req ∈
        Handler.ServeWS unmarshalMessage unmarshalPayload agentToken r first register uuid now
          ptr) →
      ∀ e ∈ Handler.ServeWS unmarshalMessage unmarshalPayload agentToken r first register uuid
          now ptr,
        e = .connClose ∨ ∃ m, e = .connWrite m) ∧
    (∀ data msg payload, first = some data → unmarshalMessage data = some msg →
      msg.Typ = MsgTypeRegister → unmarshalPayload msg.Payload = some payload →
      agentToken ≠ "" → payload.Token ≠ agentToken →
      Handler.ServeWS unmarshalMessage unmarshalPayload agentToken r first register uuid now
          ptr =
        [.connWrite (NewMessage MsgTypeError uuid now
          (ErrorPayload.marshal { Code := 400, Message := "invalid token" })), .connClose]) := by
  cases first with
  | none => simp [Handler.ServeWS]
  | some data =>
    cases hm : unmarshalMessage data with
    | none =>
      refine ⟨by simp [Handler.ServeWS, hm], by simp [Handler.ServeWS, hm], ?_⟩
      intro d m p hd hm2
      cases hd
      rw [hm] at hm2
      cases hm2
    | some msg =>
      by_cases hty : msg.Typ = MsgTypeRegister
      · cases hp : unmarshalPayload msg.Payload with
        | none =>
          refine ⟨by simp [Handler.ServeWS, hm, hty, hp],
            by simp [Handler.ServeWS, hm, hty, hp], ?_⟩
          intro d m p hd hm2 _ hp2
          cases hd
          rw [hm] at hm2
          cases hm2
          rw [hp] at hp2
          cases hp2
        | some payload =>
          by_cases htok : agentToken ≠ "" ∧ payload.Token ≠ agentToken
          · have h1 : ¬ (agentToken = "" ∨ payload.Token = agentToken) := by
              rintro (h | h)
              · exact htok.1 h
              · exact htok.2 h
            refine ⟨by simp [Handler.ServeWS, hm, hty, hp, htok, h1, sendError],
              by simp [Handler.ServeWS, hm, hty, hp, htok, sendError], ?_⟩
            intro d m p hd hm2 _ hp2 _ _
            cases hd
            rw [hm] at hm2
            cases hm2
            rw [hp] at hp2
            cases hp2
            simp [Handler.ServeWS, hm, hty, hp, htok, sendError]
          · have h1 : agentToken = "" ∨ payload.Token = agentToken := by
              by_cases h : agentToken = ""
              · exact Or.inl h
              · right
                by_contra h2
                exact htok ⟨h, h2⟩
            refine ⟨?_, ?_, ?_⟩
            · simp [Handler.ServeWS, hm, hty, hp, htok, h1]
            · intro hno
              exfalso
              apply hno
              simp [Handler.ServeWS, hm, hty, hp, htok]
            · intro d m p hd hm2 _ hp2 ht1 ht2
              cases hd
              rw [hm] at hm2
              cases hm2
              rw [hp] at hp2
              cases hp2
              exact absurd ⟨ht1, ht2⟩ htok
      · refine ⟨by simp [Handler.ServeWS, hm, hty], by simp [Handler.ServeWS, hm, hty], ?_⟩
        intro d m p hd hm2 hty2
        cases hd
        rw [hm] at hm2
        cases hm2
        exact absurd hty2 hty

/-- Instance of `ServeWS_handshake`: the configured token is `T` and the register frame
carries the token `WRONG`; the effects are the error frame and the close. -/
theorem ServeWS_handshake_witness :
    ServeWS "T" { RemoteAddr := "10.0.0.9:5000", XForwardedFor := "", XRealIP := "" }
        (.message (some (Message.marshal (NewMessage MsgTypeRegister "m1" 1
          (RegisterPayload.marshal { Hostname := "h1", OS := "linux", Arch := "amd64",
                                     Version := "1.0.0", Token := "WRONG" })))))
        (fun _ => none) "u1" 1 1 =
      [.connWrite (NewMessage MsgTypeError "u1" 1
        (ErrorPayload.marshal { Code := 400, Message := "invalid token" })), .connClose] :=
  (ServeWS_handshake (fun data : Option JValue => data.bind Message.unmarshal)
      RegisterPayload.unmarshal "T"
      { RemoteAddr := "10.0.0.9:5000", XForwardedFor := "", XRealIP := "" }
      (some (some (Message.marshal (NewMessage MsgTypeRegister "m1" 1
        (RegisterPayload.marshal { Hostname := "h1", OS := "linux", Arch := "amd64",
                                   Version := "1.0.0", Token := "WRONG" })))))
      (fun _ => none) "u1" 1 1).2.2
    (some (Message.marshal (NewMessage MsgTypeRegister "m1" 1
      (RegisterPayload.marshal { Hostname := "h1", OS := "linux", Arch := "amd64",
                                 Version := "1.0.0", Token := "WRONG" }))))
    (NewMessage MsgTypeRegister "m1" 1
      (RegisterPayload.marshal { Hostname := "h1", OS := "linux", Arch := "amd64",
                                 Version := "1.0.0", Token := "WRONG" }))
    { Hostname := "h1", OS := "linux", Arch := "amd64", Version := "1.0.0", Token := "WRONG" }
    rfl (message_unmarshal_marshal _ _ _ _ (by decide)) rfl
    (registerPayload_unmarshal_marshal _) (by decide) (by decide)

/-- A decoder that accepts member names in any letter case and a frame spelled
`{"Type": "register", ...}`: the handshake reaches registration, as the theorem says of
every decoder. -/
theorem ServeWS_handshake_any_decoder :
    Handler.ServeWS
      (fun frame : String =>
        if frame = "\x7b\"Type\":\"register\",\"payload\":\x7b\"hostname\":\"h1\"\x7d\x7d" then
          some { Typ := "register", ID := "", Timestamp := 0,
                 Payload := some (.obj [("hostname", .str "h1")]) }
        else none)
      RegisterPayload.unmarshal ""
      { RemoteAddr := "10.0.0.9:5000", XForwardedFor := "", XRealIP := "" }
      (some "\x7b\"Type\":\"register\",\"payload\":\x7b\"hostname\":\"h1\"\x7d\x7d")
      (fun _ => none) "u1" 1 1 =
      [.agentRegister { Hostname := "h1", IP := "10.0.0.9", OS := "", Arch := "",
                        Version := "" },
       .connWrite (NewMessage MsgTypeError "u1" 1
         (ErrorPayload.marshal { Code := 400, Message := "registration failed" })),
       .connClose] := by
  rfl

theorem lastIndex_eq_none (s : List Char) (c : Char) (h : c ∉ s) : lastIndex s c = none := by
  induction s with
  | nil => rfl
  | cons x xs ih =>
    simp only [List.mem_cons, not_or] at h
    have hx : ¬ x = c := fun h2 => h.1 h2.symm
    simp [lastIndex, ih h.2, hx]

theorem lastIndex_append (host port : List Char) (c : Char) (h : c ∉ port) :
    lastIndex (host ++ c :: port) c = some host.length := by
  induction host with
  | nil => simp [lastIndex, lastIndex_eq_none port c h]
  | cons x xs ih => simp [lastIndex, ih]

theorem splitFirst_append (a b : List Char) (h : ',' ∉ a) : splitFirst (a ++ ',' :: b) = a := by
  induction a with
  | nil => simp [splitFirst]
  | cons x xs ih =>
    simp only [List.mem_cons, not_or] at h
    have hx : ¬ x = ',' := fun h2 => h.1 h2.symm
    have := ih h.2
    simp [splitFirst, List.takeWhile_cons, hx] at this ⊢
    exact this

theorem splitFirst_self (a : List Char) (h : ',' ∉ a) : splitFirst a = a := by
  induction a with
  | nil => rfl
  | cons x xs ih =>
    simp only [List.mem_cons, not_or] at h
    have hx : ¬ x = ',' := fun h2 => h.1 h2.symm
    have := ih h.2
    simp [splitFirst, List.takeWhile_cons, hx] at this ⊢
    exact this

/-- C8, as stated, fails. With both headers present the address is the `X-Real-IP` value,
not the first value of `X-Forwarded-For`; and a header-supplied address that carries a
port is cut before its last colon instead of being passed through unaltered. -/
theorem clientIP_claim_fails :
    ((({ RemoteAddr := "10.0.0.9:5000", XForwardedFor := "1.1.1.1, 9.9.9.9",
         XRealIP := "2.2.2.2" } : Request).XForwardedFor ≠ "") ∧
      clientIP { RemoteAddr := "10.0.0.9:5000", XForwardedFor := "1.1.1.1, 9.9.9.9",
                 XRealIP := "2.2.2.2" } = "2.2.2.2" ∧
      String.mk (splitFirst "1.1.1.1, 9.9.9.9".data) = "1.1.1.1") ∧
    clientIP { RemoteAddr := "10.0.0.9:5000", XForwardedFor := "",
               XRealIP := "203.0.113.7:8080" } = "203.0.113.7" := by
  decide

theorem ServeWS_request_address {B : Type} (unmarshalMessage : B → Option Message)
    (unmarshalPayload : Option JValue → Option RegisterPayload) (agentToken : String)
    (r : Request) (first : Option B) (register : RegisterRequest → Option Models.Agent)
    (uuid : String) (now : Int) (ptr : Nat) (req : RegisterRequest)
    (hmem : Effect.agentRegister req ∈
      Handler.ServeWS unmarshalMessage unmarshalPayload agentToken r first register uuid now
        ptr) :
    req.IP = clientIP r := by
  cases first with
  | none => simp [Handler.ServeWS] at hmem
  | some data =>
    cases hm : unmarshalMessage data with
    | none => simp [Handler.ServeWS, hm] at hmem
    | some msg =>
      by_cases hty : msg.Typ = MsgTypeRegister
      · cases hp : unmarshalPayload msg.Payload with
        | none => simp [Handler.ServeWS, hm, hty, hp] at hmem
        | some payload =>
          by_cases htok : agentToken ≠ "" ∧ payload.Token ≠ agentToken
          · simp [Handler.ServeWS, hm, hty, hp, htok, sendError] at hmem
          · simp only [Handler.ServeWS, hm, hty, hp, htok, ne_eq, not_true_eq_false,
              if_false, List.mem_cons, Effect.agentRegister.injEq] at hmem
            rcases hmem with heq | htail
            · rw [heq]
            · exfalso
              split at htail
              · simp [sendError] at htail
              · simp at htail
      · simp [Handler.ServeWS, hm, hty] at hmem

/-- C8, amended. The address in every register request that `ServeWS` passes to the
registry is `clientIP`, which is derived from the `X-Real-IP` value when that header is
non-empty, otherwise from the first comma-separated value of `X-Forwarded-For` when that
header is non-empty, otherwise from the peer address: a header value that contains no
colon is passed through unaltered, a header value `host:port` with a single colon yields
`host`, and a peer address `host:port` yields `host`, the part before its last colon. -/
theorem clientIP_spec (r : Request) :
    (∀ (B : Type) (unmarshalMessage : B → Option Message)
        (unmarshalPayload : Option JValue → Option RegisterPayload) (agentToken : String)
        (first : Option B) (register : RegisterRequest → Option Models.Agent) (uuid : String)
        (now : Int) (ptr : Nat) (req : RegisterRequest),
      Effect.agentRegister req ∈
        Handler.ServeWS unmarshalMessage unmarshalPayload agentToken r first register uuid now
          ptr →
      req.IP = clientIP r) ∧
    (r.XRealIP ≠ "" →
      (':' ∉ r.XRealIP.data → clientIP r = r.XRealIP) ∧
      ∀ host port, ':' ∉ host → ':' ∉ port → r.XRealIP.data = host ++ ':' :: port →
        clientIP r = String.mk host) ∧
    (r.XRealIP = "" → r.XForwardedFor ≠ "" →
      ∀ first rest, ',' ∉ first →
        (r.XForwardedFor.data = first ∨ r.XForwardedFor.data = first ++ ',' :: rest) →
        (':' ∉ first → clientIP r = String.mk first) ∧
        ∀ host port, ':' ∉ host → ':' ∉ port → first = host ++ ':' :: port →
          clientIP r = String.mk host) ∧
    (r.XRealIP = "" → r.XForwardedFor = "" →
      ∀ host port, ':' ∉ port → r.RemoteAddr.data = host ++ ':' :: port →
        clientIP r = String.mk host) := by
  refine ⟨?_, ?_, ?_, ?_⟩
  · intro B um up tok first reg uuid now ptr req hmem
    exact ServeWS_request_address um up tok r first reg uuid now ptr req hmem
  · intro h1
    refine ⟨?_, ?_⟩
    · intro h2
      simp [clientIP, h1, lastIndex_eq_none _ _ h2]
    · intro host port _ hp hv
      simp [clientIP, h1, hv, lastIndex_append host port ':' hp]
  · intro h1 h2 first rest hc hsplit
    have hsf : splitFirst r.XForwardedFor.data = first := by
      rcases hsplit with h | h
      · rw [h]; exact splitFirst_self _ hc
      · rw [h]; exact splitFirst_append _ _ hc
    refine ⟨?_, ?_⟩
    · intro hcol
      simp [clientIP, h1, h2, hsf, lastIndex_eq_none _ _ hcol]
    · intro host port _ hp hv
      simp [clientIP, h1, h2, hsf, hv, lastIndex_append host port ':' hp]
  · intro h1 h2 host port hp hra
    simp [clientIP, h1, h2, hra, lastIndex_append host port ':' hp]

/-- Instance of `clientIP_spec`: a request for each of its cases, among them an
`X-Real-IP` value that carries a port. -/
theorem clientIP_spec_witness :
    clientIP { RemoteAddr := "10.0.0.9:5000", XForwardedFor := "1.1.1.1",
               XRealIP := "2.2.2.2" } = "2.2.2.2" ∧
    clientIP { RemoteAddr := "10.0.0.9:5000", XForwardedFor := "",
               XRealIP := "203.0.113.7:8080" } = String.mk "203.0.113.7".data ∧
    clientIP { RemoteAddr := "10.0.0.9:5000", XForwardedFor := "1.1.1.1, 9.9.9.9",
               XRealIP := "" } = String.mk "1.1.1.1".data ∧
    clientIP { RemoteAddr := "10.0.0.9:5000", XForwardedFor := "", XRealIP := "" } =
      String.mk "10.0.0.9".data :=
  ⟨((clientIP_spec { RemoteAddr := "10.0.0.9:5000", XForwardedFor := "1.1.1.1",
                     XRealIP := "2.2.2.2" }).2.1 (by decide)).1 (by decide),
   ((clientIP_spec { RemoteAddr := "10.0.0.9:5000", XForwardedFor := "",
                     XRealIP := "203.0.113.7:8080" }).2.1 (by decide)).2
      "203.0.113.7".data "8080".data (by decide) (by decide) rfl,
   ((clientIP_spec { RemoteAddr := "10.0.0.9:5000", XForwardedFor := "1.1.1.1, 9.9.9.9",
                     XRealIP := "" }).2.2.1 rfl (by decide) "1.1.1.1".data " 9.9.9.9".data
      (by decide) (Or.inr rfl)).1 (by decide),
   (clientIP_spec { RemoteAddr := "10.0.0.9:5000", XForwardedFor := "",
                    XRealIP := "" }).2.2.2 rfl rfl "10.0.0.9".data "5000".data (by decide) rfl⟩

/-! ### Agent registry -/

/-- C9. Failing input of `Register`: the table holds one record with hostname `alpha` and
address `10.0.0.1`; a request arrives from the same address under the hostname `beta`. A
record with the requested address exists, yet `findExisting` finds none, because the rows
it walks are those whose hostname, custom name or address contain `beta`; `Register`
creates a second record under the fresh identifier. -/
theorem register_same_address_creates_record :
    (∃ a ∈ [({ ID := "A1", Hostname := "alpha", IP := "10.0.0.1", OS := "linux",
               Arch := "amd64", Version := "1.0.0", Status := .offline, GroupID := none,
               CustomName := "alpha", Description := "", Tags := [], Location := none,
               PublicVisible := false, LastSeenAt := 10, CreatedAt := 10,
               UpdatedAt := 10 } : Models.Agent)], a.IP = "10.0.0.1") ∧
    findExisting [{ ID := "A1", Hostname := "alpha", IP := "10.0.0.1", OS := "linux",
                    Arch := "amd64", Version := "1.0.0", Status := .offline, GroupID := none,
                    CustomName := "alpha", Description := "", Tags := [], Location := none,
                    PublicVisible := false, LastSeenAt := 10, CreatedAt := 10,
                    UpdatedAt := 10 }] "beta" "10.0.0.1" = none ∧
    (Register [{ ID := "A1", Hostname := "alpha", IP := "10.0.0.1", OS := "linux",
                 Arch := "amd64", Version := "1.0.0", Status := .offline, GroupID := none,
                 CustomName := "alpha", Description := "", Tags := [], Location := none,
                 PublicVisible := false, LastSeenAt := 10, CreatedAt := 10, UpdatedAt := 10 }]
        { Hostname := "beta", IP := "10.0.0.1", OS := "linux", Arch := "amd64",
          Version := "1.0.0" } "A2" 20 (fun _ => none)).1.ID = "A2" ∧
    ((Register [{ ID := "A1", Hostname := "alpha", IP := "10.0.0.1", OS := "linux",
                  Arch := "amd64", Version := "1.0.0", Status := .offline, GroupID := none,
                  CustomName := "alpha", Description := "", Tags := [], Location := none,
                  PublicVisible := false, LastSeenAt := 10, CreatedAt := 10, UpdatedAt := 10 }]
        { Hostname := "beta", IP := "10.0.0.1", OS := "linux", Arch := "amd64",
          Version := "1.0.0" } "A2" 20 (fun _ => none)).2.map (fun a => a.ID)) = ["A1", "A2"] := by
  decide

theorem likeMatch_append_self (s t : List Char) : likeMatch (s ++ ['%']) (s ++ t) = true := by
  induction s with
  | nil =>
    simp only [List.nil_append, likeMatch, if_true, List.any_eq_true]
    exact ⟨[], by simp, rfl⟩
  | cons c s ih =>
    by_cases hc : c = '%'
    · simp only [List.cons_append, likeMatch, hc, if_true, List.any_eq_true]
      exact ⟨s ++ t, by simp [List.mem_tails, List.suffix_cons], ih⟩
    · simp [likeMatch, hc, ih]

theorem likeContains_self (s : String) : likeContains s s = true := by
  simp only [likeContains, likeMatch, if_true, List.any_eq_true]
  refine ⟨s.data, by simp [List.mem_tails], ?_⟩
  simpa using likeMatch_append_self s.data []

/-- The hostname arm of `findExisting`: when some record has the requested hostname, a
record with that hostname or the requested address is found, and `Register` returns its
identifier and adds no row. -/
theorem Register_reuses_on_hostname (table : List Models.Agent) (req : RegisterRequest)
    (uuid : String) (now : Int) (geo : String → Option Models.GeoLocation)
    (h : ∃ a ∈ table, a.Hostname = req.Hostname) :
    ∃ e ∈ table, (e.Hostname = req.Hostname ∨ e.IP = req.IP) ∧
      findExisting table req.Hostname req.IP = some e ∧
      (Register table req uuid now geo).1.ID = e.ID ∧
      (Register table req uuid now geo).2.length = table.length := by
  obtain ⟨a, ha, hh⟩ := h
  have hlist : a ∈ AgentRepository.List table
      { GroupID := none, Status := none, Search := req.Hostname } := by
    unfold AgentRepository.List
    rw [List.mem_insertionSort]
    rw [List.mem_filter]
    refine ⟨ha, ?_⟩
    by_cases hs : req.Hostname = ""
    · simp [listWhere, hs]
    · simp [listWhere, hs, hh, likeContains_self]
  cases hf : findExisting table req.Hostname req.IP with
  | none =>
    unfold findExisting at hf
    rw [List.find?_eq_none] at hf
    have := hf a hlist
    simp [hh] at this
  | some e =>
    have hf2 := hf
    unfold findExisting at hf2
    have hp := List.find?_some hf2
    have hmem := List.mem_of_find?_eq_some hf2
    unfold AgentRepository.List at hmem
    rw [List.mem_insertionSort] at hmem
    refine ⟨e, List.mem_of_mem_filter hmem, by simpa using hp, rfl, ?_, ?_⟩
    · unfold Register
      rw [hf]
      by_cases hip : e.IP = req.IP <;> simp [hip]
    · unfold Register
      rw [hf]
      simp [AgentRepository.Update]

/-! ### Metrics ingestion -/

/-- C10. Failing input of the metrics case of `handleMessage`: a frame whose sample has
cpu 150, memory used above total with percent 250 and a disk at 120 percent. The sample
violates the invariants of an accepted sample and fails `ValidateCPU`,
`MemoryStats.Validate` and `DiskStats.Validate`, yet the handler hands it to the metric
store and to the alert evaluator: the handler calls none of the validators. -/
theorem invalid_sample_is_stored :
    handleMessage "a1" (NewMessage MsgTypeMetrics "m1" 1
      (MetricsPayload.marshal
        { CPU := 150, Memory := { Total := 100, Used := 200, Available := 0, Percent := 250 },
          Disks := [{ Path := "/", Total := 10, Used := 20, Available := 0, Percent := 120 }],
          Network := { BytesSent := 0, BytesRecv := 0, BytesSentRate := 5,
                       BytesRecvRate := 7 } })) =
      [.metricStore "a1"
        { ID := "", AgentID := "", CPU := 150,
          Memory := { Total := 100, Used := 200, Available := 0, Percent := 250 },
          Disks := [{ Path := "/", Total := 10, Used := 20, Available := 0, Percent := 120 }],
          Network := { BytesSent := 0, BytesRecv := 0, BytesSentRate := 5, BytesRecvRate := 7 },
          Timestamp := 0 },
       .updateLastSeen "a1", .recordTraffic "a1" 5 7,
       .checkAndTrigger "a1"
        { ID := "", AgentID := "", CPU := 150,
          Memory := { Total := 100, Used := 200, Available := 0, Percent := 250 },
          Disks := [{ Path := "/", Total := 10, Used := 20, Available := 0, Percent := 120 }],
          Network := { BytesSent := 0, BytesRecv := 0, BytesSentRate := 5, BytesRecvRate := 7 },
          Timestamp := 0 }] ∧
    ¬ validSample
        { ID := "", AgentID := "", CPU := 150,
          Memory := { Total := 100, Used := 200, Available := 0, Percent := 250 },
          Disks := [{ Path := "/", Total := 10, Used := 20, Available := 0, Percent := 120 }],
          Network := { BytesSent := 0, BytesRecv := 0, BytesSentRate := 5, BytesRecvRate := 7 },
          Timestamp := 0 } ∧
    Models.Metrics.ValidateCPU
        { ID := "", AgentID := "", CPU := 150,
          Memory := { Total := 100, Used := 200, Available := 0, Percent := 250 },
          Disks := [{ Path := "/", Total := 10, Used := 20, Available := 0, Percent := 120 }],
          Network := { BytesSent := 0, BytesRecv := 0, BytesSentRate := 5, BytesRecvRate := 7 },
          Timestamp := 0 } = false ∧
    Models.MemoryStats.Validate { Total := 100, Used := 200, Available := 0, Percent := 250 } =
      false ∧
    Models.DiskStats.Validate
      { Path := "/", Total := 10, Used := 20, Available := 0, Percent := 120 } = false := by
  refine ⟨?_, ?_, ?_, ?_, ?_⟩
  · have hwf : (Payload.metrics
        { CPU := 150, Memory := { Total := 100, Used := 200, Available := 0, Percent := 250 },
          Disks := [{ Path := "/", Total := 10, Used := 20, Available := 0, Percent := 120 }],
          Network := { BytesSent := 0, BytesRecv := 0, BytesSentRate := 5,
                       BytesRecvRate := 7 } }).WF := by
      simp [Payload.WF, isUint64]
    simp [handleMessage, NewMessage, MsgTypeMetrics, MsgTypeHeartbeat,
      metricsPayload_unmarshal_marshal _ hwf]
  · intro h
    have := h.2.1
    norm_num at this
  · decide
  · decide
  · decide

/-! ### Alert evaluator -/

theorem latestAlert_eq_none (l : List Models.Alert) : latestAlert l = none ↔ l = [] := by
  cases l with
  | nil => simp [latestAlert]
  | cons a rest =>
    simp only [latestAlert]
    cases latestAlert rest with
    | none => simp
    | some b => by_cases h : b.TriggeredAt > a.TriggeredAt <;> simp [h]

theorem latestAlert_mem (l : List Models.Alert) (e : Models.Alert) (h : latestAlert l = some e) :
    e ∈ l := by
  induction l generalizing e with
  | nil => simp [latestAlert] at h
  | cons a rest ih =>
    simp only [latestAlert] at h
    cases hl : latestAlert rest with
    | none =>
      rw [hl] at h
      simp only [Option.some.injEq] at h
      simp [h]
    | some b =>
      rw [hl] at h
      by_cases hb : b.TriggeredAt > a.TriggeredAt
      · simp only [hb, if_true, Option.some.injEq] at h
        subst h
        exact List.mem_cons_of_mem _ (ih b hl)
      · simp only [hb, if_false, Option.some.injEq] at h
        simp [h]

theorem getFiring_eq_none (alerts : List Models.Alert) (ruleID agentID : String) :
    GetFiringAlertByRuleAndAgent alerts ruleID agentID = none ↔
      alerts.filter (fun a =>
        a.RuleID = ruleID ∧ a.AgentID = agentID ∧ a.Status = .firing) = [] := by
  unfold GetFiringAlertByRuleAndAgent
  exact latestAlert_eq_none _

theorem getFiring_some (alerts : List Models.Alert) (ruleID agentID : String)
    (e : Models.Alert) (h : GetFiringAlertByRuleAndAgent alerts ruleID agentID = some e) :
    e ∈ alerts ∧ e.RuleID = ruleID ∧ e.AgentID = agentID ∧ e.Status = .firing := by
  unfold GetFiringAlertByRuleAndAgent at h
  have hm := latestAlert_mem _ _ h
  rw [List.mem_filter] at hm
  refine ⟨hm.1, ?_⟩
  simpa using hm.2

theorem resolve_firing_length_le (alerts : List Models.Alert) (id : String) (now : Int)
    (ruleID agentID : String) :
    ((ResolveAlert alerts id now).filter (fun a =>
        a.RuleID = ruleID ∧ a.AgentID = agentID ∧ a.Status = .firing)).length ≤
      (alerts.filter (fun a =>
        a.RuleID = ruleID ∧ a.AgentID = agentID ∧ a.Status = .firing)).length := by
  induction alerts with
  | nil => simp [ResolveAlert]
  | cons a rest ih =>
    simp only [ResolveAlert, List.map_cons] at ih ⊢
    by_cases hid : a.ID = id
    · simp only [hid, if_true]
      rw [List.filter_cons_of_neg (by simp)]
      by_cases hp : a.RuleID = ruleID ∧ a.AgentID = agentID ∧ a.Status = .firing
      · rw [List.filter_cons_of_pos (by simpa using hp)]
        simp only [List.length_cons]
        omega
      · rw [List.filter_cons_of_neg (by simpa using hp)]
        exact ih
    · simp only [hid, if_false]
      by_cases hp : a.RuleID = ruleID ∧ a.AgentID = agentID ∧ a.Status = .firing
      · rw [List.filter_cons_of_pos (by simpa using hp), List.filter_cons_of_pos (by simpa using hp)]
        simp only [List.length_cons]
        omega
      · rw [List.filter_cons_of_neg (by simpa using hp), List.filter_cons_of_neg (by simpa using hp)]
        exact ih

theorem resolve_preserves_oneFiring (alerts : List Models.Alert) (id : String) (now : Int)
    (h : oneFiringPerPair alerts) : oneFiringPerPair (ResolveAlert alerts id now) :=
  fun r g => le_trans (resolve_firing_length_le alerts id now r g) (h r g)


/-- The three outcomes of one iteration of the loop of `CheckAndTrigger`: nothing
changes, an alert is created and announced, or the firing alert is resolved and its
recovery announced. -/
theorem checkRule_cases (format : AlertFormat) (now : Int)
    (uuid agentID : String) (metrics : Models.Metrics) (st : AlertState)
    (rule : Models.AlertRule) :
    checkRule format now uuid agentID metrics st rule = st ∨
    (rule.CheckThreshold (getMetricValue rule.MetricType metrics) = true ∧
      GetFiringAlertByRuleAndAgent st.alerts rule.ID agentID = none ∧
      st.alerts.any (fun a => a.ID = uuid) = false ∧
      checkRule format now uuid agentID metrics st rule =
        { alerts := st.alerts ++
            [firingAlert format now uuid agentID (getMetricValue rule.MetricType metrics) rule]
          sent := st.sent ++ [.send
            (firingAlert format now uuid agentID (getMetricValue rule.MetricType metrics) rule)] }) ∨
    (∃ e, rule.CheckThreshold (getMetricValue rule.MetricType metrics) = false ∧
      GetFiringAlertByRuleAndAgent st.alerts rule.ID agentID = some e ∧
      checkRule format now uuid agentID metrics st rule =
        { alerts := ResolveAlert st.alerts e.ID now
          sent := st.sent ++
            [.sendRecovery { e with Status := .resolved, ResolvedAt := some now }] }) := by
  by_cases h1 : rule.AgentIDs.length > 0 ∧ contains rule.AgentIDs agentID = false
  · left
    simp [checkRule, h1]
  · by_cases h2 : rule.CheckThreshold (getMetricValue rule.MetricType metrics) = true
    · cases hex : GetFiringAlertByRuleAndAgent st.alerts rule.ID agentID with
      | some e =>
        left
        simp [checkRule, h1, h2, hex]
      | none =>
        by_cases h3 : isInCooldown st.alerts rule agentID now = true
        · left
          simp [checkRule, h1, h2, hex, h3]
        · by_cases h4 : st.alerts.any (fun a => a.ID = uuid) = true
          · left
            have hc : CreateAlert st.alerts
                (firingAlert format now uuid agentID (getMetricValue rule.MetricType metrics) rule) =
                none := by
              simp only [CreateAlert, firingAlert]
              rw [if_pos h4]
            simp [checkRule, h1, h2, hex, h3, hc]
          · right
            left
            have hc : CreateAlert st.alerts
                (firingAlert format now uuid agentID (getMetricValue rule.MetricType metrics) rule) =
                some (st.alerts ++
                  [firingAlert format now uuid agentID (getMetricValue rule.MetricType metrics)
                    rule]) := by
              simp only [CreateAlert, firingAlert]
              rw [if_neg h4]
            refine ⟨h2, rfl, by simpa using h4, ?_⟩
            simp [checkRule, h1, h2, hex, h3, hc]
    · cases hex : GetFiringAlertByRuleAndAgent st.alerts rule.ID agentID with
      | none =>
        left
        simp [checkRule, h1, h2, hex]
      | some e =>
        right
        right
        refine ⟨e, by simpa using h2, rfl, ?_⟩
        simp [checkRule, h1, h2, hex]

theorem checkRule_preserves_oneFiring (format : AlertFormat) (now : Int)
    (uuid agentID : String) (metrics : Models.Metrics) (st : AlertState)
    (rule : Models.AlertRule) (h : oneFiringPerPair st.alerts) :
    oneFiringPerPair (checkRule format now uuid agentID metrics st rule).alerts := by
  rcases checkRule_cases format now uuid agentID metrics st rule with
    heq | ⟨_, hex, _, heq⟩ | ⟨e, _, _, heq⟩
  · rw [heq]
    exact h
  · rw [heq]
    intro r g
    show ((st.alerts ++ [_]).filter _).length ≤ 1
    rw [List.filter_append]
    by_cases hrg : rule.ID = r ∧ agentID = g
    · obtain ⟨rfl, rfl⟩ := hrg
      rw [(getFiring_eq_none _ _ _).mp hex]
      simp [firingAlert]
    · have hnot : ¬ (rule.ID = r ∧ agentID = g ∧ Models.AlertStatus.firing = .firing) :=
        fun h5 => hrg ⟨h5.1, h5.2.1⟩
      rw [List.filter_cons_of_neg (by simpa [firingAlert] using hnot)]
      simpa using h r g
  · rw [heq]
    exact resolve_preserves_oneFiring _ _ _ h

theorem checkRules_preserves_oneFiring (format : AlertFormat) (now : Int)
    (agentID : String) (metrics : Models.Metrics) (uuid : Nat → String)
    (rules : List Models.AlertRule) (st : AlertState) (h : oneFiringPerPair st.alerts) :
    oneFiringPerPair (checkRules format now agentID metrics uuid rules st).alerts := by
  induction rules generalizing uuid st with
  | nil => exact h
  | cons r rest ih =>
    exact ih _ _ (checkRule_preserves_oneFiring format now (uuid 0) agentID metrics st r h)

/-- C14. From any alert store with at most one firing instance per pair of rule and
agent, every sequence of sequentially executed `CheckAndTrigger` calls (any agents,
samples, rule tables, clock values and drawn identifiers) and `ResolveAlert` calls ends
in a store with at most one firing instance per pair. -/
theorem oneFiringPerPair_invariant (format : AlertFormat) (st : AlertState)
    (ops : List AlertOp) (h : oneFiringPerPair st.alerts) :
    oneFiringPerPair (runAlertOps format st ops).alerts := by
  induction ops generalizing st with
  | nil => exact h
  | cons op ops ih =>
    cases op with
    | check now uuid rules agentID metrics =>
      exact ih _ (checkRules_preserves_oneFiring format now agentID metrics uuid _ st h)
    | resolve alertID now =>
      exact ih _ (resolve_preserves_oneFiring st.alerts alertID now h)

theorem oneFiringPerPair_invariant_witness :
    oneFiringPerPair (runAlertOps (fun _ _ _ _ => "message") { alerts := [], sent := [] }
      [.check 1000 (fun _ => "A1")
         [{ ID := "R", Name := "cpu high", MetricType := "cpu", Operator := "gt",
            Threshold := 90, Duration := 0, Cooldown := 300, AgentIDs := [], Enabled := true,
            CreatedAt := 0, UpdatedAt := 0 }] "a1"
         { ID := "", AgentID := "", CPU := 95,
           Memory := { Total := 8, Used := 4, Available := 4, Percent := 50 }, Disks := [],
           Network := { BytesSent := 0, BytesRecv := 0, BytesSentRate := 0, BytesRecvRate := 0 },
           Timestamp := 0 },
       .resolve "A1" 2000]).alerts :=
  oneFiringPerPair_invariant (fun _ _ _ _ => "message") { alerts := [], sent := [] }
    [.check 1000 (fun _ => "A1")
       [{ ID := "R", Name := "cpu high", MetricType := "cpu", Operator := "gt",
          Threshold := 90, Duration := 0, Cooldown := 300, AgentIDs := [], Enabled := true,
          CreatedAt := 0, UpdatedAt := 0 }] "a1"
       { ID := "", AgentID := "", CPU := 95,
         Memory := { Total := 8, Used := 4, Available := 4, Percent := 50 }, Disks := [],
         Network := { BytesSent := 0, BytesRecv := 0, BytesSentRate := 0, BytesRecvRate := 0 },
         Timestamp := 0 },
     .resolve "A1" 2000] (by intro r g; simp)

theorem alert_eq_of_id_eq (alerts : List Models.Alert) (hnd : (alerts.map (fun a => a.ID)).Nodup)
    (a e : Models.Alert) (ha : a ∈ alerts) (he : e ∈ alerts) (hid : a.ID = e.ID) : a = e :=
  List.inj_on_of_nodup_map hnd ha he hid

theorem resolve_map_id (alerts : List Models.Alert) (id : String) (now : Int) :
    (ResolveAlert alerts id now).map (fun a => a.ID) = alerts.map (fun a => a.ID) := by
  induction alerts with
  | nil => rfl
  | cons a rest ih =>
    simp only [ResolveAlert, List.map_cons] at ih ⊢
    rw [ih]
    by_cases h : a.ID = id <;> simp [h]

theorem resolve_filter_rule (alerts : List Models.Alert) (id : String) (now : Int)
    (ruleID : String) (h : ∀ a ∈ alerts, a.ID = id → a.RuleID ≠ ruleID) :
    (ResolveAlert alerts id now).filter (fun a => a.RuleID = ruleID) =
      alerts.filter (fun a => a.RuleID = ruleID) := by
  induction alerts with
  | nil => rfl
  | cons a rest ih =>
    have ih2 := ih (fun x hx => h x (List.mem_cons_of_mem _ hx))
    simp only [ResolveAlert, List.map_cons] at ih2 ⊢
    by_cases hid : a.ID = id
    · have hr := h a (List.mem_cons_self _ _) hid
      simp only [hid, if_true]
      rw [List.filter_cons_of_neg (by simpa using hr), List.filter_cons_of_neg (by simpa using hr)]
      exact ih2
    · simp only [hid, if_false]
      by_cases hr : a.RuleID = ruleID
      · rw [List.filter_cons_of_pos (by simpa using hr), List.filter_cons_of_pos (by simpa using hr),
          ih2]
      · rw [List.filter_cons_of_neg (by simpa using hr), List.filter_cons_of_neg (by simpa using hr)]
        exact ih2

theorem latestAlert_filter_rule (alerts : List Models.Alert) (ruleID : String)
    (p : Models.Alert → Bool) :
    (alerts.filter (fun a => a.RuleID = ruleID)).filter (fun a => decide (a.RuleID = ruleID) && p a) =
      alerts.filter (fun a => decide (a.RuleID = ruleID) && p a) := by
  rw [List.filter_filter]
  apply List.filter_congr
  intro a _
  by_cases h : a.RuleID = ruleID <;> simp [h]

theorem getFiring_congr (alerts1 alerts2 : List Models.Alert) (ruleID agentID : String)
    (h : alerts1.filter (fun a => a.RuleID = ruleID) = alerts2.filter (fun a => a.RuleID = ruleID)) :
    GetFiringAlertByRuleAndAgent alerts1 ruleID agentID =
      GetFiringAlertByRuleAndAgent alerts2 ruleID agentID := by
  have e1 := latestAlert_filter_rule alerts1 ruleID
    (fun a => decide (a.AgentID = agentID ∧ a.Status = .firing))
  have e2 := latestAlert_filter_rule alerts2 ruleID
    (fun a => decide (a.AgentID = agentID ∧ a.Status = .firing))
  unfold GetFiringAlertByRuleAndAgent
  have f1 : ∀ l : List Models.Alert,
      l.filter (fun a => decide (a.RuleID = ruleID ∧ a.AgentID = agentID ∧ a.Status = .firing)) =
      l.filter (fun a => decide (a.RuleID = ruleID) &&
        decide (a.AgentID = agentID ∧ a.Status = .firing)) := by
    intro l
    apply List.filter_congr
    intro a _
    simp [Bool.decide_and]
  rw [f1, f1, ← e1, ← e2, h]

theorem getLast_congr (alerts1 alerts2 : List Models.Alert) (ruleID agentID : String)
    (h : alerts1.filter (fun a => a.RuleID = ruleID) = alerts2.filter (fun a => a.RuleID = ruleID)) :
    GetLastAlertTime alerts1 ruleID agentID = GetLastAlertTime alerts2 ruleID agentID := by
  have e1 := latestAlert_filter_rule alerts1 ruleID (fun a => decide (a.AgentID = agentID))
  have e2 := latestAlert_filter_rule alerts2 ruleID (fun a => decide (a.AgentID = agentID))
  unfold GetLastAlertTime
  have f1 : ∀ l : List Models.Alert,
      l.filter (fun a => decide (a.RuleID = ruleID ∧ a.AgentID = agentID)) =
      l.filter (fun a => decide (a.RuleID = ruleID) && decide (a.AgentID = agentID)) := by
    intro l
    apply List.filter_congr
    intro a _
    simp [Bool.decide_and]
  rw [f1, f1, ← e1, ← e2, h]

theorem isInCooldown_congr (alerts1 alerts2 : List Models.Alert) (rule : Models.AlertRule)
    (agentID : String) (now : Int)
    (h : alerts1.filter (fun a => a.RuleID = rule.ID) =
      alerts2.filter (fun a => a.RuleID = rule.ID)) :
    isInCooldown alerts1 rule agentID now = isInCooldown alerts2 rule agentID now := by
  unfold isInCooldown
  rw [getLast_congr alerts1 alerts2 rule.ID agentID h]

/-- One iteration for a rule other than `ruleID` leaves the alerts and the notifications of
`ruleID` as they are, keeps the identifiers of the table distinct, and adds at most the
identifier it drew. -/
theorem checkRule_frame (format : AlertFormat) (now : Int)
    (uuid agentID : String) (metrics : Models.Metrics) (st : AlertState)
    (rule : Models.AlertRule) (ruleID : String) (hne : rule.ID ≠ ruleID)
    (hnd : (st.alerts.map (fun a => a.ID)).Nodup) :
    (checkRule format now uuid agentID metrics st rule).alerts.filter
        (fun a => a.RuleID = ruleID) = st.alerts.filter (fun a => a.RuleID = ruleID) ∧
    (checkRule format now uuid agentID metrics st rule).sent.filter
        (fun n => n.ruleID = ruleID) = st.sent.filter (fun n => n.ruleID = ruleID) := by
  rcases checkRule_cases format now uuid agentID metrics st rule with
    heq | ⟨_, _, _, heq⟩ | ⟨e, _, hex, heq⟩
  · rw [heq]
    exact ⟨rfl, rfl⟩
  · rw [heq]
    constructor
    · show (st.alerts ++ [_]).filter _ = _
      rw [List.filter_append, List.filter_cons_of_neg (by simpa [firingAlert] using hne)]
      simp
    · show (st.sent ++ [_]).filter _ = _
      rw [List.filter_append,
        List.filter_cons_of_neg (by simpa [firingAlert, Notification.ruleID] using hne)]
      simp
  · rw [heq]
    obtain ⟨hmem, hr, _, _⟩ := getFiring_some _ _ _ _ hex
    constructor
    · apply resolve_filter_rule
      intro a ha hid
      rw [alert_eq_of_id_eq st.alerts hnd a e ha hmem hid, hr]
      exact hne
    · show (st.sent ++ [_]).filter _ = _
      rw [List.filter_append, List.filter_cons_of_neg (by
        simp only [Notification.ruleID, hr, decide_eq_true_eq]
        exact hne)]
      simp

theorem checkRule_ids (format : AlertFormat) (now : Int)
    (uuid agentID : String) (metrics : Models.Metrics) (st : AlertState)
    (rule : Models.AlertRule) (hnd : (st.alerts.map (fun a => a.ID)).Nodup) :
    ((checkRule format now uuid agentID metrics st rule).alerts.map (fun a => a.ID)).Nodup ∧
    ∀ x ∈ (checkRule format now uuid agentID metrics st rule).alerts.map (fun a => a.ID),
      x ∈ st.alerts.map (fun a => a.ID) ∨ x = uuid := by
  rcases checkRule_cases format now uuid agentID metrics st rule with
    heq | ⟨_, _, hfresh, heq⟩ | ⟨e, _, _, heq⟩
  · rw [heq]
    exact ⟨hnd, fun x hx => Or.inl hx⟩
  · rw [heq]
    constructor
    · show ((st.alerts ++ [_]).map _).Nodup
      rw [List.map_append, List.nodup_append]
      refine ⟨hnd, by simp, ?_⟩
      intro x hx hy
      simp only [List.map_cons, List.map_nil, List.mem_singleton, firingAlert] at hy
      subst hy
      rw [List.any_eq_false] at hfresh
      obtain ⟨a, ha, haid⟩ := List.mem_map.mp hx
      exact hfresh a ha (by simpa using haid)
    · intro x hx
      change x ∈ (st.alerts ++ [_]).map _ at hx
      rw [List.map_append, List.mem_append] at hx
      rcases hx with hx | hx
      · exact Or.inl hx
      · right
        simpa [firingAlert] using hx
  · rw [heq]
    show ((ResolveAlert st.alerts e.ID now).map _).Nodup ∧ ∀ x ∈ (ResolveAlert st.alerts e.ID now).map _, _
    rw [resolve_map_id]
    exact ⟨hnd, fun x hx => Or.inl hx⟩

theorem checkRules_frame (format : AlertFormat) (now : Int)
    (agentID : String) (metrics : Models.Metrics) (ruleID : String)
    (rules : List Models.AlertRule) (uuid : Nat → String) (st : AlertState)
    (hne : ∀ r ∈ rules, r.ID ≠ ruleID) (hnd : (st.alerts.map (fun a => a.ID)).Nodup) :
    (checkRules format now agentID metrics uuid rules st).alerts.filter
        (fun a => a.RuleID = ruleID) = st.alerts.filter (fun a => a.RuleID = ruleID) ∧
    (checkRules format now agentID metrics uuid rules st).sent.filter
        (fun n => n.ruleID = ruleID) = st.sent.filter (fun n => n.ruleID = ruleID) ∧
    ((checkRules format now agentID metrics uuid rules st).alerts.map (fun a => a.ID)).Nodup ∧
    ∀ x ∈ (checkRules format now agentID metrics uuid rules st).alerts.map (fun a => a.ID),
      x ∈ st.alerts.map (fun a => a.ID) ∨ ∃ i, i < rules.length ∧ x = uuid i := by
  induction rules generalizing uuid st with
  | nil => exact ⟨rfl, rfl, hnd, fun x hx => Or.inl hx⟩
  | cons r rest ih =>
    have hr : r.ID ≠ ruleID := hne r (List.mem_cons_self _ _)
    obtain ⟨f1, f2⟩ := checkRule_frame format now (uuid 0) agentID metrics st r ruleID hr hnd
    obtain ⟨n1, n2⟩ := checkRule_ids format now (uuid 0) agentID metrics st r hnd
    obtain ⟨g1, g2, g3, g4⟩ := ih (fun n => uuid (n + 1))
      (checkRule format now (uuid 0) agentID metrics st r)
      (fun x hx => hne x (List.mem_cons_of_mem _ hx)) n1
    refine ⟨g1.trans f1, g2.trans f2, g3, ?_⟩
    intro x hx
    rcases g4 x hx with h | ⟨i, hi, hxi⟩
    · rcases n2 x h with h2 | h2
      · exact Or.inl h2
      · exact Or.inr ⟨0, by simp, h2⟩
    · exact Or.inr ⟨i + 1, by simpa using hi, hxi⟩

theorem checkRules_append (format : AlertFormat) (now : Int)
    (agentID : String) (metrics : Models.Metrics) (pre post : List Models.AlertRule)
    (uuid : Nat → String) (st : AlertState) :
    checkRules format now agentID metrics uuid (pre ++ post) st =
      checkRules format now agentID metrics (fun n => uuid (n + pre.length)) post
        (checkRules format now agentID metrics uuid pre st) := by
  induction pre generalizing uuid st with
  | nil => rfl
  | cons r rest ih =>
    show checkRules format now agentID metrics (fun n => uuid (n + 1)) (rest ++ post)
        (checkRule format now (uuid 0) agentID metrics st r) = _
    rw [ih]
    rfl

theorem checkRule_fire (format : AlertFormat) (now : Int)
    (uuid agentID : String) (metrics : Models.Metrics) (st : AlertState)
    (rule : Models.AlertRule)
    (h1 : ¬ (rule.AgentIDs.length > 0 ∧ contains rule.AgentIDs agentID = false))
    (h2 : rule.CheckThreshold (getMetricValue rule.MetricType metrics) = true)
    (h3 : GetFiringAlertByRuleAndAgent st.alerts rule.ID agentID = none)
    (h4 : isInCooldown st.alerts rule agentID now = false)
    (h5 : st.alerts.any (fun a => a.ID = uuid) = false) :
    checkRule format now uuid agentID metrics st rule =
      { alerts := st.alerts ++
          [firingAlert format now uuid agentID (getMetricValue rule.MetricType metrics) rule]
        sent := st.sent ++ [.send
          (firingAlert format now uuid agentID (getMetricValue rule.MetricType metrics) rule)] } := by
  have hc : CreateAlert st.alerts
      (firingAlert format now uuid agentID (getMetricValue rule.MetricType metrics) rule) =
      some (st.alerts ++
        [firingAlert format now uuid agentID (getMetricValue rule.MetricType metrics) rule]) := by
    simp only [CreateAlert, firingAlert]
    rw [if_neg (by simpa using h5)]
  simp [checkRule, h1, h2, h3, h4, hc]

theorem checkRule_suppress (format : AlertFormat) (now : Int)
    (uuid agentID : String) (metrics : Models.Metrics) (st : AlertState)
    (rule : Models.AlertRule)
    (h2 : rule.CheckThreshold (getMetricValue rule.MetricType metrics) = true)
    (h4 : isInCooldown st.alerts rule agentID now = true) :
    checkRule format now uuid agentID metrics st rule = st := by
  by_cases h1 : rule.AgentIDs.length > 0 ∧ contains rule.AgentIDs agentID = false
  · simp [checkRule, h1]
  · cases h3 : GetFiringAlertByRuleAndAgent st.alerts rule.ID agentID <;>
      simp [checkRule, h1, h2, h3, h4]

theorem checkRule_resolve (format : AlertFormat) (now : Int)
    (uuid agentID : String) (metrics : Models.Metrics) (st : AlertState)
    (rule : Models.AlertRule) (e : Models.Alert)
    (h1 : ¬ (rule.AgentIDs.length > 0 ∧ contains rule.AgentIDs agentID = false))
    (h2 : rule.CheckThreshold (getMetricValue rule.MetricType metrics) = false)
    (h3 : GetFiringAlertByRuleAndAgent st.alerts rule.ID agentID = some e) :
    checkRule format now uuid agentID metrics st rule =
      { alerts := ResolveAlert st.alerts e.ID now
        sent := st.sent ++
          [.sendRecovery { e with Status := .resolved, ResolvedAt := some now }] } := by
  simp [checkRule, h1, h2, h3]

theorem checkRule_idle (format : AlertFormat) (now : Int)
    (uuid agentID : String) (metrics : Models.Metrics) (st : AlertState)
    (rule : Models.AlertRule)
    (h2 : rule.CheckThreshold (getMetricValue rule.MetricType metrics) = false)
    (h3 : GetFiringAlertByRuleAndAgent st.alerts rule.ID agentID = none) :
    checkRule format now uuid agentID metrics st rule = st := by
  by_cases h1 : rule.AgentIDs.length > 0 ∧ contains rule.AgentIDs agentID = false
  · simp [checkRule, h1]
  · simp [checkRule, h1, h2, h3]

/-- The call of `CheckAndTrigger` seen from one enabled rule whose identifier is that of no
other enabled rule: the iterations before it and after it leave the alerts and
notifications of the rule alone, and its own iteration runs on a table that shows, for this
rule, the rows present before the call. -/
theorem CheckAndTrigger_split (format : AlertFormat) (now : Int)
    (uuid : Nat → String) (rules : List Models.AlertRule) (agentID : String)
    (metrics : Models.Metrics) (st : AlertState) (rule : Models.AlertRule)
    (hmem : rule ∈ ListEnabledRules rules)
    (hrules : ((ListEnabledRules rules).map (fun r => r.ID)).Nodup)
    (hnd : (st.alerts.map (fun a => a.ID)).Nodup) :
    ∃ k st1, k < (ListEnabledRules rules).length ∧
      st1.alerts.filter (fun a => a.RuleID = rule.ID) =
        st.alerts.filter (fun a => a.RuleID = rule.ID) ∧
      st1.sent.filter (fun n => n.ruleID = rule.ID) =
        st.sent.filter (fun n => n.ruleID = rule.ID) ∧
      (st1.alerts.map (fun a => a.ID)).Nodup ∧
      (∀ x ∈ st1.alerts.map (fun a => a.ID),
        x ∈ st.alerts.map (fun a => a.ID) ∨ ∃ i, i < k ∧ x = uuid i) ∧
      (CheckAndTrigger format now uuid rules agentID metrics st).alerts.filter
          (fun a => a.RuleID = rule.ID) =
        (checkRule format now (uuid k) agentID metrics st1 rule).alerts.filter
          (fun a => a.RuleID = rule.ID) ∧
      (CheckAndTrigger format now uuid rules agentID metrics st).sent.filter
          (fun n => n.ruleID = rule.ID) =
        (checkRule format now (uuid k) agentID metrics st1 rule).sent.filter
          (fun n => n.ruleID = rule.ID) := by
  obtain ⟨pre, post, hsplit⟩ := List.append_of_mem hmem
  rw [hsplit, List.map_append, List.map_cons, List.nodup_append] at hrules
  obtain ⟨_, hpost, hdisj⟩ := hrules
  rw [List.nodup_cons] at hpost
  have hpre : ∀ r ∈ pre, r.ID ≠ rule.ID := by
    intro r hr heq
    exact hdisj (List.mem_map_of_mem (fun r => r.ID) hr) (by simp [heq])
  have hpost2 : ∀ r ∈ post, r.ID ≠ rule.ID := by
    intro r hr heq
    exact hpost.1 (heq ▸ List.mem_map_of_mem (fun r => r.ID) hr)
  obtain ⟨f1, f2, f3, f4⟩ :=
    checkRules_frame format now agentID metrics rule.ID pre uuid st hpre hnd
  refine ⟨pre.length, checkRules format now agentID metrics uuid pre st, ?_, f1, f2, f3, f4, ?_⟩
  · rw [hsplit]
    simp
  · unfold CheckAndTrigger
    rw [hsplit, checkRules_append]
    simp only [checkRules, Nat.zero_add]
    obtain ⟨n1, _⟩ := checkRule_ids format now (uuid pre.length) agentID metrics
      (checkRules format now agentID metrics uuid pre st) rule f3
    obtain ⟨g1, g2, _, _⟩ := checkRules_frame format now agentID metrics rule.ID post
      (fun n => uuid (n + 1 + pre.length))
      (checkRule format now (uuid pre.length) agentID metrics
        (checkRules format now agentID metrics uuid pre st) rule) hpost2 n1
    exact ⟨g1, g2⟩

theorem CheckThreshold_eq_true (rule : Models.AlertRule) (value : ℚ) :
    rule.CheckThreshold value = true ↔
      (rule.Operator = "gt" ∧ value > rule.Threshold) ∨
      (rule.Operator = "lt" ∧ value < rule.Threshold) ∨
      (rule.Operator = "eq" ∧ value = rule.Threshold) := by
  unfold Models.AlertRule.CheckThreshold Models.OperatorGT Models.OperatorLT Models.OperatorEQ
  by_cases h1 : rule.Operator = "gt"
  · simp [h1]
  · by_cases h2 : rule.Operator = "lt"
    · simp [h2]
    · by_cases h3 : rule.Operator = "eq"
      · simp [h3]
      · simp [h1, h2, h3]

theorem mem_ListEnabledRules (rules : List Models.AlertRule) (rule : Models.AlertRule) :
    rule ∈ ListEnabledRules rules ↔ rule ∈ rules ∧ rule.Enabled = true := by
  simp [ListEnabledRules, List.mem_filter]

theorem rule_applies (rule : Models.AlertRule) (agentID : String)
    (h : rule.AgentIDs = [] ∨ agentID ∈ rule.AgentIDs) :
    ¬ (rule.AgentIDs.length > 0 ∧ contains rule.AgentIDs agentID = false) := by
  rintro ⟨h1, h2⟩
  rcases h with h | h
  · simp [h] at h1
  · simp only [contains, List.any_eq_false, decide_eq_true_eq] at h2
    exact h2 agentID h rfl

theorem fresh_at (st st1 : AlertState) (uuid : Nat → String) (k n : Nat) (hk : k < n)
    (hinj : ∀ i j, i < n → j < n → uuid i = uuid j → i = j)
    (hfresh : ∀ i, i < n → uuid i ∉ st.alerts.map (fun a => a.ID))
    (hids : ∀ x ∈ st1.alerts.map (fun a => a.ID),
      x ∈ st.alerts.map (fun a => a.ID) ∨ ∃ i, i < k ∧ x = uuid i) :
    st1.alerts.any (fun a => a.ID = uuid k) = false := by
  rw [List.any_eq_false]
  intro a ha hid
  simp only [decide_eq_true_eq] at hid
  rcases hids a.ID (List.mem_map_of_mem (fun a => a.ID) ha) with h | ⟨i, hi, hx⟩
  · rw [hid] at h
    exact hfresh k hk h
  · have := hinj i k (by omega) hk (by rw [← hx, hid])
    omega

/-- C11. For every enabled rule that applies to the agent and every sample: if the
operator holds between the extracted value and the threshold, the store holds no firing
instance of the pair and the pair is not in cooldown, then `CheckAndTrigger` adds to the
alerts of the rule exactly one alert, for this agent, with status firing, the extracted
value and the threshold of the rule, and announces it once. Rule identifiers and alert
identifiers are keys of their tables and the identifiers drawn are fresh. -/
theorem CheckAndTrigger_fires (format : AlertFormat) (now : Int) (uuid : Nat → String)
    (rules : List Models.AlertRule) (agentID : String) (metrics : Models.Metrics)
    (st : AlertState) (rule : Models.AlertRule)
    (hmem : rule ∈ rules) (henabled : rule.Enabled = true)
    (hrules : ((ListEnabledRules rules).map (fun r => r.ID)).Nodup)
    (hnd : (st.alerts.map (fun a => a.ID)).Nodup)
    (hinj : ∀ i j, i < (ListEnabledRules rules).length → j < (ListEnabledRules rules).length →
      uuid i = uuid j → i = j)
    (hfresh : ∀ i, i < (ListEnabledRules rules).length → uuid i ∉ st.alerts.map (fun a => a.ID))
    (happlies : rule.AgentIDs = [] ∨ agentID ∈ rule.AgentIDs)
    (hexceeds :
      (rule.Operator = "gt" ∧ getMetricValue rule.MetricType metrics > rule.Threshold) ∨
      (rule.Operator = "lt" ∧ getMetricValue rule.MetricType metrics < rule.Threshold) ∨
      (rule.Operator = "eq" ∧ getMetricValue rule.MetricType metrics = rule.Threshold))
    (hnofiring : ∀ a ∈ st.alerts,
      ¬ (a.RuleID = rule.ID ∧ a.AgentID = agentID ∧ a.Status = .firing))
    (hcool : isInCooldown st.alerts rule agentID now = false) :
    ∃ alert : Models.Alert,
      alert.RuleID = rule.ID ∧ alert.AgentID = agentID ∧ alert.Status = .firing ∧
      alert.Value = getMetricValue rule.MetricType metrics ∧ alert.Threshold = rule.Threshold ∧
      (CheckAndTrigger format now uuid rules agentID metrics st).alerts.filter
          (fun a => a.RuleID = rule.ID) =
        st.alerts.filter (fun a => a.RuleID = rule.ID) ++ [alert] ∧
      (CheckAndTrigger format now uuid rules agentID metrics st).sent.filter
          (fun n => n.ruleID = rule.ID) =
        st.sent.filter (fun n => n.ruleID = rule.ID) ++ [.send alert] := by
  obtain ⟨k, st1, hk, f1, f2, _, f4, g1, g2⟩ :=
    CheckAndTrigger_split format now uuid rules agentID metrics st rule
      ((mem_ListEnabledRules rules rule).mpr ⟨hmem, henabled⟩) hrules hnd
  have h3 : GetFiringAlertByRuleAndAgent st1.alerts rule.ID agentID = none := by
    rw [getFiring_congr st1.alerts st.alerts rule.ID agentID f1, getFiring_eq_none,
      List.filter_eq_nil_iff]
    intro a ha
    simpa using hnofiring a ha
  have h4 : isInCooldown st1.alerts rule agentID now = false := by
    rw [isInCooldown_congr st1.alerts st.alerts rule agentID now f1]
    exact hcool
  have h5 := fresh_at st st1 uuid k _ hk hinj hfresh f4
  have hstep := checkRule_fire format now (uuid k) agentID metrics st1 rule
    (rule_applies rule agentID happlies) ((CheckThreshold_eq_true _ _).mpr hexceeds) h3 h4 h5
  refine ⟨firingAlert format now (uuid k) agentID (getMetricValue rule.MetricType metrics) rule,
    rfl, rfl, rfl, rfl, rfl, ?_, ?_⟩
  · rw [g1, hstep]
    show (st1.alerts ++ [_]).filter _ = _
    rw [List.filter_append, f1, List.filter_cons_of_pos (by simp [firingAlert])]
    simp
  · rw [g2, hstep]
    show (st1.sent ++ [_]).filter _ = _
    rw [List.filter_append, f2,
      List.filter_cons_of_pos (by simp [firingAlert, Notification.ruleID])]
    simp

/-- Instance of `CheckAndTrigger_fires`: the rule `cpu > 90` on an empty store and a
sample with cpu at 95. -/
theorem CheckAndTrigger_fires_witness :
    ∃ alert : Models.Alert,
      alert.RuleID = "R" ∧ alert.AgentID = "a1" ∧ alert.Status = .firing ∧
      alert.Value = getMetricValue "cpu"
        { ID := "", AgentID := "", CPU := 95,
          Memory := { Total := 8, Used := 4, Available := 4, Percent := 50 }, Disks := [],
          Network := { BytesSent := 0, BytesRecv := 0, BytesSentRate := 0, BytesRecvRate := 0 },
          Timestamp := 0 } ∧
      alert.Threshold = 90 ∧
      (CheckAndTrigger (fun _ _ _ _ => "message") 1000 (fun _ => "A1")
          [{ ID := "R", Name := "cpu high", MetricType := "cpu", Operator := "gt",
             Threshold := 90, Duration := 0, Cooldown := 300, AgentIDs := [], Enabled := true,
             CreatedAt := 0, UpdatedAt := 0 }] "a1"
          { ID := "", AgentID := "", CPU := 95,
            Memory := { Total := 8, Used := 4, Available := 4, Percent := 50 }, Disks := [],
            Network := { BytesSent := 0, BytesRecv := 0, BytesSentRate := 0, BytesRecvRate := 0 },
            Timestamp := 0 }
          { alerts := [], sent := [] }).alerts.filter (fun a => a.RuleID = "R") =
        ([] : List Models.Alert).filter (fun a => a.RuleID = "R") ++ [alert] ∧
      (CheckAndTrigger (fun _ _ _ _ => "message") 1000 (fun _ => "A1")
          [{ ID := "R", Name := "cpu high", MetricType := "cpu", Operator := "gt",
             Threshold := 90, Duration := 0, Cooldown := 300, AgentIDs := [], Enabled := true,
             CreatedAt := 0, UpdatedAt := 0 }] "a1"
          { ID := "", AgentID := "", CPU := 95,
            Memory := { Total := 8, Used := 4, Available := 4, Percent := 50 }, Disks := [],
            Network := { BytesSent := 0, BytesRecv := 0, BytesSentRate := 0, BytesRecvRate := 0 },
            Timestamp := 0 }
          { alerts := [], sent := [] }).sent.filter (fun n => n.ruleID = "R") =
        ([] : List Notification).filter (fun n => n.ruleID = "R") ++ [.send alert] :=
  CheckAndTrigger_fires (fun _ _ _ _ => "message") 1000 (fun _ => "A1")
    [{ ID := "R", Name := "cpu high", MetricType := "cpu", Operator := "gt",
       Threshold := 90, Duration := 0, Cooldown := 300, AgentIDs := [], Enabled := true,
       CreatedAt := 0, UpdatedAt := 0 }] "a1"
    { ID := "", AgentID := "", CPU := 95,
      Memory := { Total := 8, Used := 4, Available := 4, Percent := 50 }, Disks := [],
      Network := { BytesSent := 0, BytesRecv := 0, BytesSentRate := 0, BytesRecvRate := 0 },
      Timestamp := 0 }
    { alerts := [], sent := [] }
    { ID := "R", Name := "cpu high", MetricType := "cpu", Operator := "gt",
      Threshold := 90, Duration := 0, Cooldown := 300, AgentIDs := [], Enabled := true,
      CreatedAt := 0, UpdatedAt := 0 }
    (by decide) rfl (by decide) (by decide)
    (by
      intro i j hi hj _
      have h1 : i < 1 := hi
      have h2 : j < 1 := hj
      omega)
    (by intro i _ h; cases h) (Or.inl rfl) (Or.inl ⟨rfl, by decide⟩) (by intro a ha; cases ha)
    (by decide)

theorem latestAlert_ge (l : List Models.Alert) (e : Models.Alert) (h : latestAlert l = some e) :
    ∀ b ∈ l, b.TriggeredAt ≤ e.TriggeredAt := by
  induction l generalizing e with
  | nil => simp
  | cons a rest ih =>
    simp only [latestAlert] at h
    cases hl : latestAlert rest with
    | none =>
      rw [hl] at h
      simp only [Option.some.injEq] at h
      subst h
      have hnil := (latestAlert_eq_none rest).mp hl
      subst hnil
      simp
    | some b =>
      rw [hl] at h
      have ihb := ih b hl
      by_cases hb : b.TriggeredAt > a.TriggeredAt
      · simp only [hb, if_true, Option.some.injEq] at h
        subst h
        intro x hx
        rcases List.mem_cons.mp hx with rfl | hx
        · omega
        · exact ihb x hx
      · simp only [hb, if_false, Option.some.injEq] at h
        subst h
        intro x hx
        rcases List.mem_cons.mp hx with rfl | hx
        · omega
        · have := ihb x hx
          omega

theorem wrapInt64_of_isInt64 (x : Int) (h : isInt64 x) : wrapInt64 x = x := by
  unfold isInt64 at h
  unfold wrapInt64
  omega

/-- The cooldown test in the range where the product of the cooldown and `time.Second`
fits in an `int64`: the pair is in cooldown exactly when its most recent alert was
triggered less than the cooldown ago. -/
theorem isInCooldown_in_range (alerts : List Models.Alert) (rule : Models.AlertRule)
    (agentID : String) (now : Int) (last : Models.Alert)
    (hrange : isInt64 (rule.Cooldown * timeSecond))
    (hmem : last ∈ alerts) (hpair : last.RuleID = rule.ID ∧ last.AgentID = agentID)
    (hlast : ∀ b ∈ alerts, b.RuleID = rule.ID → b.AgentID = agentID →
      b.TriggeredAt ≤ last.TriggeredAt) :
    isInCooldown alerts rule agentID now =
      decide (last.TriggeredAt + rule.Cooldown * timeSecond > now) := by
  unfold isInCooldown GetLastAlertTime
  have hin : last ∈ alerts.filter (fun a => a.RuleID = rule.ID ∧ a.AgentID = agentID) := by
    rw [List.mem_filter]
    exact ⟨hmem, by simpa using hpair⟩
  cases hl : latestAlert (alerts.filter (fun a => a.RuleID = rule.ID ∧ a.AgentID = agentID)) with
  | none =>
    rw [(latestAlert_eq_none _).mp hl] at hin
    cases hin
  | some e =>
    have h1 := latestAlert_ge _ e hl last hin
    have hem := latestAlert_mem _ e hl
    rw [List.mem_filter] at hem
    have hep : e.RuleID = rule.ID ∧ e.AgentID = agentID := by simpa using hem.2
    have h2 := hlast e hem.1 hep.1 hep.2
    have heq : e.TriggeredAt = last.TriggeredAt := by omega
    simp only [Option.map_some', wrapInt64_of_isInt64 _ hrange, heq]

/-- Suppression by the cooldown where the product of the cooldown and `time.Second` fits
in an `int64`: if the sample exceeds the threshold and the most recent alert of the pair
has `triggered_at + cooldown_sec > now`, `CheckAndTrigger` leaves the alerts of the rule as
they are and announces nothing for the rule. -/
theorem CheckAndTrigger_suppresses_in_range (format : AlertFormat) (now : Int)
    (uuid : Nat → String) (rules : List Models.AlertRule) (agentID : String)
    (metrics : Models.Metrics) (st : AlertState) (rule : Models.AlertRule)
    (last : Models.Alert)
    (hmem : rule ∈ rules) (henabled : rule.Enabled = true)
    (hrules : ((ListEnabledRules rules).map (fun r => r.ID)).Nodup)
    (hnd : (st.alerts.map (fun a => a.ID)).Nodup)
    (hexceeds : rule.CheckThreshold (getMetricValue rule.MetricType metrics) = true)
    (hrange : isInt64 (rule.Cooldown * timeSecond))
    (hlmem : last ∈ st.alerts) (hpair : last.RuleID = rule.ID ∧ last.AgentID = agentID)
    (hlast : ∀ b ∈ st.alerts, b.RuleID = rule.ID → b.AgentID = agentID →
      b.TriggeredAt ≤ last.TriggeredAt)
    (hcool : last.TriggeredAt + rule.Cooldown * timeSecond > now) :
    (CheckAndTrigger format now uuid rules agentID metrics st).alerts.filter
        (fun a => a.RuleID = rule.ID) = st.alerts.filter (fun a => a.RuleID = rule.ID) ∧
    (CheckAndTrigger format now uuid rules agentID metrics st).sent.filter
        (fun n => n.ruleID = rule.ID) = st.sent.filter (fun n => n.ruleID = rule.ID) := by
  obtain ⟨k, st1, _, f1, f2, _, _, g1, g2⟩ :=
    CheckAndTrigger_split format now uuid rules agentID metrics st rule
      ((mem_ListEnabledRules rules rule).mpr ⟨hmem, henabled⟩) hrules hnd
  have h4 : isInCooldown st1.alerts rule agentID now = true := by
    rw [isInCooldown_congr st1.alerts st.alerts rule agentID now f1,
      isInCooldown_in_range st.alerts rule agentID now last hrange hlmem hpair hlast]
    simpa using hcool
  have hstep := checkRule_suppress format now (uuid k) agentID metrics st1 rule hexceeds h4
  rw [g1, g2, hstep]
  exact ⟨f1, f2⟩

/-- The scenario of the specification with a cooldown of 300 s: a fire at cpu 95, a
resolve at cpu 88 one minute later, and a sample at cpu 96 two minutes after the fire,
which creates nothing. -/
theorem cooldown_scenario :
    runAlertOps (fun _ _ _ _ => "message") { alerts := [], sent := [] }
      [.check 0 (fun _ => "A1")
          [{ ID := "R", Name := "cpu high", MetricType := "cpu", Operator := "gt",
             Threshold := 90, Duration := 0, Cooldown := 300, AgentIDs := [], Enabled := true,
             CreatedAt := 0, UpdatedAt := 0 }] "a1"
          { ID := "", AgentID := "", CPU := 95,
            Memory := { Total := 8, Used := 4, Available := 4, Percent := 50 }, Disks := [],
            Network := { BytesSent := 0, BytesRecv := 0, BytesSentRate := 0, BytesRecvRate := 0 },
            Timestamp := 0 },
       .check 60000000000 (fun _ => "A2")
          [{ ID := "R", Name := "cpu high", MetricType := "cpu", Operator := "gt",
             Threshold := 90, Duration := 0, Cooldown := 300, AgentIDs := [], Enabled := true,
             CreatedAt := 0, UpdatedAt := 0 }] "a1"
          { ID := "", AgentID := "", CPU := 88,
            Memory := { Total := 8, Used := 4, Available := 4, Percent := 50 }, Disks := [],
            Network := { BytesSent := 0, BytesRecv := 0, BytesSentRate := 0, BytesRecvRate := 0 },
            Timestamp := 0 },
       .check 120000000000 (fun _ => "A3")
          [{ ID := "R", Name := "cpu high", MetricType := "cpu", Operator := "gt",
             Threshold := 90, Duration := 0, Cooldown := 300, AgentIDs := [], Enabled := true,
             CreatedAt := 0, UpdatedAt := 0 }] "a1"
          { ID := "", AgentID := "", CPU := 96,
            Memory := { Total := 8, Used := 4, Available := 4, Percent := 50 }, Disks := [],
            Network := { BytesSent := 0, BytesRecv := 0, BytesSentRate := 0, BytesRecvRate := 0 },
            Timestamp := 0 }] =
      { alerts := [{ ID := "A1", RuleID := "R", AgentID := "a1", Status := .resolved,
                     MetricType := "cpu", Value := 95, Threshold := 90, Message := "message",
                     TriggeredAt := 0, ResolvedAt := some 60000000000 }],
        sent := [.send { ID := "A1", RuleID := "R", AgentID := "a1", Status := .firing,
                         MetricType := "cpu", Value := 95, Threshold := 90,
                         Message := "message", TriggeredAt := 0, ResolvedAt := none },
                 .sendRecovery { ID := "A1", RuleID := "R", AgentID := "a1", Status := .resolved,
                                 MetricType := "cpu", Value := 95, Threshold := 90,
                                 Message := "message", TriggeredAt := 0,
                                 ResolvedAt := some 60000000000 }] } := by
  decide

/-- C12. Failing input of the cooldown test: the rule `cpu > 90` has a cooldown of
9223372037 s; the store holds one resolved alert of the pair, triggered at instant 0; a
sample with cpu at 96 arrives one second later. The most recent alert has
`triggered_at + cooldown_sec > now`, yet `isInCooldown` answers false, because the product
of the cooldown and `time.Second` wraps to a negative `int64`, and `CheckAndTrigger`
creates a second alert and announces it. -/
theorem cooldown_overflow_fires :
    ((0 : Int) + 9223372037 * timeSecond > 1000000000) ∧
    wrapInt64 (9223372037 * timeSecond) = -9223372036709551616 ∧
    isInCooldown
      [{ ID := "A1", RuleID := "R", AgentID := "a1", Status := .resolved, MetricType := "cpu",
         Value := 95, Threshold := 90, Message := "message", TriggeredAt := 0,
         ResolvedAt := some 500000000 }]
      { ID := "R", Name := "cpu high", MetricType := "cpu", Operator := "gt",
        Threshold := 90, Duration := 0, Cooldown := 9223372037, AgentIDs := [],
        Enabled := true, CreatedAt := 0, UpdatedAt := 0 } "a1" 1000000000 = false ∧
    CheckAndTrigger (fun _ _ _ _ => "message") 1000000000 (fun _ => "A2")
      [{ ID := "R", Name := "cpu high", MetricType := "cpu", Operator := "gt",
         Threshold := 90, Duration := 0, Cooldown := 9223372037, AgentIDs := [],
         Enabled := true, CreatedAt := 0, UpdatedAt := 0 }] "a1"
      { ID := "", AgentID := "", CPU := 96,
        Memory := { Total := 8, Used := 4, Available := 4, Percent := 50 }, Disks := [],
        Network := { BytesSent := 0, BytesRecv := 0, BytesSentRate := 0, BytesRecvRate := 0 },
        Timestamp := 0 }
      { alerts := [{ ID := "A1", RuleID := "R", AgentID := "a1", Status := .resolved,
                     MetricType := "cpu", Value := 95, Threshold := 90, Message := "message",
                     TriggeredAt := 0, ResolvedAt := some 500000000 }],
        sent := [] } =
      { alerts := [{ ID := "A1", RuleID := "R", AgentID := "a1", Status := .resolved,
                     MetricType := "cpu", Value := 95, Threshold := 90, Message := "message",
                     TriggeredAt := 0, ResolvedAt := some 500000000 },
                   { ID := "A2", RuleID := "R", AgentID := "a1", Status := .firing,
                     MetricType := "cpu", Value := 96, Threshold := 90, Message := "message",
                     TriggeredAt := 1000000000, ResolvedAt := none }],
        sent := [.send { ID := "A2", RuleID := "R", AgentID := "a1", Status := .firing,
                         MetricType := "cpu", Value := 96, Threshold := 90,
                         Message := "message", TriggeredAt := 1000000000,
                         ResolvedAt := none }] } := by
  decide

theorem resolve_filter_comm (alerts : List Models.Alert) (id : String) (now : Int)
    (ruleID : String) :
    (ResolveAlert alerts id now).filter (fun a => a.RuleID = ruleID) =
      ResolveAlert (alerts.filter (fun a => a.RuleID = ruleID)) id now := by
  unfold ResolveAlert
  rw [List.filter_map]
  congr 1
  apply List.filter_congr
  intro a _
  by_cases hid : a.ID = id <;> simp [hid]

/-- C13. For every enabled rule that applies to the agent and every sample for which the
operator does not hold between the extracted value and the threshold: if `e` is the firing
instance of the pair, `CheckAndTrigger` turns, among the alerts of the rule, exactly `e`
into a resolved alert with `resolved_at` the current instant, leaves every other alert of
the rule as it is, and announces the recovery once; if the pair has no firing instance,
the alerts of the rule are unchanged and nothing is announced for the rule. Rule
identifiers and alert identifiers are keys of their tables. -/
theorem CheckAndTrigger_resolves (format : AlertFormat) (now : Int) (uuid : Nat → String)
    (rules : List Models.AlertRule) (agentID : String) (metrics : Models.Metrics)
    (st : AlertState) (rule : Models.AlertRule)
    (hmem : rule ∈ rules) (henabled : rule.Enabled = true)
    (hrules : ((ListEnabledRules rules).map (fun r => r.ID)).Nodup)
    (hnd : (st.alerts.map (fun a => a.ID)).Nodup)
    (happlies : rule.AgentIDs = [] ∨ agentID ∈ rule.AgentIDs)
    (hnot : ¬ ((rule.Operator = "gt" ∧ getMetricValue rule.MetricType metrics > rule.Threshold) ∨
      (rule.Operator = "lt" ∧ getMetricValue rule.MetricType metrics < rule.Threshold) ∨
      (rule.Operator = "eq" ∧ getMetricValue rule.MetricType metrics = rule.Threshold))) :
    (∀ e ∈ st.alerts, e.RuleID = rule.ID → e.AgentID = agentID → e.Status = .firing →
      (∀ b ∈ st.alerts, b.RuleID = rule.ID → b.AgentID = agentID → b.Status = .firing → b = e) →
      (CheckAndTrigger format now uuid rules agentID metrics st).alerts.filter
          (fun a => a.RuleID = rule.ID) =
        (st.alerts.filter (fun a => a.RuleID = rule.ID)).map
          (fun a => if a = e then { a with Status := .resolved, ResolvedAt := some now } else a) ∧
      (CheckAndTrigger format now uuid rules agentID metrics st).sent.filter
          (fun n => n.ruleID = rule.ID) =
        st.sent.filter (fun n => n.ruleID = rule.ID) ++
          [.sendRecovery { e with Status := .resolved, ResolvedAt := some now }]) ∧
    ((∀ a ∈ st.alerts, ¬ (a.RuleID = rule.ID ∧ a.AgentID = agentID ∧ a.Status = .firing)) →
      (CheckAndTrigger format now uuid rules agentID metrics st).alerts.filter
          (fun a => a.RuleID = rule.ID) = st.alerts.filter (fun a => a.RuleID = rule.ID) ∧
      (CheckAndTrigger format now uuid rules agentID metrics st).sent.filter
          (fun n => n.ruleID = rule.ID) = st.sent.filter (fun n => n.ruleID = rule.ID)) := by
  obtain ⟨k, st1, _, f1, f2, _, _, g1, g2⟩ :=
    CheckAndTrigger_split format now uuid rules agentID metrics st rule
      ((mem_ListEnabledRules rules rule).mpr ⟨hmem, henabled⟩) hrules hnd
  have h2 : rule.CheckThreshold (getMetricValue rule.MetricType metrics) = false := by
    cases hc : rule.CheckThreshold (getMetricValue rule.MetricType metrics) with
    | false => rfl
    | true => exact absurd ((CheckThreshold_eq_true _ _).mp hc) hnot
  constructor
  · intro e he hr ha hs huniq
    have h3 : GetFiringAlertByRuleAndAgent st1.alerts rule.ID agentID = some e := by
      rw [getFiring_congr st1.alerts st.alerts rule.ID agentID f1]
      cases hg : GetFiringAlertByRuleAndAgent st.alerts rule.ID agentID with
      | none =>
        rw [getFiring_eq_none, List.filter_eq_nil_iff] at hg
        exact absurd (by simpa using And.intro hr (And.intro ha hs)) (hg e he)
      | some b =>
        obtain ⟨hb1, hb2, hb3, hb4⟩ := getFiring_some _ _ _ _ hg
        rw [huniq b hb1 hb2 hb3 hb4]
    have hstep := checkRule_resolve format now (uuid k) agentID metrics st1 rule e
      (rule_applies rule agentID happlies) h2 h3
    rw [g1, g2, hstep]
    constructor
    · show (ResolveAlert st1.alerts e.ID now).filter _ = _
      rw [resolve_filter_comm, f1]
      unfold ResolveAlert
      apply List.map_congr_left
      intro a ham
      have ha2 : a ∈ st.alerts := List.mem_of_mem_filter ham
      by_cases hae : a = e
      · simp [hae]
      · have hid : ¬ a.ID = e.ID := fun h => hae (alert_eq_of_id_eq st.alerts hnd a e ha2 he h)
        simp [hae, hid]
    · show (st1.sent ++ [_]).filter _ = _
      rw [List.filter_append, f2,
        List.filter_cons_of_pos (by simp [Notification.ruleID, hr])]
      simp
  · intro hnone
    have h3 : GetFiringAlertByRuleAndAgent st1.alerts rule.ID agentID = none := by
      rw [getFiring_congr st1.alerts st.alerts rule.ID agentID f1, getFiring_eq_none,
        List.filter_eq_nil_iff]
      intro a ha
      simpa using hnone a ha
    have hstep := checkRule_idle format now (uuid k) agentID metrics st1 rule h2 h3
    rw [g1, g2, hstep]
    exact ⟨f1, f2⟩

/-- Instance of `CheckAndTrigger_resolves`: the rule `cpu > 90`, a store whose only alert
is the firing instance of the pair, and a sample with cpu at 88. -/
theorem CheckAndTrigger_resolves_witness :
    (CheckAndTrigger (fun _ _ _ _ => "message") 60000000000 (fun _ => "A2")
        [{ ID := "R", Name := "cpu high", MetricType := "cpu", Operator := "gt",
           Threshold := 90, Duration := 0, Cooldown := 300, AgentIDs := [], Enabled := true,
           CreatedAt := 0, UpdatedAt := 0 }] "a1"
        { ID := "", AgentID := "", CPU := 88,
          Memory := { Total := 8, Used := 4, Available := 4, Percent := 50 }, Disks := [],
          Network := { BytesSent := 0, BytesRecv := 0, BytesSentRate := 0, BytesRecvRate := 0 },
          Timestamp := 0 }
        { alerts := [{ ID := "A1", RuleID := "R", AgentID := "a1", Status := .firing,
                       MetricType := "cpu", Value := 95, Threshold := 90, Message := "message",
                       TriggeredAt := 0, ResolvedAt := none }],
          sent := [] }).alerts.filter (fun a => a.RuleID = "R") =
      [{ ID := "A1", RuleID := "R", AgentID := "a1", Status := .resolved, MetricType := "cpu",
         Value := 95, Threshold := 90, Message := "message", TriggeredAt := 0,
         ResolvedAt := some 60000000000 }] := by
  have h := (CheckAndTrigger_resolves (fun _ _ _ _ => "message") 60000000000 (fun _ => "A2")
    [{ ID := "R", Name := "cpu high", MetricType := "cpu", Operator := "gt",
       Threshold := 90, Duration := 0, Cooldown := 300, AgentIDs := [], Enabled := true,
       CreatedAt := 0, UpdatedAt := 0 }] "a1"
    { ID := "", AgentID := "", CPU := 88,
      Memory := { Total := 8, Used := 4, Available := 4, Percent := 50 }, Disks := [],
      Network := { BytesSent := 0, BytesRecv := 0, BytesSentRate := 0, BytesRecvRate := 0 },
      Timestamp := 0 }
    { alerts := [{ ID := "A1", RuleID := "R", AgentID := "a1", Status := .firing,
                   MetricType := "cpu", Value := 95, Threshold := 90, Message := "message",
                   TriggeredAt := 0, ResolvedAt := none }],
      sent := [] }
    { ID := "R", Name := "cpu high", MetricType := "cpu", Operator := "gt",
      Threshold := 90, Duration := 0, Cooldown := 300, AgentIDs := [], Enabled := true,
      CreatedAt := 0, UpdatedAt := 0 }
    (by decide) rfl (by decide) (by decide) (Or.inl rfl) (by decide)).1
    { ID := "A1", RuleID := "R", AgentID := "a1", Status := .firing,
      MetricType := "cpu", Value := 95, Threshold := 90, Message := "message",
      TriggeredAt := 0, ResolvedAt := none }
    (by decide) rfl rfl rfl (by decide)
  rw [h.1]
  decide

/-- C15, as stated, fails: a rule with `duration_sec` = 60 fires on a single exceeding
sample that arrives one second after a sample that did not exceed. -/
theorem duration_single_sample_fires :
    runAlertOps (fun _ _ _ _ => "message") { alerts := [], sent := [] }
      [.check 0 (fun _ => "A1")
          [{ ID := "R", Name := "cpu high", MetricType := "cpu", Operator := "gt",
             Threshold := 90, Duration := 60, Cooldown := 300, AgentIDs := [], Enabled := true,
             CreatedAt := 0, UpdatedAt := 0 }] "a1"
          { ID := "", AgentID := "", CPU := 50,
            Memory := { Total := 8, Used := 4, Available := 4, Percent := 50 }, Disks := [],
            Network := { BytesSent := 0, BytesRecv := 0, BytesSentRate := 0, BytesRecvRate := 0 },
            Timestamp := 0 },
       .check 1000000000 (fun _ => "A1")
          [{ ID := "R", Name := "cpu high", MetricType := "cpu", Operator := "gt",
             Threshold := 90, Duration := 60, Cooldown := 300, AgentIDs := [], Enabled := true,
             CreatedAt := 0, UpdatedAt := 0 }] "a1"
          { ID := "", AgentID := "", CPU := 95,
            Memory := { Total := 8, Used := 4, Available := 4, Percent := 50 }, Disks := [],
            Network := { BytesSent := 0, BytesRecv := 0, BytesSentRate := 0, BytesRecvRate := 0 },
            Timestamp := 0 }] =
      { alerts := [{ ID := "A1", RuleID := "R", AgentID := "a1", Status := .firing,
                     MetricType := "cpu", Value := 95, Threshold := 90, Message := "message",
                     TriggeredAt := 1000000000, ResolvedAt := none }],
        sent := [.send { ID := "A1", RuleID := "R", AgentID := "a1", Status := .firing,
                         MetricType := "cpu", Value := 95, Threshold := 90,
                         Message := "message", TriggeredAt := 1000000000,
                         ResolvedAt := none }] } := by
  decide

theorem checkRule_duration (format : AlertFormat) (now : Int) (uuid agentID : String)
    (metrics : Models.Metrics) (st : AlertState) (rule : Models.AlertRule) (d : Int) :
    checkRule format now uuid agentID metrics st { rule with Duration := d } =
      checkRule format now uuid agentID metrics st rule := rfl

theorem checkRules_duration (format : AlertFormat) (now : Int) (agentID : String)
    (metrics : Models.Metrics) (duration : Models.AlertRule → Int) (uuid : Nat → String)
    (rules : List Models.AlertRule) (st : AlertState) :
    checkRules format now agentID metrics uuid
        (rules.map (fun r => { r with Duration := duration r })) st =
      checkRules format now agentID metrics uuid rules st := by
  induction rules generalizing uuid st with
  | nil => rfl
  | cons r rest ih =>
    simp only [List.map_cons, checkRules]
    rw [ih, checkRule_duration]

/-- C15, amended. The alert evaluator judges every sample on its own and never reads
`duration_sec`: whatever durations the rules carry, `CheckAndTrigger` produces the same
alerts and the same notifications, so a rule fires on the first exceeding sample that finds
no firing instance and no cooldown. -/
theorem CheckAndTrigger_ignores_duration (format : AlertFormat) (now : Int)
    (uuid : Nat → String) (rules : List Models.AlertRule) (agentID : String)
    (metrics : Models.Metrics) (st : AlertState) (duration : Models.AlertRule → Int) :
    CheckAndTrigger format now uuid (rules.map (fun r => { r with Duration := duration r }))
        agentID metrics st =
      CheckAndTrigger format now uuid rules agentID metrics st := by
  unfold CheckAndTrigger ListEnabledRules
  rw [List.filter_map]
  have hcomp : ((fun r : Models.AlertRule => r.Enabled) ∘
      fun r : Models.AlertRule => { r with Duration := duration r }) = fun r => r.Enabled := rfl
  rw [hcomp]
  exact checkRules_duration format now agentID metrics duration uuid _ st

theorem foldl_max_ge_init (disks : List Models.DiskStats) (init : ℚ) :
    init ≤ disks.foldl (fun mx d => if d.Percent > mx then d.Percent else mx) init := by
  induction disks generalizing init with
  | nil => exact le_refl _
  | cons d rest ih =>
    simp only [List.foldl_cons]
    by_cases h : d.Percent > init
    · rw [if_pos h]
      exact le_trans (le_of_lt h) (ih _)
    · rw [if_neg h]
      exact ih _

theorem foldl_max_ge (disks : List Models.DiskStats) (init : ℚ) :
    ∀ d ∈ disks,
      d.Percent ≤ disks.foldl (fun mx d => if d.Percent > mx then d.Percent else mx) init := by
  induction disks generalizing init with
  | nil => simp
  | cons x rest ih =>
    intro d hd
    simp only [List.foldl_cons]
    rcases List.mem_cons.mp hd with rfl | hd
    · by_cases h : d.Percent > init
      · rw [if_pos h]
        exact foldl_max_ge_init rest _
      · rw [if_neg h]
        exact le_trans (not_lt.mp h) (foldl_max_ge_init rest _)
    · exact ih _ d hd

theorem foldl_max_mem (disks : List Models.DiskStats) (init : ℚ) :
    disks.foldl (fun mx d => if d.Percent > mx then d.Percent else mx) init = init ∨
    ∃ d ∈ disks,
      disks.foldl (fun mx d => if d.Percent > mx then d.Percent else mx) init = d.Percent := by
  induction disks generalizing init with
  | nil => exact Or.inl rfl
  | cons x rest ih =>
    simp only [List.foldl_cons]
    by_cases h : x.Percent > init
    · rw [if_pos h]
      rcases ih x.Percent with h1 | ⟨d, hd, h1⟩
      · exact Or.inr ⟨x, List.mem_cons_self _ _, h1⟩
      · exact Or.inr ⟨d, List.mem_cons_of_mem _ hd, h1⟩
    · rw [if_neg h]
      rcases ih init with h1 | ⟨d, hd, h1⟩
      · exact Or.inl h1
      · exact Or.inr ⟨d, List.mem_cons_of_mem _ hd, h1⟩

/-- The value extracted by `getMetricValue`: the cpu percent for a `cpu` rule, the memory
percent for a `memory` rule, and for a `disk` rule on a sample of which some disk has a
non-negative percent, the maximum of the disks' percent values. -/
theorem getMetricValue_spec (metrics : Models.Metrics) :
    getMetricValue "cpu" metrics = metrics.CPU ∧
    getMetricValue "memory" metrics = metrics.Memory.Percent ∧
    ((∃ d ∈ metrics.Disks, 0 ≤ d.Percent) →
      (∃ d ∈ metrics.Disks, getMetricValue "disk" metrics = d.Percent) ∧
      ∀ d ∈ metrics.Disks, d.Percent ≤ getMetricValue "disk" metrics) := by
  refine ⟨by simp [getMetricValue, Models.MetricTypeCPU],
    by simp [getMetricValue, Models.MetricTypeCPU, Models.MetricTypeMemory], ?_⟩
  rintro ⟨d0, hd0, hpos⟩
  have hlen : metrics.Disks.length > 0 := List.length_pos_of_mem hd0
  have hval : getMetricValue "disk" metrics =
      metrics.Disks.foldl (fun mx d => if d.Percent > mx then d.Percent else mx) 0 := by
    simp [getMetricValue, Models.MetricTypeCPU, Models.MetricTypeMemory, Models.MetricTypeDisk,
      hlen]
  rw [hval]
  refine ⟨?_, foldl_max_ge metrics.Disks 0⟩
  rcases foldl_max_mem metrics.Disks 0 with h | h
  · have hle := foldl_max_ge metrics.Disks 0 d0 hd0
    rw [h] at hle
    exact ⟨d0, hd0, by rw [h]; exact le_antisymm hpos hle⟩
  · exact h

/-- C16. Failing input of `getMetricValue`: a sample whose only disk reports the percent
-5 (the handler stores and evaluates such a sample). For a `disk` rule the evaluator
extracts 0, which is the percent of no disk of the sample; the maximum of the disks'
percent values is -5. The running maximum starts from 0 instead of from a percent of the
sample. -/
theorem disk_value_not_maximum :
    getMetricValue "disk"
      { ID := "", AgentID := "", CPU := 10,
        Memory := { Total := 8, Used := 4, Available := 4, Percent := 50 },
        Disks := [{ Path := "/", Total := 10, Used := 5, Available := 5, Percent := -5 }],
        Network := { BytesSent := 0, BytesRecv := 0, BytesSentRate := 0, BytesRecvRate := 0 },
        Timestamp := 0 } = 0 ∧
    (∀ d ∈ [({ Path := "/", Total := 10, Used := 5, Available := 5, Percent := -5 } :
        Models.DiskStats)], d.Percent = -5) ∧
    handleMessage "a1" (NewMessage MsgTypeMetrics "m1" 1
      (MetricsPayload.marshal
        { CPU := 10, Memory := { Total := 8, Used := 4, Available := 4, Percent := 50 },
          Disks := [{ Path := "/", Total := 10, Used := 5, Available := 5, Percent := -5 }],
          Network := { BytesSent := 0, BytesRecv := 0, BytesSentRate := 0,
                       BytesRecvRate := 0 } })) =
      [.metricStore "a1"
        { ID := "", AgentID := "", CPU := 10,
          Memory := { Total := 8, Used := 4, Available := 4, Percent := 50 },
          Disks := [{ Path := "/", Total := 10, Used := 5, Available := 5, Percent := -5 }],
          Network := { BytesSent := 0, BytesRecv := 0, BytesSentRate := 0, BytesRecvRate := 0 },
          Timestamp := 0 },
       .updateLastSeen "a1", .recordTraffic "a1" 0 0,
       .checkAndTrigger "a1"
        { ID := "", AgentID := "", CPU := 10,
          Memory := { Total := 8, Used := 4, Available := 4, Percent := 50 },
          Disks := [{ Path := "/", Total := 10, Used := 5, Available := 5, Percent := -5 }],
          Network := { BytesSent := 0, BytesRecv := 0, BytesSentRate := 0, BytesRecvRate := 0 },
          Timestamp := 0 }] := by
  refine ⟨by decide, by decide, ?_⟩
  have hwf : (Payload.metrics
      { CPU := 10, Memory := { Total := 8, Used := 4, Available := 4, Percent := 50 },
        Disks := [{ Path := "/", Total := 10, Used := 5, Available := 5, Percent := -5 }],
        Network := { BytesSent := 0, BytesRecv := 0, BytesSentRate := 0,
                     BytesRecvRate := 0 } }).WF := by
    simp [Payload.WF, isUint64]
  simp [handleMessage, NewMessage, MsgTypeMetrics, MsgTypeHeartbeat,
    metricsPayload_unmarshal_marshal _ hwf]

/-- C17. The value extracted for a `traffic` rule is 0 for every sample: `getMetricValue`
has no case for the metric type `traffic` and the alert service holds no traffic
collaborator. Failing input: agent `a1` has a billing cycle with a limit of 100 bytes and
records that add up to 150 bytes, so the traffic collaborator reports a usage of 150
percent; the rule `traffic > 90` is evaluated against 0 and `CheckAndTrigger` creates
nothing. -/
theorem traffic_value_is_zero :
    (∀ metrics, getMetricValue Models.MetricTypeTraffic metrics = 0) ∧
    trafficPercent
      [{ ID := "c1", AgentID := "a1", StartDate := 0, Duration := 30, Limit := 100,
         CreatedAt := 0 }]
      [{ ID := "t1", CycleID := "c1", AgentID := "a1", BytesSent := 100, BytesRecv := 50,
         Timestamp := 1 }] "a1" = some 150 ∧
    CheckAndTrigger (fun _ _ _ _ => "message") 1000 (fun _ => "A1")
      [{ ID := "R", Name := "traffic high", MetricType := "traffic", Operator := "gt",
         Threshold := 90, Duration := 0, Cooldown := 300, AgentIDs := [], Enabled := true,
         CreatedAt := 0, UpdatedAt := 0 }] "a1"
      { ID := "", AgentID := "", CPU := 10,
        Memory := { Total := 8, Used := 4, Available := 4, Percent := 50 }, Disks := [],
        Network := { BytesSent := 100, BytesRecv := 50, BytesSentRate := 100,
                     BytesRecvRate := 50 },
        Timestamp := 0 }
      { alerts := [], sent := [] } = { alerts := [], sent := [] } := by
  refine ⟨?_, ?_, by decide⟩
  · intro metrics
    simp [getMetricValue, Models.MetricTypeTraffic, Models.MetricTypeCPU,
      Models.MetricTypeMemory, Models.MetricTypeDisk]
  · simp [trafficPercent, GetCycleByAgent, GetCycleTraffic]

/-! ### Agent task runtime -/

theorem TaskMap.load_cons_entry (k1 : String) (r1 : RunningTask) (m : TaskMap) (k : String) :
    TaskMap.load ((k1, r1) :: m) k = if k1 = k then some r1 else TaskMap.load m k := by
  by_cases hk : k1 = k <;> simp [TaskMap.load, List.find?_cons, hk]

theorem TaskMap.delete_cons_entry (k1 : String) (r1 : RunningTask) (m : TaskMap) (k : String) :
    TaskMap.delete ((k1, r1) :: m) k =
      if k1 = k then TaskMap.delete m k else (k1, r1) :: TaskMap.delete m k := by
  by_cases hk : k1 = k <;> simp [TaskMap.delete, List.filter_cons, hk]

theorem TaskMap.load_delete_same (m : TaskMap) (k : String) :
    TaskMap.load (TaskMap.delete m k) k = none := by
  induction m with
  | nil => rfl
  | cons e m ih =>
    obtain ⟨k1, r1⟩ := e
    rw [TaskMap.delete_cons_entry]
    split_ifs with hk
    · exact ih
    · rw [TaskMap.load_cons_entry, if_neg hk]
      exact ih

theorem TaskMap.load_delete_other (m : TaskMap) (k k2 : String) (h : k2 ≠ k) :
    TaskMap.load (TaskMap.delete m k) k2 = TaskMap.load m k2 := by
  induction m with
  | nil => rfl
  | cons e m ih =>
    obtain ⟨k1, r1⟩ := e
    rw [TaskMap.delete_cons_entry, TaskMap.load_cons_entry]
    split_ifs with hk hk2 hk2
    · exact absurd (hk.symm.trans hk2).symm h
    · exact ih
    · rw [TaskMap.load_cons_entry, if_pos hk2]
    · rw [TaskMap.load_cons_entry, if_neg hk2]
      exact ih

theorem TaskMap.load_append_of_none (m1 m2 : TaskMap) (k : String)
    (h : TaskMap.load m1 k = none) : TaskMap.load (m1 ++ m2) k = TaskMap.load m2 k := by
  induction m1 with
  | nil => rfl
  | cons e m ih =>
    obtain ⟨k1, r1⟩ := e
    rw [TaskMap.load_cons_entry] at h
    rw [List.cons_append, TaskMap.load_cons_entry]
    split_ifs at h ⊢ with hk
    exact ih h

theorem TaskMap.load_store_same (m : TaskMap) (k : String) (v : RunningTask) :
    TaskMap.load (TaskMap.store m k v) k = some v := by
  unfold TaskMap.store
  rw [TaskMap.load_append_of_none _ _ _ (TaskMap.load_delete_same m k), TaskMap.load_cons_entry,
    if_pos rfl]

theorem TaskMap.load_store_other (m : TaskMap) (k k2 : String) (v : RunningTask) (h : k2 ≠ k) :
    TaskMap.load (TaskMap.store m k v) k2 = TaskMap.load m k2 := by
  unfold TaskMap.store
  induction m with
  | nil =>
    have hk : ¬ k = k2 := fun h3 => h h3.symm
    simp [TaskMap.delete, TaskMap.load, hk]
  | cons e m ih =>
    obtain ⟨k1, r1⟩ := e
    rw [TaskMap.delete_cons_entry]
    split_ifs with hk
    · rw [ih, TaskMap.load_cons_entry, if_neg (by rw [hk]; exact fun h3 => h h3.symm)]
    · rw [List.cons_append, TaskMap.load_cons_entry, TaskMap.load_cons_entry, ih]

theorem TaskMap.store_count (m : TaskMap) (k : String) (v : RunningTask) :
    ((TaskMap.store m k v).filter (fun e => e.1 = k)).length = 1 := by
  unfold TaskMap.store TaskMap.delete
  rw [List.filter_append, List.filter_filter]
  have h : (m.filter (fun a => decide (a.1 = k) && decide (a.1 ≠ k))) = [] := by
    rw [List.filter_eq_nil_iff]
    intro a _
    by_cases ha : a.1 = k <;> simp [ha]
  rw [h]
  simp

/-- C18. For every task table and every assignment `t`, after `HandleTask(t)` the table
holds exactly one entry under `t.TaskID`; that entry carries the id, type and interval of
`t` and a context that is not cancelled and is held by no earlier entry and no earlier
worker; the context of the entry previously stored under `t.TaskID`, if any, is cancelled
and no other context is newly cancelled; the entries under all other ids are unchanged; and
one worker is started for `t` on the new context. -/
theorem HandleTask_spec (m : TaskManager) (t : TaskAssignPayload) (hctx : m.ContextsBelow) :
    ((m.HandleTask t).tasks.filter (fun e => e.1 = t.TaskID)).length = 1 ∧
    (∃ rt, TaskMap.load (m.HandleTask t).tasks t.TaskID = some rt ∧
      rt.ID = t.TaskID ∧ rt.Typ = t.Typ ∧ rt.Interval = t.Interval ∧
      rt.Cancel ∉ (m.HandleTask t).cancelled ∧
      (∀ e ∈ m.tasks, e.2.Cancel ≠ rt.Cancel) ∧ (∀ w ∈ m.workers, w.ctx ≠ rt.Cancel) ∧
      (m.HandleTask t).workers = m.workers ++ [{ task := t, ctx := rt.Cancel, phase := .ready }]) ∧
    (∀ old, TaskMap.load m.tasks t.TaskID = some old → old.Cancel ∈ (m.HandleTask t).cancelled) ∧
    (∀ c ∈ (m.HandleTask t).cancelled,
      c ∈ m.cancelled ∨ ∃ old, TaskMap.load m.tasks t.TaskID = some old ∧ c = old.Cancel) ∧
    (∀ k, k ≠ t.TaskID → TaskMap.load (m.HandleTask t).tasks k = TaskMap.load m.tasks k) ∧
    (m.HandleTask t).ContextsBelow := by
  obtain ⟨hc1, hc2, hc3⟩ := hctx
  have hmemload : ∀ (tm : TaskMap) (k : String) (r : RunningTask),
      TaskMap.load tm k = some r → (k, r) ∈ tm := by
    intro tm k r h
    induction tm with
    | nil => simp [TaskMap.load] at h
    | cons e tm ih =>
      obtain ⟨k1, r1⟩ := e
      rw [TaskMap.load_cons_entry] at h
      split_ifs at h with hk
      · simp only [Option.some.injEq] at h
        subst h
        subst hk
        exact List.mem_cons_self _ _
      · exact List.mem_cons_of_mem _ (ih h)
  cases hl : TaskMap.load m.tasks t.TaskID with
  | none =>
    have hm : m.HandleTask t =
        { m with
          tasks := TaskMap.store m.tasks t.TaskID
            { ID := t.TaskID, Typ := t.Typ, Cancel := m.nextCtx, Interval := t.Interval }
          workers := m.workers ++ [{ task := t, ctx := m.nextCtx, phase := .ready }]
          nextCtx := m.nextCtx + 1 } := by
      simp [TaskManager.HandleTask, hl]
    rw [hm]
    refine ⟨TaskMap.store_count _ _ _, ⟨_, TaskMap.load_store_same _ _ _, rfl, rfl, rfl, ?_, ?_, ?_,
      rfl⟩, ?_, ?_, ?_, ?_⟩
    · intro hin
      exact absurd (hc1 _ hin) (lt_irrefl _)
    · intro e he heq
      exact absurd (heq ▸ hc2 e he) (lt_irrefl _)
    · intro w hw heq
      exact absurd (heq ▸ hc3 w hw) (lt_irrefl _)
    · intro old ho
      cases ho
    · intro c hc
      exact Or.inl hc
    · intro k hk
      exact TaskMap.load_store_other _ _ _ _ hk
    · refine ⟨fun c hc => Nat.lt_succ_of_lt (hc1 c hc), ?_, ?_⟩
      · intro e he
        simp only [TaskMap.store, TaskMap.delete, List.mem_append, List.mem_filter,
          List.mem_singleton] at he
        rcases he with ⟨he, _⟩ | rfl
        · exact Nat.lt_succ_of_lt (hc2 e he)
        · exact Nat.lt_succ_self _
      · intro w hw
        simp only [List.mem_append, List.mem_singleton] at hw
        rcases hw with hw | rfl
        · exact Nat.lt_succ_of_lt (hc3 w hw)
        · exact Nat.lt_succ_self _
  | some old =>
    have hm : m.HandleTask t =
        { m with
          cancelled := old.Cancel :: m.cancelled
          tasks := TaskMap.store (TaskMap.delete m.tasks t.TaskID) t.TaskID
            { ID := t.TaskID, Typ := t.Typ, Cancel := m.nextCtx, Interval := t.Interval }
          workers := m.workers ++ [{ task := t, ctx := m.nextCtx, phase := .ready }]
          nextCtx := m.nextCtx + 1 } := by
      simp [TaskManager.HandleTask, hl]
    have hold : old.Cancel < m.nextCtx := hc2 _ (hmemload _ _ _ hl)
    rw [hm]
    refine ⟨TaskMap.store_count _ _ _, ⟨_, TaskMap.load_store_same _ _ _, rfl, rfl, rfl, ?_, ?_, ?_,
      rfl⟩, ?_, ?_, ?_, ?_⟩
    · intro hin
      rcases List.mem_cons.mp hin with h | h
      · exact absurd (h ▸ hold) (lt_irrefl _)
      · exact absurd (hc1 _ h) (lt_irrefl _)
    · intro e he heq
      exact absurd (heq ▸ hc2 e he) (lt_irrefl _)
    · intro w hw heq
      exact absurd (heq ▸ hc3 w hw) (lt_irrefl _)
    · intro o ho
      cases ho
      exact List.mem_cons_self _ _
    · intro c hc
      rcases List.mem_cons.mp hc with h | h
      · exact Or.inr ⟨old, rfl, h⟩
      · exact Or.inl h
    · intro k hk
      rw [TaskMap.load_store_other _ _ _ _ hk, TaskMap.load_delete_other _ _ _ hk]
    · refine ⟨?_, ?_, ?_⟩
      · intro c hc
        rcases List.mem_cons.mp hc with h | h
        · rw [h]
          exact Nat.lt_succ_of_lt hold
        · exact Nat.lt_succ_of_lt (hc1 c h)
      · intro e he
        simp only [TaskMap.store, TaskMap.delete, List.mem_append, List.mem_filter,
          List.mem_singleton] at he
        rcases he with ⟨⟨he, _⟩, _⟩ | rfl
        · exact Nat.lt_succ_of_lt (hc2 e he)
        · exact Nat.lt_succ_self _
      · intro w hw
        simp only [List.mem_append, List.mem_singleton] at hw
        rcases hw with hw | rfl
        · exact Nat.lt_succ_of_lt (hc3 w hw)
        · exact Nat.lt_succ_self _

theorem HandleTask_spec_witness :
    ((NewTaskManager.HandleTask
        { TaskID := "t1", Typ := "ping", Target := "example.org", ScriptID := "", Params := [],
          Interval := 30, Timeout := 5 }).tasks.filter (fun e => e.1 = "t1")).length = 1 :=
  (HandleTask_spec NewTaskManager
    { TaskID := "t1", Typ := "ping", Target := "example.org", ScriptID := "", Params := [],
      Interval := 30, Timeout := 5 }
    ⟨(by intro c hc; cases hc), (by intro e he; cases he), (by intro w hw; cases hw)⟩).1

/-- C19. Two runs of one task id in flight at once: the recurring task `t1` is assigned, its
worker enters the task body, `t1` is assigned again, which cancels the context of the first
worker without waiting for it, and the second worker enters the task body while the first
is still inside. One of the two runs is on a cancelled context. -/
theorem overlapping_runs_same_task :
    (NewTaskManager.run
      [.assign { TaskID := "t1", Typ := "ping", Target := "example.org", ScriptID := "",
                 Params := [], Interval := 30, Timeout := 5 },
       .step 0,
       .assign { TaskID := "t1", Typ := "ping", Target := "example.org", ScriptID := "",
                 Params := [], Interval := 30, Timeout := 5 },
       .step 1]).inFlight "t1" = 2 ∧
    (NewTaskManager.run
      [.assign { TaskID := "t1", Typ := "ping", Target := "example.org", ScriptID := "",
                 Params := [], Interval := 30, Timeout := 5 },
       .step 0,
       .assign { TaskID := "t1", Typ := "ping", Target := "example.org", ScriptID := "",
                 Params := [], Interval := 30, Timeout := 5 },
       .step 1]).inFlightUncancelled "t1" = 1 := by
  decide

/-- A one-shot task id reassigned as recurring: `t1` is assigned as a one-shot task and its
worker enters the task body, `t1` is reassigned as recurring, the one-shot worker returns
and its deferred delete removes the table entry of the recurring schedule; a third
assignment then finds no entry to cancel, and the second and third workers are both inside
the task body on contexts that were never cancelled. -/
theorem oneshot_return_deletes_new_entry :
    (NewTaskManager.run
      [.assign { TaskID := "t1", Typ := "ping", Target := "example.org", ScriptID := "",
                 Params := [], Interval := 0, Timeout := 5 },
       .step 0,
       .assign { TaskID := "t1", Typ := "ping", Target := "example.org", ScriptID := "",
                 Params := [], Interval := 30, Timeout := 5 },
       .step 0]).tasks = [] ∧
    (NewTaskManager.run
      [.assign { TaskID := "t1", Typ := "ping", Target := "example.org", ScriptID := "",
                 Params := [], Interval := 0, Timeout := 5 },
       .step 0,
       .assign { TaskID := "t1", Typ := "ping", Target := "example.org", ScriptID := "",
                 Params := [], Interval := 30, Timeout := 5 },
       .step 0,
       .assign { TaskID := "t1", Typ := "ping", Target := "example.org", ScriptID := "",
                 Params := [], Interval := 30, Timeout := 5 },
       .step 1,
       .step 2]).inFlightUncancelled "t1" = 2 ∧
    (NewTaskManager.run
      [.assign { TaskID := "t1", Typ := "ping", Target := "example.org", ScriptID := "",
                 Params := [], Interval := 0, Timeout := 5 },
       .step 0,
       .assign { TaskID := "t1", Typ := "ping", Target := "example.org", ScriptID := "",
                 Params := [], Interval := 30, Timeout := 5 },
       .step 0,
       .assign { TaskID := "t1", Typ := "ping", Target := "example.org", ScriptID := "",
                 Params := [], Interval := 30, Timeout := 5 },
       .step 1,
       .step 2]).cancelled = [0] := by
  decide

theorem HandleTask_fields (m : TaskManager) (t : TaskAssignPayload) :
    (m.HandleTask t).workers = m.workers ++ [{ task := t, ctx := m.nextCtx, phase := .ready }] ∧
    (∀ c ∈ m.cancelled, c ∈ (m.HandleTask t).cancelled) ∧
    (∀ old, TaskMap.load m.tasks t.TaskID = some old → old.Cancel ∈ (m.HandleTask t).cancelled) ∧
    (∃ rt, TaskMap.load (m.HandleTask t).tasks t.TaskID = some rt ∧ rt.Cancel = m.nextCtx) ∧
    (∀ k, k ≠ t.TaskID → TaskMap.load (m.HandleTask t).tasks k = TaskMap.load m.tasks k) := by
  cases hl : TaskMap.load m.tasks t.TaskID with
  | none =>
    have hm : m.HandleTask t =
        { m with
          tasks := TaskMap.store m.tasks t.TaskID
            { ID := t.TaskID, Typ := t.Typ, Cancel := m.nextCtx, Interval := t.Interval }
          workers := m.workers ++ [{ task := t, ctx := m.nextCtx, phase := .ready }]
          nextCtx := m.nextCtx + 1 } := by
      simp [TaskManager.HandleTask, hl]
    rw [hm]
    refine ⟨rfl, fun c hc => hc, ?_, ⟨_, TaskMap.load_store_same _ _ _, rfl⟩, ?_⟩
    · intro old ho
      cases ho
    · intro k hk
      exact TaskMap.load_store_other _ _ _ _ hk
  | some old =>
    have hm : m.HandleTask t =
        { m with
          cancelled := old.Cancel :: m.cancelled
          tasks := TaskMap.store (TaskMap.delete m.tasks t.TaskID) t.TaskID
            { ID := t.TaskID, Typ := t.Typ, Cancel := m.nextCtx, Interval := t.Interval }
          workers := m.workers ++ [{ task := t, ctx := m.nextCtx, phase := .ready }]
          nextCtx := m.nextCtx + 1 } := by
      simp [TaskManager.HandleTask, hl]
    rw [hm]
    refine ⟨rfl, fun c hc => List.mem_cons_of_mem _ hc, ?_,
      ⟨_, TaskMap.load_store_same _ _ _, rfl⟩, ?_⟩
    · intro o ho
      cases ho
      exact List.mem_cons_self _ _
    · intro k hk
      rw [TaskMap.load_store_other _ _ _ _ hk, TaskMap.load_delete_other _ _ _ hk]

theorem CancelTask_fields (m : TaskManager) (k : String) :
    (m.CancelTask k).workers = m.workers ∧
    (∀ c ∈ m.cancelled, c ∈ (m.CancelTask k).cancelled) ∧
    (∀ old, TaskMap.load m.tasks k = some old → old.Cancel ∈ (m.CancelTask k).cancelled) ∧
    (∀ k2, k2 ≠ k → TaskMap.load (m.CancelTask k).tasks k2 = TaskMap.load m.tasks k2) := by
  cases hl : TaskMap.load m.tasks k with
  | none =>
    have hm : m.CancelTask k = m := by simp [TaskManager.CancelTask, hl]
    rw [hm]
    refine ⟨rfl, fun c hc => hc, ?_, fun _ _ => rfl⟩
    intro old ho
    cases ho
  | some old =>
    have hm : m.CancelTask k =
        { m with cancelled := old.Cancel :: m.cancelled, tasks := TaskMap.delete m.tasks k } := by
      simp [TaskManager.CancelTask, hl]
    rw [hm]
    refine ⟨rfl, fun c hc => List.mem_cons_of_mem _ hc, ?_, ?_⟩
    · intro o ho
      cases ho
      exact List.mem_cons_self _ _
    · intro k2 hk
      exact TaskMap.load_delete_other _ _ _ hk

theorem workers_split (l : List Worker) (i : Nat) (w : Worker) (h : l.get? i = some w)
    (x : Worker) : ∃ l1 l2, l = l1 ++ w :: l2 ∧ l.set i x = l1 ++ x :: l2 := by
  induction l generalizing i with
  | nil => simp at h
  | cons a l ih =>
    cases i with
    | zero =>
      simp only [List.get?_cons_zero, Option.some.injEq] at h
      subst h
      exact ⟨[], l, rfl, rfl⟩
    | succ i =>
      simp only [List.get?_cons_succ] at h
      obtain ⟨l1, l2, h1, h2⟩ := ih i h
      exact ⟨a :: l1, l2, by rw [h1]; rfl, by rw [List.set_cons_succ, h2]; rfl⟩

theorem workerStep_cases (m : TaskManager) (i : Nat) :
    m.workerStep i = m ∨
    ∃ l1 w l2 ph, m.workers = l1 ++ w :: l2 ∧ w.phase ≠ .exited ∧
      (m.workerStep i).workers = l1 ++ { w with phase := ph } :: l2 ∧
      (m.workerStep i).cancelled = m.cancelled ∧
      ((m.workerStep i).tasks = m.tasks ∨
        (ph = .exited ∧ w.task.Interval ≤ 0 ∧
          (m.workerStep i).tasks = TaskMap.delete m.tasks w.task.TaskID)) := by
  cases hget : m.workers.get? i with
  | none => left; simp only [TaskManager.workerStep, hget]
  | some w =>
    have hexit : ∀ hne : w.phase ≠ .exited,
        ∃ l1 w0 l2 ph, m.workers = l1 ++ w0 :: l2 ∧ w0.phase ≠ .exited ∧
          (m.workerExit i w).workers = l1 ++ { w0 with phase := ph } :: l2 ∧
          (m.workerExit i w).cancelled = m.cancelled ∧
          ((m.workerExit i w).tasks = m.tasks ∨
            (ph = .exited ∧ w0.task.Interval ≤ 0 ∧
              (m.workerExit i w).tasks = TaskMap.delete m.tasks w0.task.TaskID)) := by
      intro hne
      obtain ⟨l1, l2, h1, h2⟩ := workers_split m.workers i w hget { w with phase := .exited }
      refine ⟨l1, w, l2, .exited, h1, hne, h2, rfl, ?_⟩
      by_cases hi : w.task.Interval ≤ 0
      · right
        exact ⟨rfl, hi, by simp [TaskManager.workerExit, hi]⟩
      · left
        simp [TaskManager.workerExit, hi]
    have hmove : ∀ (ph : WorkerPhase), w.phase ≠ .exited →
        ∃ l1 w0 l2 ph0, m.workers = l1 ++ w0 :: l2 ∧ w0.phase ≠ .exited ∧
          ({ m with workers := m.workers.set i { w with phase := ph } } : TaskManager).workers =
            l1 ++ { w0 with phase := ph0 } :: l2 ∧
          ({ m with workers := m.workers.set i { w with phase := ph } } : TaskManager).cancelled =
            m.cancelled ∧
          (({ m with workers := m.workers.set i { w with phase := ph } } : TaskManager).tasks =
              m.tasks ∨
            (ph0 = .exited ∧ w0.task.Interval ≤ 0 ∧
              ({ m with workers := m.workers.set i { w with phase := ph } } : TaskManager).tasks =
                TaskMap.delete m.tasks w0.task.TaskID)) := by
      intro ph hne
      obtain ⟨l1, l2, h1, h2⟩ := workers_split m.workers i w hget { w with phase := ph }
      exact ⟨l1, w, l2, ph, h1, hne, h2, rfl, Or.inl rfl⟩
    cases hph : w.phase with
    | exited => left; simp only [TaskManager.workerStep, hget, hph]
    | ready =>
      right
      have hne : w.phase ≠ .exited := by rw [hph]; decide
      by_cases hc : w.ctx ∈ m.cancelled ∨ m.stopped = true
      · have : m.workerStep i = m.workerExit i w := by
          simp only [TaskManager.workerStep, hget, hph, if_pos hc]
        rw [this]; exact hexit hne
      · have : m.workerStep i = { m with workers := m.workers.set i { w with phase := .running } } := by
          simp only [TaskManager.workerStep, hget, hph, if_neg hc]
        rw [this]; exact hmove _ hne
    | running =>
      right
      have hne : w.phase ≠ .exited := by rw [hph]; decide
      by_cases hc : w.task.Interval ≤ 0
      · have : m.workerStep i = m.workerExit i w := by
          simp only [TaskManager.workerStep, hget, hph, if_pos hc]
        rw [this]; exact hexit hne
      · have : m.workerStep i = { m with workers := m.workers.set i { w with phase := .waiting } } := by
          simp only [TaskManager.workerStep, hget, hph, if_neg hc]
        rw [this]; exact hmove _ hne
    | waiting =>
      right
      have hne : w.phase ≠ .exited := by rw [hph]; decide
      by_cases hc : w.ctx ∈ m.cancelled ∨ m.stopped = true
      · have : m.workerStep i = m.workerExit i w := by
          simp only [TaskManager.workerStep, hget, hph, if_pos hc]
        rw [this]; exact hexit hne
      · have : m.workerStep i = { m with workers := m.workers.set i { w with phase := .ready } } := by
          simp only [TaskManager.workerStep, hget, hph, if_neg hc]
        rw [this]; exact hmove _ hne

theorem TaskMap.mem_of_load (tm : TaskMap) (k : String) (r : RunningTask)
    (h : TaskMap.load tm k = some r) : (k, r) ∈ tm := by
  induction tm with
  | nil => simp [TaskMap.load] at h
  | cons e tm ih =>
    obtain ⟨k1, r1⟩ := e
    rw [TaskMap.load_cons_entry] at h
    split_ifs at h with hk
    · simp only [Option.some.injEq] at h
      subst h
      subst hk
      exact List.mem_cons_self _ _
    · exact List.mem_cons_of_mem _ (ih h)

theorem HandleTask_preserves_contextsBelow (m : TaskManager) (t : TaskAssignPayload)
    (h : m.ContextsBelow) : (m.HandleTask t).ContextsBelow := by
  obtain ⟨hc1, hc2, hc3⟩ := h
  obtain ⟨hw, _, _, ⟨rt, hrt, hrtc⟩, hother⟩ := HandleTask_fields m t
  have hn : (m.HandleTask t).nextCtx = m.nextCtx + 1 := by
    unfold TaskManager.HandleTask
    cases TaskMap.load m.tasks t.TaskID <;> rfl
  have hcan : ∀ c ∈ (m.HandleTask t).cancelled, c < m.nextCtx := by
    intro c hc
    cases hl : TaskMap.load m.tasks t.TaskID with
    | none =>
      have hm : (m.HandleTask t).cancelled = m.cancelled := by
        simp [TaskManager.HandleTask, hl]
      rw [hm] at hc
      exact hc1 c hc
    | some old =>
      have hm : (m.HandleTask t).cancelled = old.Cancel :: m.cancelled := by
        simp [TaskManager.HandleTask, hl]
      rw [hm] at hc
      rcases List.mem_cons.mp hc with hc | hc
      · rw [hc]
        exact hc2 _ (TaskMap.mem_of_load _ _ _ hl)
      · exact hc1 c hc
  have htab : ∀ e ∈ (m.HandleTask t).tasks, e.2.Cancel < m.nextCtx + 1 := by
    intro e he
    cases hl : TaskMap.load m.tasks t.TaskID with
    | none =>
      have hm : (m.HandleTask t).tasks = TaskMap.store m.tasks t.TaskID
          { ID := t.TaskID, Typ := t.Typ, Cancel := m.nextCtx, Interval := t.Interval } := by
        simp [TaskManager.HandleTask, hl]
      rw [hm] at he
      simp only [TaskMap.store, TaskMap.delete, List.mem_append, List.mem_filter,
        List.mem_singleton] at he
      rcases he with ⟨he, _⟩ | rfl
      · exact Nat.lt_succ_of_lt (hc2 e he)
      · exact Nat.lt_succ_self _
    | some old =>
      have hm : (m.HandleTask t).tasks =
          TaskMap.store (TaskMap.delete m.tasks t.TaskID) t.TaskID
            { ID := t.TaskID, Typ := t.Typ, Cancel := m.nextCtx, Interval := t.Interval } := by
        simp [TaskManager.HandleTask, hl]
      rw [hm] at he
      simp only [TaskMap.store, TaskMap.delete, List.mem_append, List.mem_filter,
        List.mem_singleton] at he
      rcases he with ⟨⟨he, _⟩, _⟩ | rfl
      · exact Nat.lt_succ_of_lt (hc2 e he)
      · exact Nat.lt_succ_self _
  refine ⟨?_, ?_, ?_⟩
  · rw [hn]
    exact fun c hc => Nat.lt_succ_of_lt (hcan c hc)
  · rw [hn]
    exact htab
  · rw [hn, hw]
    intro w hwm
    simp only [List.mem_append, List.mem_singleton] at hwm
    rcases hwm with hwm | rfl
    · exact Nat.lt_succ_of_lt (hc3 w hwm)
    · exact Nat.lt_succ_self _

theorem workerStep_nextCtx (m : TaskManager) (i : Nat) :
    (m.workerStep i).nextCtx = m.nextCtx := by
  unfold TaskManager.workerStep
  split
  · rfl
  · split <;> (try split_ifs) <;> rfl

theorem apply_preserves_contextsBelow (m : TaskManager) (e : TaskEvent)
    (h : m.ContextsBelow) : (m.apply e).ContextsBelow := by
  cases e with
  | assign t => exact HandleTask_preserves_contextsBelow m t h
  | cancel k =>
    obtain ⟨h1, h2, h3⟩ := h
    cases hl : TaskMap.load m.tasks k with
    | none =>
      have hm : m.CancelTask k = m := by simp [TaskManager.CancelTask, hl]
      simp only [TaskManager.apply, hm]
      exact ⟨h1, h2, h3⟩
    | some old =>
      have hm : m.CancelTask k =
          { m with cancelled := old.Cancel :: m.cancelled, tasks := TaskMap.delete m.tasks k } := by
        simp [TaskManager.CancelTask, hl]
      simp only [TaskManager.apply, hm]
      refine ⟨?_, ?_, h3⟩
      · intro c hc
        rcases List.mem_cons.mp hc with hc | hc
        · rw [hc]
          exact h2 _ (TaskMap.mem_of_load _ _ _ hl)
        · exact h1 c hc
      · intro e he
        exact h2 e (List.mem_of_mem_filter he)
  | step i =>
    obtain ⟨h1, h2, h3⟩ := h
    have hn := workerStep_nextCtx m i
    rcases workerStep_cases m i with heq | ⟨l1, w, l2, ph, hl, _, hw, hc, htasks⟩
    · simp only [TaskManager.apply, heq]
      exact ⟨h1, h2, h3⟩
    · simp only [TaskManager.apply]
      refine ⟨?_, ?_, ?_⟩
      · rw [hc, hn]
        exact h1
      · rw [hn]
        rcases htasks with ht | ⟨_, _, ht⟩
        · rw [ht]
          exact h2
        · rw [ht]
          intro e he
          exact h2 e (List.mem_of_mem_filter he)
      · rw [hn, hw]
        intro x hx
        rw [List.mem_append, List.mem_cons] at hx
        rcases hx with hx | rfl | hx
        · exact h3 x (by rw [hl]; exact List.mem_append_left _ hx)
        · exact h3 w (by rw [hl]; exact List.mem_append_right _ (List.mem_cons_self _ _))
        · exact h3 x (by rw [hl]; exact List.mem_append_right _ (List.mem_cons_of_mem _ hx))

/-- Every state a new task manager reaches keeps its contexts below `nextCtx`. -/
theorem run_contextsBelow (evs : List TaskEvent) : (NewTaskManager.run evs).ContextsBelow := by
  have hgen : ∀ (l : List TaskEvent) (m : TaskManager), m.ContextsBelow →
      (m.run l).ContextsBelow := by
    intro l
    induction l with
    | nil => intro m h; exact h
    | cons e l ih => intro m h; exact ih _ (apply_preserves_contextsBelow m e h)
  exact hgen evs NewTaskManager
    ⟨(by intro c hc; cases hc), (by intro e he; cases he), (by intro w hw; cases hw)⟩

theorem HandleTask_preserves_active (m : TaskManager) (t : TaskAssignPayload)
    (h2 : m.ActiveRegistered) (h4 : m.ActiveLatest) :
    (m.HandleTask t).ActiveRegistered ∧ (m.HandleTask t).ActiveLatest := by
  obtain ⟨hw, hmono, hold, ⟨rt, hrt, hrtc⟩, hother⟩ := HandleTask_fields m t
  have hkey : ∀ w ∈ m.workers, w.phase ≠ .exited → w.ctx ∉ (m.HandleTask t).cancelled →
      w.task.TaskID ≠ t.TaskID := by
    intro w hwm hph hc heq
    obtain ⟨r, hr, hrc⟩ := h2 w hwm hph (fun hin => hc (hmono _ hin))
    rw [heq] at hr
    exact hc (hrc ▸ hold r hr)
  constructor
  · intro w hwm hph hc
    rw [hw, List.mem_append, List.mem_singleton] at hwm
    rcases hwm with hwm | rfl
    · have hne := hkey w hwm hph hc
      rw [hother _ hne]
      exact h2 w hwm hph (fun hin => hc (hmono _ hin))
    · exact ⟨rt, hrt, hrtc⟩
  · unfold TaskManager.ActiveLatest
    rw [hw, List.pairwise_append]
    refine ⟨?_, List.pairwise_singleton _ _, ?_⟩
    · exact List.Pairwise.imp (fun {a b} hab hph hc => hab hph (fun hin => hc (hmono _ hin))) h4
    · intro a ha b hb hph hc
      rw [List.mem_singleton] at hb
      subst hb
      exact fun heq => hkey a ha hph hc heq.symm

theorem CancelTask_preserves_active (m : TaskManager) (k : String)
    (h2 : m.ActiveRegistered) (h4 : m.ActiveLatest) :
    (m.CancelTask k).ActiveRegistered ∧ (m.CancelTask k).ActiveLatest := by
  obtain ⟨hw, hmono, hold, hother⟩ := CancelTask_fields m k
  constructor
  · intro w hwm hph hc
    rw [hw] at hwm
    obtain ⟨r, hr, hrc⟩ := h2 w hwm hph (fun hin => hc (hmono _ hin))
    have hne : w.task.TaskID ≠ k := by
      intro heq
      rw [heq] at hr
      exact hc (hrc ▸ hold r hr)
    rw [hother _ hne]
    exact ⟨r, hr, hrc⟩
  · unfold TaskManager.ActiveLatest
    rw [hw]
    exact List.Pairwise.imp (fun {a b} hab hph hc => hab hph (fun hin => hc (hmono _ hin))) h4

theorem workerStep_preserves_active (m : TaskManager) (i : Nat)
    (h2 : m.ActiveRegistered) (h4 : m.ActiveLatest)
    (hs : oneShotNotReassigned (m.workers.map (fun w => w.task))) :
    (m.workerStep i).ActiveRegistered ∧ (m.workerStep i).ActiveLatest := by
  rcases workerStep_cases m i with heq | ⟨l1, w, l2, ph, hl, hwph, hw, hc, htasks⟩
  · rw [heq]
    exact ⟨h2, h4⟩
  · unfold TaskManager.ActiveLatest at h4
    unfold oneShotNotReassigned at hs
    rw [hl] at h4
    rw [hl, List.pairwise_map] at hs
    rw [List.pairwise_append, List.pairwise_cons] at h4 hs
    obtain ⟨h4a, ⟨h4w, h4b⟩, h4c⟩ := h4
    obtain ⟨_, ⟨hsw, _⟩, _⟩ := hs
    constructor
    · intro x hx hxph hxc
      rw [hw, List.mem_append, List.mem_cons] at hx
      rw [hc] at hxc
      have hreg : ∀ y ∈ m.workers, y.phase ≠ .exited → y.ctx ∉ m.cancelled →
          (y.task.TaskID ≠ w.task.TaskID ∨ (m.workerStep i).tasks = m.tasks) →
          ∃ rt, TaskMap.load (m.workerStep i).tasks y.task.TaskID = some rt ∧
            rt.Cancel = y.ctx := by
        intro y hy hyph hyc hcase
        rcases htasks with ht | ⟨_, _, ht⟩
        · rw [ht]
          exact h2 y hy hyph hyc
        · rcases hcase with hne | ht2
          · rw [ht, TaskMap.load_delete_other _ _ _ hne]
            exact h2 y hy hyph hyc
          · rw [ht2]
            exact h2 y hy hyph hyc
      rcases hx with hx | rfl | hx
      · have hne : x.task.TaskID ≠ w.task.TaskID := fun heq =>
          h4c x hx w (List.mem_cons_self _ _) hxph hxc heq.symm
        exact hreg x (by rw [hl]; exact List.mem_append_left _ hx) hxph hxc (Or.inl hne)
      · have hwm : w ∈ m.workers := by
          rw [hl]
          exact List.mem_append_right _ (List.mem_cons_self _ _)
        rcases htasks with ht | ⟨hex, _, _⟩
        · exact hreg w hwm hwph hxc (Or.inr ht)
        · exact absurd hex hxph
      · have hxm : x ∈ m.workers := by
          rw [hl]
          exact List.mem_append_right _ (List.mem_cons_of_mem _ hx)
        rcases htasks with ht | ⟨_, hone, ht⟩
        · exact hreg x hxm hxph hxc (Or.inr ht)
        · exact hreg x hxm hxph hxc (Or.inl (hsw x hx hone))
    · unfold TaskManager.ActiveLatest
      rw [hw, hc, List.pairwise_append, List.pairwise_cons]
      refine ⟨h4a, ⟨?_, h4b⟩, ?_⟩
      · intro b hb _ hxc
        exact h4w b hb hwph hxc
      · intro a ha b hb hph hac
        rw [List.mem_cons] at hb
        rcases hb with rfl | hb
        · exact h4c a ha w (List.mem_cons_self _ _) hph hac
        · exact h4c a ha b (List.mem_cons_of_mem _ hb) hph hac

theorem apply_worker_tasks (m : TaskManager) (e : TaskEvent) :
    (m.apply e).workers.map (fun w => w.task) =
      m.workers.map (fun w => w.task) ++ TaskEvent.assignments [e] := by
  cases e with
  | assign t =>
    simp [TaskManager.apply, (HandleTask_fields m t).1, TaskEvent.assignments]
  | cancel k =>
    simp [TaskManager.apply, (CancelTask_fields m k).1, TaskEvent.assignments]
  | step i =>
    simp only [TaskManager.apply, TaskEvent.assignments, List.append_nil]
    rcases workerStep_cases m i with heq | ⟨l1, w, l2, ph, hl, _, hw, _, _⟩
    · rw [heq]
    · rw [hw, hl]
      simp

theorem assignments_cons (e : TaskEvent) (evs : List TaskEvent) :
    TaskEvent.assignments (e :: evs) = TaskEvent.assignments [e] ++ TaskEvent.assignments evs := by
  cases e <;> simp [TaskEvent.assignments]

theorem run_preserves_active (evs : List TaskEvent) :
    ∀ m : TaskManager, m.ActiveRegistered → m.ActiveLatest →
      oneShotNotReassigned (m.workers.map (fun w => w.task) ++ TaskEvent.assignments evs) →
      (m.run evs).ActiveRegistered ∧ (m.run evs).ActiveLatest := by
  induction evs with
  | nil => intro m h2 h4 _; exact ⟨h2, h4⟩
  | cons e evs ih =>
    intro m h2 h4 hs
    rw [assignments_cons, ← List.append_assoc, ← apply_worker_tasks] at hs
    have hstep : (m.apply e).ActiveRegistered ∧ (m.apply e).ActiveLatest := by
      cases e with
      | assign t => exact HandleTask_preserves_active m t h2 h4
      | cancel k => exact CancelTask_preserves_active m k h2 h4
      | step i =>
        refine workerStep_preserves_active m i h2 h4 ?_
        have h := (List.pairwise_append.mp hs).1
        rw [apply_worker_tasks] at h
        simpa [TaskEvent.assignments] using h
    exact ih (m.apply e) hstep.1 hstep.2 hs

theorem filter_length_le_one {α : Type} (p : α → Bool) (l : List α)
    (h : l.Pairwise (fun a b => p a = true → p b = true → False)) : (l.filter p).length ≤ 1 := by
  induction l with
  | nil => simp
  | cons a l ih =>
    rw [List.pairwise_cons] at h
    by_cases ha : p a = true
    · have hnil : l.filter p = [] := by
        rw [List.filter_eq_nil_iff]
        intro b hb hpb
        exact h.1 b hb ha hpb
      simp [List.filter_cons, ha, hnil]
    · simp only [List.filter_cons, ha]
      exact ih h.2

/-- C19, amended. For every sequence of task assignments, cancellations and worker steps
from a new task manager in which no task id assigned as a one-shot task is assigned again
later, every task id has at most one worker that has not returned and whose context is not
cancelled, and so at most one run in flight on a context that is not cancelled. -/
theorem uncancelled_run_unique (evs : List TaskEvent)
    (h : oneShotNotReassigned (TaskEvent.assignments evs)) (taskID : String) :
    ((NewTaskManager.run evs).activeWorkers taskID).length ≤ 1 ∧
    (NewTaskManager.run evs).inFlightUncancelled taskID ≤ 1 := by
  have hinv := run_preserves_active evs NewTaskManager
    (by intro w hw; cases hw) List.Pairwise.nil (by simpa [NewTaskManager] using h)
  have hact : ((NewTaskManager.run evs).activeWorkers taskID).length ≤ 1 := by
    unfold TaskManager.activeWorkers
    apply filter_length_le_one
    refine List.Pairwise.imp ?_ hinv.2
    intro a b hab ha hb
    simp only [decide_eq_true_eq] at ha hb
    exact hab ha.2.1 ha.2.2 (hb.1.trans ha.1.symm)
  refine ⟨hact, le_trans ?_ hact⟩
  unfold TaskManager.inFlightUncancelled TaskManager.activeWorkers
  apply List.Sublist.length_le
  apply List.monotone_filter_right
  intro w hw
  simp only [decide_eq_true_eq] at hw ⊢
  exact ⟨hw.1, by rw [hw.2.1]; decide, hw.2.2⟩

theorem uncancelled_run_unique_witness :
    ((NewTaskManager.run
      [.assign { TaskID := "t1", Typ := "ping", Target := "example.org", ScriptID := "",
                 Params := [], Interval := 30, Timeout := 5 },
       .step 0,
       .assign { TaskID := "t1", Typ := "ping", Target := "example.org", ScriptID := "",
                 Params := [], Interval := 30, Timeout := 5 },
       .step 1]).activeWorkers "t1").length ≤ 1 ∧
    (NewTaskManager.run
      [.assign { TaskID := "t1", Typ := "ping", Target := "example.org", ScriptID := "",
                 Params := [], Interval := 30, Timeout := 5 },
       .step 0,
       .assign { TaskID := "t1", Typ := "ping", Target := "example.org", ScriptID := "",
                 Params := [], Interval := 30, Timeout := 5 },
       .step 1]).inFlightUncancelled "t1" ≤ 1 :=
  uncancelled_run_unique
    [.assign { TaskID := "t1", Typ := "ping", Target := "example.org", ScriptID := "",
               Params := [], Interval := 30, Timeout := 5 },
     .step 0,
     .assign { TaskID := "t1", Typ := "ping", Target := "example.org", ScriptID := "",
               Params := [], Interval := 30, Timeout := 5 },
     .step 1]
    (by simp [oneShotNotReassigned, TaskEvent.assignments]) "t1"

/-! ### Ping executor -/

theorem okLatencies_cons_length {F : Type} (p : Probe F) (rest : List (Probe F)) :
    (okLatencies (p :: rest)).length =
      (okLatencies rest).length + (match p with | .ok _ => 1 | _ => 0) := by
  cases p <;> simp [okLatencies]

theorem pingLoop_uncancelled {F : Type} (A : FloatOps F) (probe : Nat → Probe F) (n : Nat) :
    ∀ (i : Nat) (successCount : Int) (totalLatency : F),
      (∀ j, i ≤ j → j < i + n → probe j ≠ .cancelled) →
      pingLoop A probe n i successCount totalLatency =
        some (successCount + ((okLatencies ((List.range' i n).map probe)).length : Int),
          (okLatencies ((List.range' i n).map probe)).foldl A.add totalLatency) := by
  induction n with
  | zero =>
    intro i sc tl _
    simp [pingLoop, okLatencies]
  | succ n ih =>
    intro i sc tl h
    have hrest : ∀ j, i + 1 ≤ j → j < i + 1 + n → probe j ≠ .cancelled := by
      intro j h1 h2
      exact h j (by omega) (by omega)
    have hi := h i (le_refl _) (by omega)
    rw [List.range'_succ, List.map_cons]
    cases hp : probe i with
    | cancelled => exact absurd hp hi
    | failed =>
      simp only [pingLoop, hp, okLatencies]
      exact ih (i + 1) sc tl hrest
    | ok latency =>
      simp only [pingLoop, hp, okLatencies]
      rw [ih (i + 1) (sc + 1) (A.add tl latency) hrest]
      simp only [List.length_cons, List.foldl_cons, Nat.cast_add, Nat.cast_one]
      congr 2
      ring

theorem Execute_uncancelled {F : Type} (A : FloatOps F) (N : Nat) (target : String)
    (probe : Nat → Probe F) (huncancelled : ∀ i, i < N → probe i ≠ .cancelled) :
    PingExecutor.Execute A N target probe =
      ({ Target := target
         Latency :=
           if ((okLatencies ((List.range N).map probe)).length : Int) > 0 then
             A.div ((okLatencies ((List.range N).map probe)).foldl A.add (A.ofInt 0))
               (A.ofInt (okLatencies ((List.range N).map probe)).length)
           else A.ofInt (-1)
         PacketLoss :=
           A.mul (A.div (A.ofInt ((N : Int) - (okLatencies ((List.range N).map probe)).length))
             (A.ofInt N)) (A.ofInt 100)
         Success := decide (((okLatencies ((List.range N).map probe)).length : Int) > 0)
         Error :=
           if ((okLatencies ((List.range N).map probe)).length : Int) > 0 then ""
           else "all pings failed" }, none) := by
  have hloop := pingLoop_uncancelled A probe N 0 0 (A.ofInt 0)
    (fun j _ h => huncancelled j (by omega))
  rw [← List.range_eq_range', zero_add] at hloop
  simp only [PingExecutor.Execute, Int.toNat_ofNat, hloop]

/-- C20. For every probe count `N ≥ 1` and every `N` probe outcomes of an uncancelled
`PingExecutor.Execute`, with `s` the number of successes: no error is returned and
`packet_loss = (N − s)/N × 100`; if `s > 0` then `success = true` and the latency is the
sum of the successful latencies, taken in order from zero, divided by `s`; if `s = 0` then
`success = false`, `latency = −1`, `packet_loss = 100` and the error text is
"all pings failed". The float arithmetic is any `A` in which `N/N = 1` and
`1 × 100 = 100`. -/
theorem Execute_spec {F : Type} (A : FloatOps F) (N : Nat) (target : String)
    (probe : Nat → Probe F) (_hN : 1 ≤ N)
    (huncancelled : ∀ i, i < N → probe i ≠ .cancelled)
    (hdiv : A.div (A.ofInt N) (A.ofInt N) = A.ofInt 1)
    (hmul : A.mul (A.ofInt 1) (A.ofInt 100) = A.ofInt 100) :
    (PingExecutor.Execute A N target probe).2 = none ∧
    (PingExecutor.Execute A N target probe).1.Target = target ∧
    (PingExecutor.Execute A N target probe).1.PacketLoss =
      A.mul (A.div (A.ofInt ((N : Int) - (okLatencies ((List.range N).map probe)).length))
        (A.ofInt N)) (A.ofInt 100) ∧
    (0 < (okLatencies ((List.range N).map probe)).length →
      (PingExecutor.Execute A N target probe).1.Success = true ∧
      (PingExecutor.Execute A N target probe).1.Latency =
        A.div ((okLatencies ((List.range N).map probe)).foldl A.add (A.ofInt 0))
          (A.ofInt (okLatencies ((List.range N).map probe)).length) ∧
      (PingExecutor.Execute A N target probe).1.Error = "") ∧
    ((okLatencies ((List.range N).map probe)).length = 0 →
      (PingExecutor.Execute A N target probe).1.Success = false ∧
      (PingExecutor.Execute A N target probe).1.Latency = A.ofInt (-1) ∧
      (PingExecutor.Execute A N target probe).1.PacketLoss = A.ofInt 100 ∧
      (PingExecutor.Execute A N target probe).1.Error = "all pings failed") := by
  rw [Execute_uncancelled A N target probe huncancelled]
  refine ⟨rfl, rfl, rfl, ?_, ?_⟩
  · intro hs
    have hs2 : ((okLatencies ((List.range N).map probe)).length : Int) > 0 := by
      exact_mod_cast hs
    simp only [hs2, if_true, decide_True]
    exact ⟨trivial, trivial, trivial⟩
  · intro hs
    simp only [hs, Nat.cast_zero, gt_iff_lt, lt_self_iff_false, if_false, decide_False,
      sub_zero, hdiv, hmul]
    exact ⟨trivial, trivial, trivial, trivial⟩

theorem Execute_spec_witness :
    (PingExecutor.Execute ratOps (4 : Nat) "example.org:9"
      (fun _ => (Probe.failed : Probe ℚ))).1.PacketLoss = ratOps.ofInt 100 ∧
    (PingExecutor.Execute ratOps (4 : Nat) "example.org:9"
      (fun _ => (Probe.failed : Probe ℚ))).1.Latency = ratOps.ofInt (-1) :=
  have h := Execute_spec ratOps 4 "example.org:9" (fun _ => (Probe.failed : Probe ℚ))
    (by decide) (by intro i _ h; cases h) (by simp [ratOps]) (by simp [ratOps])
  ⟨(h.2.2.2.2 (by simp [okLatencies, List.range, List.range.loop])).2.2.1,
   (h.2.2.2.2 (by simp [okLatencies, List.range, List.range.loop])).2.1⟩

/-- In exact arithmetic the latency of a run with at least one success is the arithmetic
mean of the successful latencies, and the packet loss is `(N − s)/N × 100`. -/
theorem Execute_exact (N : Nat) (target : String) (probe : Nat → Probe ℚ)
    (huncancelled : ∀ i, i < N → probe i ≠ .cancelled)
    (hs : 0 < (okLatencies ((List.range N).map probe)).length) :
    (PingExecutor.Execute ratOps N target probe).1.Latency =
      (okLatencies ((List.range N).map probe)).sum /
        ((okLatencies ((List.range N).map probe)).length : ℚ) ∧
    (PingExecutor.Execute ratOps N target probe).1.PacketLoss =
      (((N : ℚ) - (okLatencies ((List.range N).map probe)).length) / N) * 100 := by
  have hs2 : ((okLatencies ((List.range N).map probe)).length : Int) > 0 := by
    exact_mod_cast hs
  rw [Execute_uncancelled ratOps N target probe huncancelled]
  refine ⟨?_, ?_⟩
  · simp only [hs2, if_true, ratOps, Int.cast_zero, Int.cast_natCast]
    rw [List.sum_eq_foldl]
  · simp [ratOps]

/-- Three probes with latencies 10, failure and 20 ms: latency 15, packet loss 100/3. -/
theorem Execute_example :
    (PingExecutor.Execute ratOps 3 "example.org:80"
      (fun i => if i = 0 then Probe.ok 10 else if i = 1 then Probe.failed else Probe.ok 20)).1 =
      { Target := "example.org:80", Latency := 15, PacketLoss := 100 / 3, Success := true,
        Error := "" } := by
  simp [PingExecutor.Execute, pingLoop, ratOps]
  norm_num

/-! ### Probe address -/

theorem indexByte_eq_none (s : List Char) (c : Char) (h : c ∉ s) : indexByte s c = none := by
  induction s with
  | nil => rfl
  | cons x xs ih =>
    simp only [List.mem_cons, not_or] at h
    have hx : ¬ x = c := fun h2 => h.1 h2.symm
    simp [indexByte, ih h.2, hx]

theorem indexByte_isSome (s : List Char) (c : Char) (h : c ∈ s) :
    (indexByte s c).isSome = true := by
  induction s with
  | nil => cases h
  | cons x xs ih =>
    by_cases hx : x = c
    · simp [indexByte, hx]
    · have hm : c ∈ xs := by
        rcases List.mem_cons.mp h with h1 | h1
        · exact absurd h1.symm hx
        · exact h1
      have := ih hm
      simp only [indexByte, hx, if_false, Option.isSome_map']
      exact this

/-- A target without any colon is dialled on port 80. -/
theorem tcpPingAddr_no_colon (target : String) (h : ':' ∉ target.data) :
    tcpPingAddr target = target ++ ":80" := by
  have h1 : SplitHostPort target.data = .error "missing port in address" := by
    simp only [SplitHostPort, lastIndex_eq_none target.data ':' h]
  have h2 : JoinHostPort target.data "80".data = target.data ++ ":80".data := by
    simp [JoinHostPort, indexByte_eq_none target.data ':' h]
  simp only [tcpPingAddr, h1, h2]
  apply String.ext
  simp

/-- A target `host:port` whose host and port hold no colon and no bracket is dialled as it
is. -/
theorem tcpPingAddr_host_port (host port : List Char)
    (hh : ':' ∉ host) (hp : ':' ∉ port) (hho : '[' ∉ host) (hhc : ']' ∉ host)
    (hpo : '[' ∉ port) (hpc : ']' ∉ port) :
    tcpPingAddr (String.mk (host ++ ':' :: port)) = String.mk (host ++ ':' :: port) := by
  have hlast := lastIndex_append host port ':' hp
  have hhead : (host ++ ':' :: port).head? ≠ some '[' := by
    cases host with
    | nil => simp
    | cons x xs =>
      simp only [List.mem_cons, not_or] at hho
      simp only [List.cons_append, List.head?_cons, ne_eq, Option.some.injEq]
      exact fun h => hho.1 h.symm
  have hopen : indexByte (host ++ ':' :: port) '[' = none := by
    apply indexByte_eq_none
    simp only [List.mem_append, List.mem_cons, not_or]
    exact ⟨hho, by decide, hpo⟩
  have hclose : indexByte (host ++ ':' :: port) ']' = none := by
    apply indexByte_eq_none
    simp only [List.mem_append, List.mem_cons, not_or]
    exact ⟨hhc, by decide, hpc⟩
  have hsplit : SplitHostPort (host ++ ':' :: port) = .ok (host, port) := by
    simp only [SplitHostPort, hlast, hhead, if_false, List.take_left', List.drop_zero,
      indexByte_eq_none host ':' hh, Option.isSome_none, hopen, hclose, Bool.false_eq_true]
    simp
  simp only [tcpPingAddr, hsplit, JoinHostPort, indexByte_eq_none host ':' hh,
    Option.isSome_none, Bool.false_eq_true, if_false]
  simp

/-- C21. A bracketed IPv6 literal without a port: the target `[::1]` names no port
(`net.SplitHostPort` rejects it), and the address dialled is `[[::1]]:80`, which is not a
host and port (`net.SplitHostPort` rejects it as well); the bare literal `::1` is dialled as
`[::1]:80`. -/
theorem bracketed_target_dials_malformed_address :
    (∃ e, SplitHostPort "[::1]".data = .error e) ∧
    tcpPingAddr "[::1]" = "[[::1]]:80" ∧
    (∃ e, SplitHostPort "[[::1]]:80".data = .error e) ∧
    tcpPingAddr "::1" = "[::1]:80" ∧
    SplitHostPort "[::1]:80".data = .ok ("::1".data, "80".data) := by
  refine ⟨⟨_, rfl⟩, by decide, ⟨_, rfl⟩, by decide, rfl⟩

/-! ### Script executor and task body -/

/-- Whenever the script case of `runTask` starts the shell, the timeout of its execution
context is 60 s. -/
theorem runCommand_shell (e : ScriptExecutor) (w : ScriptWorld) (files : List String)
    (durationString : Int → String) (scriptPath : String) (params : List (String × String)) :
    (e.runCommand w files durationString scriptPath params).shell =
      some (e.command w scriptPath params) := by
  unfold ScriptExecutor.runCommand
  cases w.run e.timeout <;> rfl

theorem runScriptTask_deadline (w : ScriptWorld) (files : List String)
    (durationString : Int → String) (task : TaskAssignPayload) (call : ShellCall)
    (h : (runScriptTask w files durationString task).shell = some call) :
    call.deadline = 60 * timeSecond := by
  unfold runScriptTask ScriptExecutor.Execute at h
  cases hd : w.download with
  | failed err => simp [hd] at h
  | copyFailed path err => simp [hd] at h
  | saved path content =>
    simp only [hd] at h
    split_ifs at h
    · rw [runCommand_shell] at h
      simp only [Option.some.injEq] at h
      rw [← h]
      rfl

/-- C22. A script assignment with `timeout` 5 whose script runs for 10 s: the shell is
started under a timeout of 60 s, not 5 s, the script runs to its end and the result is a
success. -/
theorem script_deadline_ignores_task_timeout :
    (runScriptTask
      { download := .saved "/scripts/script_s1_1" "sleep 10; echo done", openError := none,
        sha256hex := fun _ => "00",
        run := fun d => if d < 10 * timeSecond then .deadline "" "" else .exited 0 "done" "",
        elapsed := 10000, windows := false, environ := [] }
      [] (fun _ => "1m0s")
      { TaskID := "t1", Typ := "script", Target := "", ScriptID := "s1", Params := [],
        Interval := 0, Timeout := 5 }).shell =
      some { name := "/bin/sh", args := ["/scripts/script_s1_1"], env := [],
             deadline := 60 * timeSecond } ∧
    runTaskScript (fun _ => "")
      { TaskID := "t1", Typ := "script", Target := "", ScriptID := "s1", Params := [],
        Interval := 0, Timeout := 5 }
      10000 (fun _ => ({ Target := "", Latency := 0, PacketLoss := 0, Success := false,
                         Error := "" }, none))
      { download := .saved "/scripts/script_s1_1" "sleep 10; echo done", openError := none,
        sha256hex := fun _ => "00",
        run := fun d => if d < 10 * timeSecond then .deadline "" "" else .exited 0 "done" "",
        elapsed := 10000, windows := false, environ := [] }
      [] (fun _ => "1m0s") =
      { TaskID := "t1", Success := true, Output := "done", Error := "", Duration := 10000 } := by
  decide

/-- C23. A script that exceeds the timeout, and a file that cannot be read back for the
digest: in both runs the downloaded file still exists when `Execute` returns. -/
theorem script_file_left_behind :
    (ScriptExecutor.Execute TaskManager.scriptExecutor
      { download := .saved "/scripts/script_s1_1" "sleep 100", openError := none,
        sha256hex := fun _ => "00", run := fun _ => .deadline "" "", elapsed := 60000,
        windows := false, environ := [] }
      [] (fun _ => "1m0s") [] "").files = ["/scripts/script_s1_1"] ∧
    (ScriptExecutor.Execute TaskManager.scriptExecutor
      { download := .saved "/scripts/script_s1_1" "sleep 100", openError := none,
        sha256hex := fun _ => "00", run := fun _ => .deadline "" "", elapsed := 60000,
        windows := false, environ := [] }
      [] (fun _ => "1m0s") [] "").err = some "script execution timeout after 1m0s" ∧
    (ScriptExecutor.Execute TaskManager.scriptExecutor
      { download := .saved "/scripts/script_s1_1" "echo hi", openError := some "permission denied",
        sha256hex := fun _ => "00", run := fun _ => .exited 0 "hi" "", elapsed := 1,
        windows := false, environ := [] }
      [] (fun _ => "1m0s") [("checksum", "00")] "00").files = ["/scripts/script_s1_1"] := by
  decide

/-- Apart from the timeout and the unreadable file, `Execute` leaves no downloaded file:
after a download error, a checksum mismatch, a run that ends with any exit code and a
run that could not be started, the path of the download does not exist. -/
theorem Execute_removes_file (e : ScriptExecutor) (w : ScriptWorld) (files : List String)
    (durationString : Int → String) (params : List (String × String)) (expected : String)
    (path : String)
    (hpath : (∃ err, w.download = .copyFailed path err) ∨ ∃ content, w.download = .saved path content)
    (hread : expected ≠ "" → w.openError = none)
    (hrun : ∀ stdout stderr, w.run e.timeout ≠ .deadline stdout stderr) :
    path ∉ (ScriptExecutor.Execute e w files durationString params expected).files := by
  have hrm : ∀ l : List String, path ∉ removeFile l path := by
    intro l hin
    simp [removeFile] at hin
  unfold ScriptExecutor.Execute
  rcases hpath with ⟨err, hd⟩ | ⟨content, hd⟩
  · rw [hd]
    exact hrm _
  · rw [hd]
    simp only
    split_ifs with h1 h2
    · rw [hread h1.1] at h1
      simp at h1
    · exact hrm _
    · unfold ScriptExecutor.runCommand
      cases hr : w.run e.timeout with
      | deadline so se => exact absurd hr (hrun so se)
      | exited code so se => exact hrm _
      | failed err so se => exact hrm _

theorem append_ne_empty (a b : String) (h : a ≠ "") : a ++ b ≠ "" := by
  intro heq
  apply h
  have h1 := congrArg String.data heq
  simp only [String.data_append, List.append_eq_nil] at h1
  exact String.ext h1.1

/-- C24. For every script task, downloaded and read back for its digest, whose params
hold a non-empty checksum different from the hex SHA-256 digest of the content: no shell is
started, the downloaded file is removed, and the task result has `success = false`, an
empty output and the error text `checksum mismatch: expected <checksum>, got <digest>`,
which is not empty. -/
theorem checksum_mismatch_aborts (encode : JValue → String) (task : TaskAssignPayload)
    (duration : Int) (ping : String → PingResult ℚ × Option String) (w : ScriptWorld)
    (files : List String) (durationString : Int → String) (path content : String)
    (htype : task.Typ = "script") (hdl : w.download = .saved path content)
    (hread : w.openError = none) (hne : mapGet task.Params "checksum" ≠ "")
    (hdiff : mapGet task.Params "checksum" ≠ w.sha256hex content) :
    (runScriptTask w files durationString task).shell = none ∧
    path ∉ (runScriptTask w files durationString task).files ∧
    runTaskScript encode task duration ping w files durationString =
      { TaskID := task.TaskID, Success := false, Output := "",
        Error := "checksum mismatch: expected " ++ mapGet task.Params "checksum" ++ ", got " ++
          w.sha256hex content,
        Duration := duration } ∧
    (runTaskScript encode task duration ping w files durationString).Error ≠ "" := by
  have hrun : runScriptTask w files durationString task =
      { result := ScriptResult.failure "checksum mismatch" w.elapsed,
        err := some ("checksum mismatch: expected " ++ mapGet task.Params "checksum" ++
          ", got " ++ w.sha256hex content),
        files := removeFile (createFile files path) path, shell := none } := by
    have h1 : ¬ (mapGet task.Params "checksum" ≠ "" ∧ w.openError.isSome = true) := by
      rw [hread]
      simp
    have h2 : mapGet task.Params "checksum" ≠ "" ∧
        w.sha256hex content ≠ mapGet task.Params "checksum" := ⟨hne, fun h => hdiff h.symm⟩
    simp only [runScriptTask, ScriptExecutor.Execute, hdl, if_neg h1, if_pos h2]
  have hres : runTaskScript encode task duration ping w files durationString =
      { TaskID := task.TaskID, Success := false, Output := "",
        Error := "checksum mismatch: expected " ++ mapGet task.Params "checksum" ++ ", got " ++
          w.sha256hex content,
        Duration := duration } := by
    have hp : ¬ task.Typ = "ping" := by rw [htype]; decide
    simp only [runTaskScript, runTaskBody, if_neg hp, if_pos htype, hrun]
  refine ⟨by rw [hrun], ?_, hres, ?_⟩
  · rw [hrun]
    simp [removeFile]
  · rw [hres]
    simp only [String.append_assoc]
    exact append_ne_empty _ _ (by decide)

theorem checksum_mismatch_aborts_witness :
    (runTaskScript (fun _ => "")
      { TaskID := "t1", Typ := "script", Target := "", ScriptID := "s1",
        Params := [("checksum", "ab")], Interval := 0, Timeout := 5 }
      3 (fun _ => ({ Target := "", Latency := 0, PacketLoss := 0, Success := false,
                     Error := "" }, none))
      { download := .saved "/scripts/script_s1_1" "echo hi", openError := none,
        sha256hex := fun _ => "cd", run := fun _ => .exited 0 "hi" "", elapsed := 3,
        windows := false, environ := [] }
      [] (fun _ => "1m0s")).Error ≠ "" :=
  (checksum_mismatch_aborts (fun _ => "")
      { TaskID := "t1", Typ := "script", Target := "", ScriptID := "s1",
        Params := [("checksum", "ab")], Interval := 0, Timeout := 5 }
      3 (fun _ => ({ Target := "", Latency := 0, PacketLoss := 0, Success := false,
                     Error := "" }, none))
      { download := .saved "/scripts/script_s1_1" "echo hi", openError := none,
        sha256hex := fun _ => "cd", run := fun _ => .exited 0 "hi" "", elapsed := 3,
        windows := false, environ := [] }
      [] (fun _ => "1m0s") "/scripts/script_s1_1" "echo hi" rfl rfl rfl (by decide)
      (by decide)).2.2.2

/-- C25. Two script results with `success = false` and an empty error: a script that
exits with code 3 and writes nothing to stderr, and a shell that could not be started. -/
theorem failed_script_result_without_error :
    runTaskScript (fun _ => "")
      { TaskID := "t1", Typ := "script", Target := "", ScriptID := "s1", Params := [],
        Interval := 0, Timeout := 5 }
      12 (fun _ => ({ Target := "", Latency := 0, PacketLoss := 0, Success := false,
                      Error := "" }, none))
      { download := .saved "/scripts/script_s1_1" "exit 3", openError := none,
        sha256hex := fun _ => "00", run := fun _ => .exited 3 "" "", elapsed := 12,
        windows := false, environ := [] }
      [] (fun _ => "1m0s") =
      { TaskID := "t1", Success := false, Output := "", Error := "", Duration := 12 } ∧
    runTaskScript (fun _ => "")
      { TaskID := "t1", Typ := "script", Target := "", ScriptID := "s1", Params := [],
        Interval := 0, Timeout := 5 }
      1 (fun _ => ({ Target := "", Latency := 0, PacketLoss := 0, Success := false,
                     Error := "" }, none))
      { download := .saved "/scripts/script_s1_1" "exit 3", openError := none,
        sha256hex := fun _ => "00",
        run := fun _ => .failed "fork/exec /bin/sh: no such file or directory" "" "",
        elapsed := 1, windows := false, environ := [] }
      [] (fun _ => "1m0s") =
      { TaskID := "t1", Success := false, Output := "", Error := "", Duration := 1 } := by
  decide

/-- The ping case and the unknown task type populate the error of a failed result: with
the ping executor run on any probes, and for any task type other than `ping` and
`script`, `success = false` implies a non-empty error. -/
theorem runTaskBody_error_populated (encode : JValue → String) (task : TaskAssignPayload)
    (duration : Int) (count : Int) (probe : Nat → Probe ℚ)
    (script : TaskAssignPayload → ScriptResult × Option String)
    (htype : task.Typ ≠ "script")
    (hfail : (runTaskBody encode task duration
      (fun target => PingExecutor.Execute ratOps count target probe) script).Success = false) :
    (runTaskBody encode task duration
      (fun target => PingExecutor.Execute ratOps count target probe) script).Error ≠ "" := by
  by_cases hp : task.Typ = "ping"
  · simp only [runTaskBody, if_pos hp] at hfail ⊢
    unfold PingExecutor.Execute at hfail ⊢
    cases hl : pingLoop ratOps probe count.toNat 0 0 (ratOps.ofInt 0) with
    | none =>
      simp only [hl]
      decide
    | some r =>
      obtain ⟨s, total⟩ := r
      simp only [hl] at hfail ⊢
      simp only [decide_eq_false_iff_not] at hfail
      simp only [hfail, decide_False, if_false, Bool.false_eq_true]
      decide
  · simp only [runTaskBody, if_neg hp, if_neg htype]
    decide

/-! ### Agent client -/

/-- Up to attempt 33 the backoff is `min(2^n, 60)` seconds. -/
theorem calculateBackoff_small (outOfRange : Int) (n : Nat) (h : n ≤ 33) :
    calculateBackoff outOfRange n = min (2 ^ n) 60 * timeSecond := by
  interval_cases n <;> rfl

/-- C26. At attempt 34 the product `2^34 × 10^9` leaves `int64` and wraps to a negative
duration, which is returned as it is because it is not above `maxBackoff`; the claimed
value is 60 s. From attempt 55 to 62 the product wraps to 0. -/
theorem backoff_overflows_at_attempt_34 (outOfRange : Int) :
    calculateBackoff outOfRange 33 = 60 * timeSecond ∧
    calculateBackoff outOfRange 34 = -1266874889709551616 ∧
    calculateBackoff outOfRange 34 ≠ min (2 ^ 34) 60 * timeSecond ∧
    calculateBackoff outOfRange 55 = 0 := by
  refine ⟨rfl, rfl, ?_, rfl⟩
  have h : calculateBackoff outOfRange 34 = -1266874889709551616 := rfl
  rw [h]
  decide

/-- C27. For every client: when the outbound queue holds 256 frames, `Send` returns the
`SendError` and leaves the client, queue included, as it was; when it holds fewer, `Send`
appends the encoded frame at the tail and returns nil; so after one frame of a queue of at
most 256 has been received by the write pump, `Send` returns nil. -/
theorem Send_spec (encode : JValue → Frame) (c : Client) (msg : Message) :
    (c.sendChan.length = 256 → c.Send encode msg = (c, some "send buffer full")) ∧
    (c.sendChan.length < 256 →
      c.Send encode msg = ({ c with sendChan := c.sendChan ++ [encode msg.marshal] }, none)) ∧
    (∀ first rest, c.sendChan = first :: rest → c.sendChan.length ≤ 256 →
      ({ c with sendChan := rest } : Client).Send encode msg =
        ({ c with sendChan := rest ++ [encode msg.marshal] }, none)) := by
  refine ⟨?_, ?_, ?_⟩
  · intro h
    simp [Client.Send, h]
  · intro h
    simp [Client.Send, h]
  · intro first rest hq hlen
    rw [hq, List.length_cons] at hlen
    have h : rest.length < 256 := by omega
    simp [Client.Send, h]

theorem Send_spec_witness :
    ({ NewClient with sendChan := List.replicate 256 "x" } : Client).Send (fun _ => "frame")
        (NewMessage MsgTypeHeartbeat "id" 0 .null) =
      ({ NewClient with sendChan := List.replicate 256 "x" }, some "send buffer full") ∧
    ({ NewClient with sendChan := List.replicate 255 "x" } : Client).Send (fun _ => "frame")
        (NewMessage MsgTypeHeartbeat "id" 0 .null) =
      ({ NewClient with sendChan := List.replicate 255 "x" ++ ["frame"] }, none) :=
  ⟨(Send_spec (fun _ => "frame") { NewClient with sendChan := List.replicate 256 "x" }
      (NewMessage MsgTypeHeartbeat "id" 0 .null)).1 (by simp),
   (Send_spec (fun _ => "frame") { NewClient with sendChan := List.replicate 256 "x" }
      (NewMessage MsgTypeHeartbeat "id" 0 .null)).2.2 "x" (List.replicate 255 "x") rfl
      (by simp)⟩

theorem run_reconnections (encode : JValue → Frame) (k : Nat) :
    ∀ c : Client, c.readPumps = 1 → c.reconnects = [] →
      (Client.run encode c (reconnections k)).readPumps = 1 ∧
      (Client.run encode c (reconnections k)).reconnects = [] ∧
      (Client.run encode c (reconnections k)).writePumps = c.writePumps + k ∧
      (Client.run encode c (reconnections k)).heartbeatLoops = c.heartbeatLoops + k ∧
      (Client.run encode c (reconnections k)).sendChan = c.sendChan := by
  induction k with
  | zero => intro c h1 h2; exact ⟨h1, h2, rfl, rfl, rfl⟩
  | succ k ih =>
    intro c h1 h2
    have hstep : Client.run encode c (reconnections (k + 1)) =
        Client.run encode
          { c with connected := true, readPumps := 1, reconnects := [],
                   writePumps := c.writePumps + 1, heartbeatLoops := c.heartbeatLoops + 1 }
          (reconnections k) := by
      simp [Client.run, reconnections, Client.step, Client.Run, h1, h2]
    rw [hstep]
    obtain ⟨a, b, c1, d, e⟩ := ih
      { c with connected := true, readPumps := 1, reconnects := [],
               writePumps := c.writePumps + 1, heartbeatLoops := c.heartbeatLoops + 1 } rfl rfl
    refine ⟨a, b, ?_, ?_, e⟩
    · rw [c1]
      simp only
      omega
    · rw [d]
      simp only
      omega

/-- After `k` reconnections one read pump, `k + 1` write pumps and `k + 1` heartbeat loops
are running. -/
theorem loops_after_reconnections (encode : JValue → Frame) (k : Nat) :
    (Client.run encode NewClient (.connect :: reconnections k)).readPumps = 1 ∧
    (Client.run encode NewClient (.connect :: reconnections k)).writePumps = k + 1 ∧
    (Client.run encode NewClient (.connect :: reconnections k)).heartbeatLoops = k + 1 := by
  have h := run_reconnections encode k (Client.step encode NewClient .connect) rfl rfl
  have hrun : Client.run encode NewClient (.connect :: reconnections k) =
      Client.run encode (Client.step encode NewClient .connect) (reconnections k) := rfl
  rw [hrun]
  refine ⟨h.1, ?_, ?_⟩
  · rw [h.2.2.1]
    simp [Client.step, Client.Run, NewClient]
    omega
  · rw [h.2.2.2.1]
    simp [Client.step, Client.Run, NewClient]
    omega

/-- C28. One loss of the connection followed by a reconnection: `reconnect` calls `Run`
again while the first write pump and heartbeat loop are still running, so two write pumps
and two heartbeat loops run beside the one read pump, and the next 30 s tick puts two
heartbeat frames into the queue. -/
theorem reconnect_duplicates_loops :
    (Client.run (fun _ => "heartbeat") NewClient
      [.connect, .disconnect, .reconnect true]).readPumps = 1 ∧
    (Client.run (fun _ => "heartbeat") NewClient
      [.connect, .disconnect, .reconnect true]).writePumps = 2 ∧
    (Client.run (fun _ => "heartbeat") NewClient
      [.connect, .disconnect, .reconnect true]).heartbeatLoops = 2 ∧
    (Client.run (fun _ => "heartbeat") NewClient
      [.connect, .heartbeat 30 (fun _ => "u")]).sendChan = ["heartbeat"] ∧
    (Client.run (fun _ => "heartbeat") NewClient
      [.connect, .disconnect, .reconnect true, .heartbeat 30 (fun _ => "u")]).sendChan =
      ["heartbeat", "heartbeat"] := by
  decide

/-! ### Hub: closing a queue twice -/

/-- C29. Connection 1 registers under id `a`; 257 broadcasts arrive while its write pump
drains nothing, so the 257th finds the queue full, removes the binding and closes the
queue; connection 2 registers under `a`; then the read pump of connection 1 exits and posts
its one unregister. The unregister case finds a binding under `a`, that of connection 2,
and closes the queue of connection 1 a second time: the hub loop panics. Every connection
was registered once and unregistered at most once. -/
theorem unregister_after_drop_closes_twice :
    (∃ h, Hub.run NewHub ([.register ⟨1, "a"⟩] ++ List.replicate 257 (.broadcast "x") ++
        [.register ⟨2, "a"⟩]) = .ok h ∧
      h.agents = [("a", ⟨2, "a"⟩)] ∧ (h.SendChan ⟨1, "a"⟩).closed = true) ∧
    Hub.run NewHub ([.register ⟨1, "a"⟩] ++ List.replicate 257 (.broadcast "x") ++
      [.register ⟨2, "a"⟩, .unregister ⟨1, "a"⟩]) = .error .closeOfClosed := by
  refine ⟨⟨_, rfl, ?_, ?_⟩, rfl⟩ <;> decide

/-! ### Configuration -/

theorem overrideWithEnv_fields (getenv : String → String) (parseInt : String → Option Int)
    (config : Config) :
    (getenv "PROBE_HOST" ≠ "" →
      (overrideWithEnv getenv parseInt config).Server.Host = getenv "PROBE_HOST") ∧
    (getenv "PROBE_DB_PATH" ≠ "" →
      (overrideWithEnv getenv parseInt config).Database.Path = getenv "PROBE_DB_PATH") ∧
    (getenv "PROBE_JWT_SECRET" ≠ "" →
      (overrideWithEnv getenv parseInt config).Auth.JWTSecret = getenv "PROBE_JWT_SECRET") ∧
    (getenv "PROBE_AGENT_TOKEN" ≠ "" →
      (overrideWithEnv getenv parseInt config).Agent.Token = getenv "PROBE_AGENT_TOKEN") := by
  refine ⟨?_, ?_, ?_, ?_⟩ <;> intro h <;> unfold overrideWithEnv <;> simp only [h] <;>
    (repeat' split) <;> simp_all

/-- When the file exists and decodes, the four variables override the fields. -/
theorem Load_overrides_decoded_file (data : JValue) (getenv : String → String)
    (parseInt : String → Option Int) (decoded : Config)
    (hdec : Config.unmarshal defaultConfig data = some decoded) :
    ∃ config, Load (.content (some data)) getenv parseInt = .ok config ∧
      (getenv "PROBE_HOST" ≠ "" → config.Server.Host = getenv "PROBE_HOST") ∧
      (getenv "PROBE_DB_PATH" ≠ "" → config.Database.Path = getenv "PROBE_DB_PATH") ∧
      (getenv "PROBE_JWT_SECRET" ≠ "" → config.Auth.JWTSecret = getenv "PROBE_JWT_SECRET") ∧
      (getenv "PROBE_AGENT_TOKEN" ≠ "" → config.Agent.Token = getenv "PROBE_AGENT_TOKEN") := by
  refine ⟨overrideWithEnv getenv parseInt decoded, ?_, overrideWithEnv_fields _ _ _⟩
  simp only [Load, hdec]

/-- C30. No file at the path and `PROBE_AGENT_TOKEN`, `PROBE_HOST`, `PROBE_DB_PATH` and
`PROBE_JWT_SECRET` all set: `Load` returns the built-in configuration, whose agent token
is empty and whose other fields are the defaults, none of them the value of its
variable. With the file `{}` present the same environment overrides all four. -/
theorem env_ignored_without_config_file :
    Load .notExist
        (fun k => if k = "PROBE_AGENT_TOKEN" then "s3cret" else if k = "PROBE_HOST" then
          "127.0.0.1" else if k = "PROBE_DB_PATH" then "/var/probe.db" else
          if k = "PROBE_JWT_SECRET" then "k3y" else "")
        (fun _ => none) =
      .ok { Server := { Host := "0.0.0.0", Port := 8080 }, Database := { Path := "probe.db" },
            Auth := { JWTSecret := "change-me-in-production" }, Agent := { Token := "" } } ∧
    Load (.content (some (.obj [])))
        (fun k => if k = "PROBE_AGENT_TOKEN" then "s3cret" else if k = "PROBE_HOST" then
          "127.0.0.1" else if k = "PROBE_DB_PATH" then "/var/probe.db" else
          if k = "PROBE_JWT_SECRET" then "k3y" else "")
        (fun _ => none) =
      .ok { Server := { Host := "127.0.0.1", Port := 8080 },
            Database := { Path := "/var/probe.db" }, Auth := { JWTSecret := "k3y" },
            Agent := { Token := "s3cret" } } := by
  refine ⟨rfl, ?_⟩
  simp [Load, Config.unmarshal, decStructInto, Config.fields, getField, defaultConfig,
    overrideWithEnv]

end ChickStatus
